import Mathlib

/-! Bundle adjustment of an SfM scene (`sfm_data_BA_ceres.cpp`).

A shallow embedding of `openMVG::sfm::Bundle_Adjustment_Ceres::Adjust` and of the
helpers defined next to it (`getAngles`, the two prior cost functors,
`IntrinsicsToCostFunction`, the options constructor).

Scalars are the elements of a linearly ordered field `α` (exact arithmetic); every
definition is computable, so that it can be run on rational inputs.  The C library
functions, the Ceres rotation conversions, the robust estimator and the Ceres solver
are collaborators that the source calls and does not define: they are the fields of
`Externals`.
-/

set_option autoImplicit false

namespace openMVG

/-! ## Numeric types (`openMVG/numeric`)

Vectors and matrices are records of their cells, so that equality of two scenes is
decided cell by cell. -/

/-- `Vec2`. -/
structure Vec2 (α : Type) where
  x : α
  y : α
deriving DecidableEq

/-- `Vec3`. -/
structure Vec3 (α : Type) where
  x : α
  y : α
  z : α
deriving DecidableEq

/-- `Mat3`, by rows. -/
structure Mat3 (α : Type) where
  r0 : Vec3 α
  r1 : Vec3 α
  r2 : Vec3 α
deriving DecidableEq

namespace Vec2

variable {α : Type}

/-- `v(i)`. -/
def coeff (v : Vec2 α) : Fin 2 → α
  | 0 => v.x
  | 1 => v.y

instance : CoeFun (Vec2 α) (fun _ => Fin 2 → α) := ⟨coeff⟩

instance [Sub α] : Sub (Vec2 α) := ⟨fun a b => ⟨a.x - b.x, a.y - b.y⟩⟩

end Vec2

namespace Vec3

variable {α : Type}

/-- `v(i)`. -/
def coeff (v : Vec3 α) : Fin 3 → α
  | 0 => v.x
  | 1 => v.y
  | 2 => v.z

instance : CoeFun (Vec3 α) (fun _ => Fin 3 → α) := ⟨coeff⟩

instance [Zero α] : Zero (Vec3 α) := ⟨⟨0, 0, 0⟩⟩
instance [Add α] : Add (Vec3 α) := ⟨fun a b => ⟨a.x + b.x, a.y + b.y, a.z + b.z⟩⟩
instance [Sub α] : Sub (Vec3 α) := ⟨fun a b => ⟨a.x - b.x, a.y - b.y, a.z - b.z⟩⟩
instance [Neg α] : Neg (Vec3 α) := ⟨fun a => ⟨-a.x, -a.y, -a.z⟩⟩

/-- `s * v`. -/
def smul [Mul α] (s : α) (v : Vec3 α) : Vec3 α := ⟨s * v.x, s * v.y, s * v.z⟩

/-- `v / s`. -/
def sdiv [Div α] (v : Vec3 α) (s : α) : Vec3 α := ⟨v.x / s, v.y / s, v.z / s⟩

/-- `a.dot(b)`. -/
def dot [Add α] [Mul α] (a b : Vec3 α) : α := a.x * b.x + a.y * b.y + a.z * b.z

/-- `a.cwiseProduct(b)`. -/
def cwiseProduct [Mul α] (a b : Vec3 α) : Vec3 α := ⟨a.x * b.x, a.y * b.y, a.z * b.z⟩

end Vec3

namespace Mat3

variable {α : Type}

/-- `R(i, j)`. -/
def coeff (R : Mat3 α) : Fin 3 → Fin 3 → α
  | 0 => R.r0.coeff
  | 1 => R.r1.coeff
  | 2 => R.r2.coeff

instance : CoeFun (Mat3 α) (fun _ => Fin 3 → Fin 3 → α) := ⟨coeff⟩

/-- `Mat3::Identity()`. -/
def Identity [Zero α] [One α] : Mat3 α := ⟨⟨1, 0, 0⟩, ⟨0, 1, 0⟩, ⟨0, 0, 1⟩⟩

/-- `R.transpose()`. -/
def transpose (R : Mat3 α) : Mat3 α :=
  ⟨⟨R.r0.x, R.r1.x, R.r2.x⟩, ⟨R.r0.y, R.r1.y, R.r2.y⟩, ⟨R.r0.z, R.r1.z, R.r2.z⟩⟩

instance [Neg α] : Neg (Mat3 α) := ⟨fun R => ⟨-R.r0, -R.r1, -R.r2⟩⟩

/-- `R * v`. -/
def mulVec [Add α] [Mul α] (R : Mat3 α) (v : Vec3 α) : Vec3 α :=
  ⟨R.r0.dot v, R.r1.dot v, R.r2.dot v⟩

/-- `A * B`. -/
def mul [Add α] [Mul α] (A B : Mat3 α) : Mat3 α :=
  let Bt := B.transpose
  ⟨⟨A.r0.dot Bt.r0, A.r0.dot Bt.r1, A.r0.dot Bt.r2⟩,
   ⟨A.r1.dot Bt.r0, A.r1.dot Bt.r1, A.r1.dot Bt.r2⟩,
   ⟨A.r2.dot Bt.r0, A.r2.dot Bt.r1, A.r2.dot Bt.r2⟩⟩

end Mat3

abbrev IndexT := Nat

/-- Modelled from the spec: the sentinel `UndefinedIndexT` of `openMVG/types.hpp` (not among
the sources), the largest value of the 32 bit index type, used for "no pose / no intrinsic". -/
def UndefinedIndexT : IndexT := 4294967295

/-- How a call can end without returning a value. -/
inductive Fault where
  /-- `std::out_of_range`, thrown by `.at(key)` on a map without `key`. -/
  | out_of_range
  /-- A read past the end of an Eigen vector (`v(i)` with `i ≥ v.size()`). -/
  | index_out_of_bounds
deriving DecidableEq, Repr

deriving instance DecidableEq for Except

/-- `Hash_Map<IndexT, V>`: the entries in iteration order. -/
abbrev Hash_Map (V : Type) := List (IndexT × V)

namespace Hash_Map

variable {V : Type}

/-- `m.find(k)`: the entry stored under `k`, if any. -/
def find (m : Hash_Map V) (k : IndexT) : Option V :=
  match m with
  | [] => none
  | (k', v) :: rest => if k' = k then some v else find rest k

/-- `m.count(k) != 0`. -/
def contains (m : Hash_Map V) (k : IndexT) : Bool := (find m k).isSome

/-- `m.at(k)`: the checked access, which throws when `k` is absent. -/
def at_ (m : Hash_Map V) (k : IndexT) : Except Fault V :=
  match find m k with
  | some v => .ok v
  | none => .error .out_of_range

/-- `m[k] = v`: overwrite the entry of `k`, or append a new one. -/
def set (m : Hash_Map V) (k : IndexT) (v : V) : Hash_Map V :=
  match m with
  | [] => [(k, v)]
  | (k', v') :: rest => if k' = k then (k, v) :: rest else (k', v') :: set rest k v

end Hash_Map

/-! ## The C library -/

/-- The functions of `<cmath>` the file calls.  `asin` is partial: outside `[-1, 1]` the
C function yields NaN, which is `none` here. -/
structure Libm (α : Type) where
  asin : α → Option α
  atan2 : α → α → α
  cos : α → α
  sin : α → α
  sqrt : α → α

/-- The C library over exact scalars, from the mathematical functions: `asin` has a value
on `[-1, 1]` only. -/
def Libm.ofTotal {α : Type} [LinearOrderedField α] (asin : α → α) (atan2 : α → α → α)
    (cos sin sqrt : α → α) : Libm α :=
  { asin := fun x => if |x| ≤ 1 then some (asin x) else none
    atan2 := atan2
    cos := cos
    sin := sin
    sqrt := sqrt }

namespace sfm

variable {α : Type} [LinearOrderedField α]

/-! ## `getAngles` -/

/-- The three cells `euler[0]`, `euler[1]`, `euler[2]` written by `getAngles`. -/
structure EulerAngles (α : Type) where
  X : α
  Y : Option α
  Z : α
deriving DecidableEq

/-- `const double EPS = 1.0e-6`. -/
def EPS : α := 1 / 1000000

/-- `getAngles(R, euler)`: the decomposition of `R` as `Rx.Ry.Rz`; `abs` is the absolute
value of the scalar type.

The scalars are numbers with one zero.  The code's `double` has two, and `atan2` tells
them apart in one place: `atan2(+0.0, c) = pi` and `atan2(-0.0, c) = -pi` for `c < 0`; the
first argument `-R(1,2)` or `-R(0,1)` is `-0.0` for a cell `+0.0`.  Where the first
argument of `atan2` is zero and the second is negative, this definition gives the one
value `m.atan2 0 c`, whatever the sign of the zero in the code.  Everywhere else the two
zeros give results that are equal as numbers. -/
def getAngles (m : Libm α) (R : Mat3 α) : EulerAngles α :=
  let Y := m.asin (R 0 2)
  if |(|R 0 2| - 1)| < EPS then
    { X := m.atan2 (R 2 1) (R 1 1), Y := Y, Z := 0 }
  else
    { X := m.atan2 (-R 1 2) (R 2 2), Y := Y, Z := m.atan2 (-R 0 1) (R 0 0) }

/-! ## Prior cost functors -/

/-- The functions of the Ceres header `ceres/rotation.h` the file calls, taken as given. -/
structure CeresRotation (α : Type) where
  AngleAxisRotatePoint : Vec3 α → Vec3 α → Vec3 α
  AngleAxisToRotationMatrix : Vec3 α → Mat3 α
  RotationMatrixToAngleAxis : Mat3 α → Vec3 α

structure PoseCenterConstraintCostFunction (α : Type) where
  weight_ : Vec3 α
  pose_center_constraint_ : Vec3 α
deriving DecidableEq

/-- `PoseCenterConstraintCostFunction::operator()`: the three residuals. -/
def PoseCenterConstraintCostFunction.residuals (rot : CeresRotation α)
    (f : PoseCenterConstraintCostFunction α) (cam_extrinsics : Fin 6 → α) : Vec3 α :=
  let cam_R : Vec3 α := ⟨cam_extrinsics 0, cam_extrinsics 1, cam_extrinsics 2⟩
  let cam_t : Vec3 α := ⟨cam_extrinsics 3, cam_extrinsics 4, cam_extrinsics 5⟩
  let cam_R_transpose : Vec3 α := -cam_R
  let pose_center : Vec3 α := rot.AngleAxisRotatePoint cam_R_transpose cam_t
  let pose_center : Vec3 α := ⟨pose_center.x * (-1), pose_center.y * (-1), pose_center.z * (-1)⟩
  f.weight_.cwiseProduct (pose_center - f.pose_center_constraint_)

structure PoseRotationConstraintCostFunction (α : Type) where
  weight_ : α
  pose_rotation_constraint_ : Mat3 α
deriving DecidableEq

/-- The expression assigned to `residuals[0]`, as a function of the yaw `R_euler(2)`
read from the pose. -/
def PoseRotationConstraintCostFunction.residualAtYaw (m : Libm α)
    (f : PoseRotationConstraintCostFunction α) (yaw : α) : α :=
  f.weight_ * ((m.cos yaw - m.cos (f.pose_rotation_constraint_ 0 0)) ^ 2
    + (m.sin yaw - m.sin (f.pose_rotation_constraint_ 0 0)) ^ 2)

/-- `PoseRotationConstraintCostFunction::operator()`: the single residual. -/
def PoseRotationConstraintCostFunction.residuals (m : Libm α) (rot : CeresRotation α)
    (f : PoseRotationConstraintCostFunction α) (cam_extrinsics : Fin 6 → α) : α :=
  let cam_R : Vec3 α := ⟨cam_extrinsics 0, cam_extrinsics 1, cam_extrinsics 2⟩
  let R_mat := rot.AngleAxisToRotationMatrix cam_R
  let R_euler := getAngles m R_mat
  f.residualAtYaw m R_euler.Z


end sfm

/-! ## Geometry (`openMVG/geometry`) -/

namespace geometry

variable {α : Type} [LinearOrderedField α]

/-- Modelled from the spec: the class `Pose3` of `openMVG/geometry/pose3.hpp` (not among the
sources), "rigid transform (rotation matrix, translation or center)": it stores the rotation
and the center, and the translation is `-(R * C)`. -/
structure Pose3 (α : Type) where
  rotation_ : Mat3 α
  center_ : Vec3 α
deriving DecidableEq

namespace Pose3

/-- `pose.rotation()`. -/
def rotation (p : Pose3 α) : Mat3 α := p.rotation_

/-- `pose.center()`. -/
def center (p : Pose3 α) : Vec3 α := p.center_

/-- `pose.translation()`. -/
def translation (p : Pose3 α) : Vec3 α := -(p.rotation_.mulVec p.center_)

/-- `pose(point)`: the point in the frame of the pose. -/
def apply (p : Pose3 α) (point : Vec3 α) : Vec3 α := p.rotation_.mulVec (point - p.center_)

/-- `pose.inverse()`. -/
def inverse (p : Pose3 α) : Pose3 α :=
  { rotation_ := p.rotation_.transpose, center_ := -(p.rotation_.mulVec p.center_) }

end Pose3

/-- Modelled from the spec: the class `Similarity3` of `openMVG/geometry/Similarity3.hpp` (not
among the sources), "scale + rotation + translation": a pose and a scale factor. -/
structure Similarity3 (α : Type) where
  pose_ : Pose3 α
  scale_ : α
deriving DecidableEq

namespace Similarity3

/-- The default constructor: identity pose, unit scale. -/
def identity : Similarity3 α :=
  { pose_ := { rotation_ := Mat3.Identity, center_ := 0 }, scale_ := 1 }

/-- `sim(point)`. -/
def applyPoint (sim : Similarity3 α) (point : Vec3 α) : Vec3 α :=
  Vec3.smul sim.scale_ (sim.pose_.apply point)

/-- `sim(pose)`. -/
def applyPose (sim : Similarity3 α) (pose : Pose3 α) : Pose3 α :=
  { rotation_ := pose.rotation_.mul sim.pose_.rotation_.transpose,
    center_ := sim.applyPoint pose.center_ }

/-- `sim.inverse()`. -/
def inverse (sim : Similarity3 α) : Similarity3 α :=
  { pose_ := sim.pose_.inverse, scale_ := 1 / sim.scale_ }

end Similarity3

end geometry

/-! ## Cameras (`openMVG/cameras`) -/

namespace cameras

/-- Modelled from the spec: the camera-model tag `EINTRINSIC` of
`openMVG/cameras/Camera_Common.hpp` (not among the sources): the six variants
"{Pinhole, Radial-1, Radial-3, Brown-T2, Fisheye, Spherical}", and any other value of the
enumeration, an "unrecognized/invalid camera-model variant". -/
inductive EINTRINSIC where
  | PINHOLE_CAMERA
  | PINHOLE_CAMERA_RADIAL1
  | PINHOLE_CAMERA_RADIAL3
  | PINHOLE_CAMERA_BROWN
  | PINHOLE_CAMERA_FISHEYE
  | CAMERA_SPHERICAL
  | UNRECOGNIZED (tag : Nat)
deriving DecidableEq, Repr

/-- Modelled from the spec: `isValid` of `Camera_Common.hpp` (not among the sources), true for
the six camera models and false for an unrecognized tag. -/
def isValid : EINTRINSIC → Bool
  | .UNRECOGNIZED _ => false
  | _ => true

/-- Modelled from the spec: the enumeration `Intrinsic_Parameter_Type` (not among the sources),
"{NONE, subset-flags for focal/principal-point/distortion}". -/
inductive Intrinsic_Parameter_Type where
  | NONE
  | ADJUST (focal_length principal_point distortion : Bool)
deriving DecidableEq, Repr

/-- Modelled from the spec: what `Adjust` reads of an `IntrinsicBase` object (the class is not
among the sources): its type tag and its "parameter vector (ordered, model-specific length,
possibly empty)". -/
structure IntrinsicBase (α : Type) where
  getType : EINTRINSIC
  getParams : List α
deriving DecidableEq

end cameras

/-! ## The scene (`openMVG/sfm/sfm_data.hpp`) -/

namespace sfm

open geometry cameras

variable {α : Type} [LinearOrderedField α]

/-- Modelled from the spec: the members `ViewPriors` adds to `View`
(`openMVG/sfm/sfm_view_priors.hpp`, not among the sources): "optional position prior (3D point
in reference frame, per-axis weight, usable flag) and optional orientation prior (3×3 matrix,
scalar weight, usable flag)". -/
structure ViewPriors (α : Type) where
  b_use_pose_center_ : Bool
  center_weight_ : Vec3 α
  pose_center_ : Vec3 α
  b_use_pose_rotation_ : Bool
  rotation_weight_ : α
  pose_rotation_ : Mat3 α
deriving DecidableEq

/-- Modelled from the spec: a `View` (`openMVG/sfm/sfm_view.hpp`, not among the sources):
"unique id, associated pose id, associated intrinsic id".  `priors` is `some` exactly when
the dynamic type of the view is `ViewPriors`, that is when `dynamic_cast<ViewPriors*>`
succeeds. -/
structure View (α : Type) where
  id_view : IndexT
  id_intrinsic : IndexT
  id_pose : IndexT
  priors : Option (ViewPriors α)
deriving DecidableEq

/-- Modelled from the spec: an `Observation` (`openMVG/sfm/sfm_landmark.hpp`, not among the
sources), the "2D observed pixel coordinate" and the feature index. -/
structure Observation (α : Type) where
  x : Vec2 α
  id_feat : IndexT
deriving DecidableEq

/-- Modelled from the spec: a `Landmark`, "a 3D position plus a mapping from view-id to 2D
observed pixel coordinate". -/
structure Landmark (α : Type) where
  X : Vec3 α
  obs : Hash_Map (Observation α)
deriving DecidableEq

/-- Modelled from the spec: `SfM_Data`, the "container of views, poses, intrinsics, landmarks,
ground-control-points".  The landmarks are the member `structure` of the source. -/
structure SfM_Data (α : Type) where
  views : Hash_Map (View α)
  poses : Hash_Map (Pose3 α)
  intrinsics : Hash_Map (IntrinsicBase α)
  structure_ : Hash_Map (Landmark α)
  control_points : Hash_Map (Landmark α)
deriving DecidableEq

/-- Modelled from the spec: `SfM_Data::IsPoseAndIntrinsicDefined` (not among the sources),
"with pose and intrinsic defined": both ids are set and are keys of the scene. -/
def SfM_Data.IsPoseAndIntrinsicDefined (sfm_data : SfM_Data α) (view : View α) : Bool :=
  view.id_intrinsic != UndefinedIndexT && view.id_pose != UndefinedIndexT
    && Hash_Map.contains sfm_data.intrinsics view.id_intrinsic
    && Hash_Map.contains sfm_data.poses view.id_pose

/-- Modelled from the spec: `ApplySimilarity` of `openMVG/sfm/sfm_data_transform.hpp` (not
among the sources), "apply the transform to every pose in the scene": landmarks and poses
are transformed, and with `transform_priors` also the position priors and the control points. -/
def ApplySimilarity (sim : Similarity3 α) (sfm_data : SfM_Data α) (transform_priors : Bool) :
    SfM_Data α :=
  { sfm_data with
    structure_ := sfm_data.structure_.map
      (fun it => (it.1, { it.2 with X := sim.applyPoint it.2.X }))
    poses := sfm_data.poses.map (fun it => (it.1, sim.applyPose it.2))
    views :=
      if transform_priors then
        sfm_data.views.map (fun it => (it.1, { it.2 with
          priors := it.2.priors.map
            (fun prior => { prior with pose_center_ := sim.applyPoint prior.pose_center_ }) }))
      else sfm_data.views
    control_points :=
      if transform_priors then
        sfm_data.control_points.map
          (fun it => (it.1, { it.2 with X := sim.applyPoint it.2.X }))
      else sfm_data.control_points }

/-! ## Options -/

/-- Modelled from the spec: `Extrinsic_Parameter_Type`, "{NONE, ADJUST_ROTATION,
ADJUST_TRANSLATION, ADJUST_ALL}" (`sfm_data_BA.hpp` is not among the sources). -/
inductive Extrinsic_Parameter_Type where
  | NONE
  | ADJUST_ROTATION
  | ADJUST_TRANSLATION
  | ADJUST_ALL
deriving DecidableEq, Repr

/-- Modelled from the spec: `Structure_Parameter_Type`, "{NONE, ADJUST}". -/
inductive Structure_Parameter_Type where
  | NONE
  | ADJUST_ALL
deriving DecidableEq, Repr

/-- Modelled from the spec: `Control_Point_Parameter`, "{ enabled: bool, weight: double }". -/
structure Control_Point_Parameter (α : Type) where
  weight : α
  bUse_control_points : Bool
deriving DecidableEq

/-- Modelled from the spec: `Optimize_Options` (`sfm_data_BA.hpp` is not among the sources),
the configuration of section 6. -/
structure Optimize_Options (α : Type) where
  intrinsics_opt : Intrinsic_Parameter_Type
  extrinsics_opt : Extrinsic_Parameter_Type
  structure_opt : Structure_Parameter_Type
  control_point_opt : Control_Point_Parameter α
  use_motion_priors_opt : Bool
deriving DecidableEq

/-! ## The Ceres problem, as `Adjust` drives it -/

/-- The memory a `double *` handed to Ceres points to: a vector of `map_poses` or of
`map_intrinsics`, or the coordinates `X` of a landmark or of a control point. -/
inductive ParameterBlock where
  | pose (indexPose : IndexT)
  | intrinsic (indexCam : IndexT)
  | landmark (id : IndexT)
  | control_point (id : IndexT)
deriving DecidableEq, Repr

/-- The reprojection functors of `sfm_data_BA_ceres_camera_functor.hpp`, by name. -/
inductive ResidualErrorFunctor where
  | Pinhole_Intrinsic
  | Pinhole_Intrinsic_Radial_K1
  | Pinhole_Intrinsic_Radial_K3
  | Pinhole_Intrinsic_Brown_T2
  | Pinhole_Intrinsic_Fisheye
  | Intrinsic_Spherical
deriving DecidableEq, Repr

/-- A `ceres::CostFunction *` built by the file. -/
inductive CostFunction (α : Type) where
  /-- `ResidualErrorFunctor_<functor>::Create(observation, weight)`. -/
  | reprojection (functor : ResidualErrorFunctor) (observation : Vec2 α) (weight : α)
  /-- `AutoDiffCostFunction<PoseCenterConstraintCostFunction, 3, 6>`. -/
  | pose_center (f : PoseCenterConstraintCostFunction α)
  /-- `AutoDiffCostFunction<PoseRotationConstraintCostFunction, 1, 6>`. -/
  | pose_rotation (f : PoseRotationConstraintCostFunction α)
deriving DecidableEq

/-- A `ceres::LossFunction *` that is not null. -/
inductive LossFunction (α : Type) where
  | HuberLoss (a : α)
deriving DecidableEq

/-- One call on the `ceres::Problem`. -/
inductive ProblemCall (α : Type) where
  | AddParameterBlock (block : ParameterBlock) (size : Nat)
  | SetParameterBlockConstant (block : ParameterBlock)
  /-- `SetManifold(block, new SubsetManifold(size, constant))`, or with an older Ceres
  `SetParameterization(block, new SubsetParameterization(size, constant))`. -/
  | SetManifold (block : ParameterBlock) (size : Nat) (constant : List Nat)
  | AddResidualBlock (cost_function : CostFunction α) (loss_function : Option (LossFunction α))
      (blocks : List ParameterBlock)
deriving DecidableEq

/-- The block is known to the problem through this call. -/
def ProblemCall.mentions : ProblemCall α → ParameterBlock → Bool
  | .AddParameterBlock b _, block => decide (b = block)
  | .AddResidualBlock _ _ bs, block => decide (block ∈ bs)
  | _, _ => false

/-- `IntrinsicsToCostFunction(intrinsic, observation, weight)`; `none` is the null pointer. -/
def IntrinsicsToCostFunction (intrinsic : IntrinsicBase α) (observation : Vec2 α) (weight : α) :
    Option (CostFunction α) :=
  match intrinsic.getType with
  | .PINHOLE_CAMERA => some (.reprojection .Pinhole_Intrinsic observation weight)
  | .PINHOLE_CAMERA_RADIAL1 => some (.reprojection .Pinhole_Intrinsic_Radial_K1 observation weight)
  | .PINHOLE_CAMERA_RADIAL3 => some (.reprojection .Pinhole_Intrinsic_Radial_K3 observation weight)
  | .PINHOLE_CAMERA_BROWN => some (.reprojection .Pinhole_Intrinsic_Brown_T2 observation weight)
  | .PINHOLE_CAMERA_FISHEYE => some (.reprojection .Pinhole_Intrinsic_Fisheye observation weight)
  | .CAMERA_SPHERICAL => some (.reprojection .Intrinsic_Spherical observation weight)
  | _ => none

/-! ## `Bundle_Adjustment_Ceres::BA_Ceres_options` -/

inductive LinearSolverType where
  | DENSE_SCHUR
  | SPARSE_SCHUR
deriving DecidableEq, Repr

inductive PreconditionerType where
  | JACOBI
deriving DecidableEq, Repr

inductive SparseLinearAlgebraLibraryType where
  | SUITE_SPARSE
  | CX_SPARSE
  | EIGEN_SPARSE
deriving DecidableEq, Repr

/-- The members of `BA_Ceres_options`.  The constructor leaves
`sparse_linear_algebra_library_type_` unset (`none`) when it finds no sparse backend. -/
structure BA_Ceres_options (α : Type) where
  bVerbose_ : Bool
  nb_threads_ : Nat
  bCeres_summary_ : Bool
  linear_solver_type_ : LinearSolverType
  preconditioner_type_ : PreconditionerType
  sparse_linear_algebra_library_type_ : Option SparseLinearAlgebraLibraryType
  parameter_tolerance_ : α
  gradient_tolerance_ : α
  bUse_loss_function_ : Bool
  max_num_iterations_ : Nat
  max_linear_solver_iterations_ : Nat
deriving DecidableEq

/-- The constructor `BA_Ceres_options(bVerbose, bmultithreaded)`.
`IsSparseLinearAlgebraLibraryTypeAvailable` is the Ceres query; `omp_get_max_threads` is
`some n` when the build defines `OPENMVG_USE_OPENMP`. -/
def BA_Ceres_options.create
    (IsSparseLinearAlgebraLibraryTypeAvailable : SparseLinearAlgebraLibraryType → Bool)
    (omp_get_max_threads : Option Nat) (bVerbose bmultithreaded : Bool) : BA_Ceres_options α :=
  let nb_threads_ : Nat := 1
  let nb_threads_ := match omp_get_max_threads with
    | some n => n
    | none => nb_threads_
  let nb_threads_ := if !bmultithreaded then 1 else nb_threads_
  let o : BA_Ceres_options α :=
    { bVerbose_ := bVerbose
      nb_threads_ := nb_threads_
      bCeres_summary_ := false
      linear_solver_type_ := .DENSE_SCHUR
      preconditioner_type_ := .JACOBI
      sparse_linear_algebra_library_type_ := none
      parameter_tolerance_ := 1 / 100000000
      gradient_tolerance_ := 1 / 10000000000
      bUse_loss_function_ := true
      max_num_iterations_ := 50
      max_linear_solver_iterations_ := 500 }
  if IsSparseLinearAlgebraLibraryTypeAvailable .SUITE_SPARSE then
    { o with sparse_linear_algebra_library_type_ := some .SUITE_SPARSE
             linear_solver_type_ := .SPARSE_SCHUR }
  else if IsSparseLinearAlgebraLibraryTypeAvailable .EIGEN_SPARSE then
    { o with sparse_linear_algebra_library_type_ := some .EIGEN_SPARSE
             linear_solver_type_ := .SPARSE_SCHUR }
  else o

/-! ## Collaborators of `Adjust` -/

/-- What `Adjust` reads of the solver when `ceres::Solve` returns: the verdict
`summary.IsSolutionUsable()` and the content of the parameter blocks, which the solver
updates in place (`value block i` is cell `i` of the block). -/
structure SolverSummary (α : Type) where
  IsSolutionUsable : Bool
  value : ParameterBlock → Nat → α

/-- The code `Adjust` calls and the file does not define. -/
structure Externals (α : Type) where
  libm : Libm α
  rotation : CeresRotation α
  /-- `robust::LeastMedianOfSquares(kernel, &sim)` on the kernel of the two point sets:
  `none` when it returns `numeric_limits<double>::max()`, else the median and the model. -/
  LeastMedianOfSquares : List (Vec3 α) → List (Vec3 α) → Option (α × Similarity3 α)
  /-- The virtual `IntrinsicBase::subsetParameterization`. -/
  subsetParameterization : IntrinsicBase α → Intrinsic_Parameter_Type → List Nat
  /-- The virtual `IntrinsicBase::updateFromParams`, as the updated object. -/
  updateFromParams : IntrinsicBase α → List α → IntrinsicBase α
  /-- `ceres::Solve(options, &problem, &summary)` on the calls made on the problem and the
  memory the blocks point to (`map_intrinsics`, `map_poses`, the points of the scene). -/
  Solve : BA_Ceres_options α → List (ProblemCall α) → Hash_Map (List α) → Hash_Map (List α) →
    SfM_Data α → SolverSummary α

/-! ## `Adjust`: registration to the motion priors -/

/-- `v.norm()` of a 3-vector. -/
def norm (m : Libm α) (v : Vec3 α) : α := m.sqrt (v.x * v.x + v.y * v.y + v.z * v.z)

/-- `v.squaredNorm()` of a 2-vector. -/
def squaredNorm (v : Vec2 α) : α := v.x * v.x + v.y * v.y

/-- `Square(x)`. -/
def Square (x : α) : α := x * x

/-- `v(i)`: cell `i` of an Eigen vector. -/
def coeff (v : List α) (i : Nat) : Except Fault α :=
  match v.get? i with
  | some x => .ok x
  | none => .error .index_out_of_bounds

/-- The four vectors `X_SfM`, `X_GPS`, `R_SfM`, `R_GPS`. -/
structure PriorCorrespondences (α : Type) where
  X_SfM : List (Vec3 α)
  X_GPS : List (Vec3 α)
  R_SfM : List (Vec2 α)
  R_GPS : List (Vec2 α)
deriving DecidableEq

/-- The body of the loop that collects the correspondences, for one view. -/
def viewCorrespondences (m : Libm α) (sfm_data : SfM_Data α) (view : View α) :
    Except Fault (PriorCorrespondences α) :=
  match view.priors with
  | none => .ok ⟨[], [], [], []⟩
  | some prior =>
    if sfm_data.IsPoseAndIntrinsicDefined view then do
      let X ← if prior.b_use_pose_center_ then do
          let pose ← Hash_Map.at_ sfm_data.poses view.id_pose
          pure ([pose.center], [prior.pose_center_])
        else pure ([], [])
      let R ← if prior.b_use_pose_rotation_ then do
          let pose ← Hash_Map.at_ sfm_data.poses view.id_pose
          let R_SfM_euler := getAngles m pose.rotation
          let R_GPS_euler := getAngles m prior.pose_rotation_
          pure ([⟨m.cos R_SfM_euler.Z, m.sin R_SfM_euler.Z⟩],
                [⟨m.cos R_GPS_euler.Z, m.sin R_GPS_euler.Z⟩])
        else pure ([], [])
      pure ⟨X.1, X.2, R.1, R.2⟩
    else .ok ⟨[], [], [], []⟩

/-- The loop over `sfm_data.GetViews()` that fills the correspondences. -/
def collectCorrespondences (m : Libm α) (sfm_data : SfM_Data α) :
    List (IndexT × View α) → Except Fault (PriorCorrespondences α)
  | [] => .ok ⟨[], [], [], []⟩
  | view_it :: rest => do
    let c ← viewCorrespondences m sfm_data view_it.2
    let cs ← collectCorrespondences m sfm_data rest
    pure ⟨c.X_SfM ++ cs.X_SfM, c.X_GPS ++ cs.X_GPS, c.R_SfM ++ cs.R_SfM, c.R_GPS ++ cs.R_GPS⟩

/-- The locals the registration block of `Adjust` leaves to the rest of the function. -/
structure PriorRegistration (α : Type) where
  pose_center_robust_fitting_error : α
  pose_rotation_robust_fitting_error : α
  sim_to_center : Similarity3 α
  b_usable_prior : Bool
deriving DecidableEq

/-- The values of these locals at their declaration. -/
def PriorRegistration.initial : PriorRegistration α :=
  { pose_center_robust_fitting_error := 0
    pose_rotation_robust_fitting_error := 0
    sim_to_center := Similarity3.identity
    b_usable_prior := false }

/-- The loop that accumulates `pose_centroid`. -/
def poseCentroid (poses : Hash_Map (Pose3 α)) : Vec3 α :=
  poses.foldl (fun pose_centroid pose_it =>
    pose_centroid + Vec3.sdiv pose_it.2.center (poses.length : α)) 0

/-- The first block of `Adjust`: the robust registration of the scene to the priors and the
re-centering.  It yields the locals and the scene as the block leaves it. -/
def registerPriors (ext : Externals α) (options : Optimize_Options α) (sfm_data : SfM_Data α) :
    Except Fault (PriorRegistration α × SfM_Data α) :=
  if options.use_motion_priors_opt && decide (sfm_data.views.length > 3) then do
    let c ← collectCorrespondences ext.libm sfm_data sfm_data.views
    if c.X_GPS.length > 3 then
      match ext.LeastMedianOfSquares c.X_SfM c.X_GPS with
      | none => pure (PriorRegistration.initial, sfm_data)
      | some (_, sim) => do
        let X_SfM := c.X_SfM.map sim.applyPoint
        let residual :=
          (List.zipWith (fun a b => norm ext.libm (a - b)) X_SfM c.X_GPS).insertionSort (· ≤ ·)
        let pose_center_robust_fitting_error ← coeff residual (residual.length / 2)
        let residual_R :=
          (List.zipWith (fun a b => squaredNorm (a - b)) c.R_SfM c.R_GPS).insertionSort (· ≤ ·)
        let pose_rotation_robust_fitting_error ← coeff residual_R (residual_R.length / 2)
        let sfm_data := ApplySimilarity sim sfm_data false
        let pose_centroid := poseCentroid sfm_data.poses
        let sim_to_center : Similarity3 α :=
          { pose_ := { rotation_ := Mat3.Identity, center_ := pose_centroid }, scale_ := 1 }
        let sfm_data := ApplySimilarity sim_to_center sfm_data true
        pure ({ pose_center_robust_fitting_error := pose_center_robust_fitting_error
                pose_rotation_robust_fitting_error := pose_rotation_robust_fitting_error
                sim_to_center := sim_to_center
                b_usable_prior := true }, sfm_data)
    else pure (PriorRegistration.initial, sfm_data)
  else pure (PriorRegistration.initial, sfm_data)

/-! ## `Adjust`: parameter blocks -/

/-- The vector stored in `map_poses` for a pose: angle-axis, then translation. -/
def poseParameters (rot : CeresRotation α) (pose : Pose3 α) : List α :=
  let R := pose.rotation
  let t := pose.translation
  let angleAxis := rot.RotationMatrixToAngleAxis R
  [angleAxis 0, angleAxis 1, angleAxis 2, t 0, t 1, t 2]

/-- The local `vec_constant_extrinsic` of the subset parametrization. -/
def vec_constant_extrinsic (extrinsics_opt : Extrinsic_Parameter_Type) : List Nat :=
  (if extrinsics_opt = .ADJUST_TRANSLATION then [0, 1, 2] else [])
    ++ (if extrinsics_opt = .ADJUST_ROTATION then [3, 4, 5] else [])

/-- The calls on the problem for the block of one pose. -/
def poseBlockCalls (extrinsics_opt : Extrinsic_Parameter_Type) (indexPose : IndexT) :
    List (ProblemCall α) :=
  .AddParameterBlock (.pose indexPose) 6 ::
    (if extrinsics_opt = .NONE then
      [.SetParameterBlockConstant (.pose indexPose)]
    else if !(vec_constant_extrinsic extrinsics_opt).isEmpty then
      [.SetManifold (.pose indexPose) 6 (vec_constant_extrinsic extrinsics_opt)]
    else [])

/-- The loop "Setup Poses data & subparametrization": `map_poses` and the calls made. -/
def setupPoses (rot : CeresRotation α) (extrinsics_opt : Extrinsic_Parameter_Type)
    (poses : Hash_Map (Pose3 α)) : Hash_Map (List α) × List (ProblemCall α) :=
  poses.foldl (fun st pose_it =>
    (Hash_Map.set st.1 pose_it.1 (poseParameters rot pose_it.2),
     st.2 ++ poseBlockCalls extrinsics_opt pose_it.1)) ([], [])

/-- The calls on the problem for the block of one intrinsic; `params` is the vector
`map_intrinsics.at(indexCam)`, which was just set to `getParams()`. -/
def intrinsicBlockCalls (ext : Externals α) (intrinsics_opt : Intrinsic_Parameter_Type)
    (indexCam : IndexT) (intrinsic : IntrinsicBase α) (params : List α) : List (ProblemCall α) :=
  if !params.isEmpty then
    .AddParameterBlock (.intrinsic indexCam) params.length ::
      (if intrinsics_opt = .NONE then
        [.SetParameterBlockConstant (.intrinsic indexCam)]
      else
        let vec_constant_intrinsic := ext.subsetParameterization intrinsic intrinsics_opt
        if !vec_constant_intrinsic.isEmpty then
          [.SetManifold (.intrinsic indexCam) params.length vec_constant_intrinsic]
        else [])
  else []

/-- The loop "Setup Intrinsics data & subparametrization": `map_intrinsics` and the calls. -/
def setupIntrinsics (ext : Externals α) (intrinsics_opt : Intrinsic_Parameter_Type)
    (intrinsics : Hash_Map (IntrinsicBase α)) : Hash_Map (List α) × List (ProblemCall α) :=
  intrinsics.foldl (fun st intrinsic_it =>
    if isValid intrinsic_it.2.getType then
      (Hash_Map.set st.1 intrinsic_it.1 intrinsic_it.2.getParams,
       st.2 ++ intrinsicBlockCalls ext intrinsics_opt intrinsic_it.1 intrinsic_it.2
         intrinsic_it.2.getParams)
    else st) ([], [])

/-! ## `Adjust`: residual blocks -/

/-- How the construction of the problem can stop early. -/
inductive Exit where
  /-- The statement `return false`. -/
  | return_false
  | fault (f : Fault)
deriving DecidableEq, Repr

/-- A checked access inside the construction. -/
def liftFault {V : Type} : Except Fault V → Except Exit V
  | .ok v => .ok v
  | .error f => .error (.fault f)

/-- The body of the loop over the observations of a landmark of `sfm_data.structure`. -/
def landmarkObservation (sfm_data : SfM_Data α) (map_intrinsics map_poses : Hash_Map (List α))
    (p_LossFunction : Option (LossFunction α)) (landmark_id : IndexT)
    (obs_it : IndexT × Observation α) : Except Exit (List (ProblemCall α)) := do
  let view ← liftFault (Hash_Map.at_ sfm_data.views obs_it.1)
  let intrinsic ← liftFault (Hash_Map.at_ sfm_data.intrinsics view.id_intrinsic)
  match IntrinsicsToCostFunction intrinsic obs_it.2.x 0 with
  | some cost_function =>
    let params ← liftFault (Hash_Map.at_ map_intrinsics view.id_intrinsic)
    if !params.isEmpty then do
      let _ ← liftFault (Hash_Map.at_ map_poses view.id_pose)
      pure [.AddResidualBlock cost_function p_LossFunction
        [.intrinsic view.id_intrinsic, .pose view.id_pose, .landmark landmark_id]]
    else do
      let _ ← liftFault (Hash_Map.at_ map_poses view.id_pose)
      pure [.AddResidualBlock cost_function p_LossFunction
        [.pose view.id_pose, .landmark landmark_id]]
  | none => .error .return_false

/-- The loop over the observations of one landmark. -/
def landmarkObservations (sfm_data : SfM_Data α) (map_intrinsics map_poses : Hash_Map (List α))
    (p_LossFunction : Option (LossFunction α)) (landmark_id : IndexT) :
    List (IndexT × Observation α) → Except Exit (List (ProblemCall α))
  | [] => pure []
  | obs_it :: rest => do
    let calls ← landmarkObservation sfm_data map_intrinsics map_poses p_LossFunction
      landmark_id obs_it
    let tail ← landmarkObservations sfm_data map_intrinsics map_poses p_LossFunction
      landmark_id rest
    pure (calls ++ tail)

/-- The loop "For all visibility add reprojections errors" over `sfm_data.structure`. -/
def landmarkResiduals (sfm_data : SfM_Data α) (structure_opt : Structure_Parameter_Type)
    (map_intrinsics map_poses : Hash_Map (List α)) (p_LossFunction : Option (LossFunction α)) :
    List (IndexT × Landmark α) → Except Exit (List (ProblemCall α))
  | [] => pure []
  | structure_landmark_it :: rest => do
    let calls ← landmarkObservations sfm_data map_intrinsics map_poses p_LossFunction
      structure_landmark_it.1 structure_landmark_it.2.obs
    let fixed : List (ProblemCall α) :=
      if structure_opt = .NONE then
        [.SetParameterBlockConstant (.landmark structure_landmark_it.1)]
      else []
    let tail ← landmarkResiduals sfm_data structure_opt map_intrinsics map_poses p_LossFunction
      rest
    pure (calls ++ fixed ++ tail)

/-- The body of the loop over the observations of a ground control point. -/
def gcpObservation (sfm_data : SfM_Data α) (weight : α)
    (map_intrinsics map_poses : Hash_Map (List α)) (gcp_id : IndexT)
    (obs_it : IndexT × Observation α) : Except Fault (List (ProblemCall α)) := do
  let view ← Hash_Map.at_ sfm_data.views obs_it.1
  let intrinsic ← Hash_Map.at_ sfm_data.intrinsics view.id_intrinsic
  match IntrinsicsToCostFunction intrinsic obs_it.2.x weight with
  | some cost_function =>
    let params ← Hash_Map.at_ map_intrinsics view.id_intrinsic
    if !params.isEmpty then do
      let _ ← Hash_Map.at_ map_poses view.id_pose
      pure [.AddResidualBlock cost_function none
        [.intrinsic view.id_intrinsic, .pose view.id_pose, .control_point gcp_id]]
    else do
      let _ ← Hash_Map.at_ map_poses view.id_pose
      pure [.AddResidualBlock cost_function none
        [.pose view.id_pose, .control_point gcp_id]]
  | none => pure []

/-- The loop over the observations of one ground control point. -/
def gcpObservations (sfm_data : SfM_Data α) (weight : α)
    (map_intrinsics map_poses : Hash_Map (List α)) (gcp_id : IndexT) :
    List (IndexT × Observation α) → Except Fault (List (ProblemCall α))
  | [] => pure []
  | obs_it :: rest => do
    let calls ← gcpObservation sfm_data weight map_intrinsics map_poses gcp_id obs_it
    let tail ← gcpObservations sfm_data weight map_intrinsics map_poses gcp_id rest
    pure (calls ++ tail)

/-- The loop over `sfm_data.control_points`; `weight` is `options.control_point_opt.weight`. -/
def gcpResiduals (sfm_data : SfM_Data α) (weight : α)
    (map_intrinsics map_poses : Hash_Map (List α)) :
    List (IndexT × Landmark α) → Except Fault (List (ProblemCall α))
  | [] => pure []
  | gcp_landmark_it :: rest => do
    let calls ← gcpObservations sfm_data weight map_intrinsics map_poses
      gcp_landmark_it.1 gcp_landmark_it.2.obs
    let fixed : List (ProblemCall α) :=
      if gcp_landmark_it.2.obs.isEmpty then []
      else [.SetParameterBlockConstant (.control_point gcp_landmark_it.1)]
    let tail ← gcpResiduals sfm_data weight map_intrinsics map_poses rest
    pure (calls ++ fixed ++ tail)

/-- The body of the loop "Add Pose prior constraints if any", for one view. -/
def viewPriorResiduals (reg : PriorRegistration α) (sfm_data : SfM_Data α)
    (map_poses : Hash_Map (List α)) (view : View α) : Except Fault (List (ProblemCall α)) :=
  match view.priors with
  | none => pure []
  | some prior =>
    if sfm_data.IsPoseAndIntrinsicDefined view then do
      let center ← if prior.b_use_pose_center_ then do
          let _ ← Hash_Map.at_ map_poses view.id_view
          pure [ProblemCall.AddResidualBlock
            (.pose_center { weight_ := prior.center_weight_
                            pose_center_constraint_ := prior.pose_center_ })
            (some (.HuberLoss (Square reg.pose_center_robust_fitting_error)))
            [.pose view.id_view]]
        else pure []
      let rotation ← if prior.b_use_pose_rotation_ then do
          let _ ← Hash_Map.at_ map_poses view.id_view
          pure [ProblemCall.AddResidualBlock
            (.pose_rotation { weight_ := prior.rotation_weight_
                              pose_rotation_constraint_ := prior.pose_rotation_ })
            (some (.HuberLoss (Square reg.pose_rotation_robust_fitting_error)))
            [.pose view.id_view]]
        else pure []
      pure (center ++ rotation)
    else pure []

/-- The loop over the views that adds the prior residuals (run when `b_usable_prior`). -/
def priorResiduals (reg : PriorRegistration α) (sfm_data : SfM_Data α)
    (map_poses : Hash_Map (List α)) :
    List (IndexT × View α) → Except Fault (List (ProblemCall α))
  | [] => pure []
  | view_it :: rest => do
    let calls ← viewPriorResiduals reg sfm_data map_poses view_it.2
    let tail ← priorResiduals reg sfm_data map_poses rest
    pure (calls ++ tail)

/-- What stands when `ceres::Solve` is called: the calls made on the problem and the two
maps of parameter vectors. -/
structure BuiltProblem (α : Type) where
  problem : List (ProblemCall α)
  map_intrinsics : Hash_Map (List α)
  map_poses : Hash_Map (List α)
deriving DecidableEq

/-- The block "Use Ground Control Point", run when `bUse_control_points` is set. -/
def controlPointResiduals (sfm_data : SfM_Data α) (options : Optimize_Options α)
    (map_intrinsics map_poses : Hash_Map (List α)) : Except Fault (List (ProblemCall α)) :=
  if options.control_point_opt.bUse_control_points then
    gcpResiduals sfm_data options.control_point_opt.weight map_intrinsics map_poses
      sfm_data.control_points
  else pure []

/-- The block "Add Pose prior constraints if any", run when `b_usable_prior` is set. -/
def usablePriorResiduals (reg : PriorRegistration α) (sfm_data : SfM_Data α)
    (map_poses : Hash_Map (List α)) : Except Fault (List (ProblemCall α)) :=
  if reg.b_usable_prior then priorResiduals reg sfm_data map_poses sfm_data.views
  else pure []

/-- `Adjust` from the creation of the problem to the call of the solver, on the scene
`sfm_data` the registration block left. -/
def buildProblem (ext : Externals α) (ceres_options_ : BA_Ceres_options α)
    (options : Optimize_Options α) (reg : PriorRegistration α) (sfm_data : SfM_Data α) :
    Except Exit (BuiltProblem α) := do
  let p_LossFunction : Option (LossFunction α) :=
    if ceres_options_.bUse_loss_function_ then some (.HuberLoss (Square 4)) else none
  let poses := setupPoses ext.rotation options.extrinsics_opt sfm_data.poses
  let map_poses := poses.1
  let intrinsics := setupIntrinsics ext options.intrinsics_opt sfm_data.intrinsics
  let map_intrinsics := intrinsics.1
  let landmarks ← landmarkResiduals sfm_data options.structure_opt map_intrinsics map_poses
    p_LossFunction sfm_data.structure_
  let control_points ←
    liftFault (controlPointResiduals sfm_data options map_intrinsics map_poses)
  let priors ← liftFault (usablePriorResiduals reg sfm_data map_poses)
  pure { problem := poses.2 ++ intrinsics.2 ++ landmarks ++ control_points ++ priors
         map_intrinsics := map_intrinsics
         map_poses := map_poses }

/-! ## `Adjust`: solve and write back -/

/-- The block is known to the problem: it was added, or a residual block uses it. -/
def problemMentions (problem : List (ProblemCall α)) (block : ParameterBlock) : Bool :=
  problem.any (fun call => call.mentions block)

/-- A parameter vector when `ceres::Solve` returns: the solver writes only through the
pointers the problem holds. -/
def solvedVector (problem : List (ProblemCall α)) (summary : SolverSummary α)
    (block : ParameterBlock) (old : List α) : List α :=
  if problemMentions problem block then (List.range old.length).map (summary.value block)
  else old

/-- The coordinates of a point when `ceres::Solve` returns. -/
def solvedPoint (problem : List (ProblemCall α)) (summary : SolverSummary α)
    (block : ParameterBlock) (old : Vec3 α) : Vec3 α :=
  if problemMentions problem block then
    ⟨summary.value block 0, summary.value block 1, summary.value block 2⟩
  else old

/-- `map_poses` or `map_intrinsics` when `ceres::Solve` returns. -/
def solvedMap (problem : List (ProblemCall α)) (summary : SolverSummary α)
    (block : IndexT → ParameterBlock) (m : Hash_Map (List α)) : Hash_Map (List α) :=
  m.map (fun it => (it.1, solvedVector problem summary (block it.1) it.2))

/-- The landmarks or the control points when `ceres::Solve` returns ("structure is already
updated directly"). -/
def solvedLandmarks (problem : List (ProblemCall α)) (summary : SolverSummary α)
    (block : IndexT → ParameterBlock) (m : Hash_Map (Landmark α)) : Hash_Map (Landmark α) :=
  m.map (fun it => (it.1, { it.2 with X := solvedPoint problem summary (block it.1) it.2.X }))

/-- The body of the loop "Update camera poses with refined data"; `block` is
`map_poses.at(indexPose)`. -/
def refinedPose (rot : CeresRotation α) (extrinsics_opt : Extrinsic_Parameter_Type)
    (block : List α) (pose : Pose3 α) : Pose3 α :=
  let R_refined := rot.AngleAxisToRotationMatrix ⟨block.getD 0 0, block.getD 1 0, block.getD 2 0⟩
  let t_refined : Vec3 α := ⟨block.getD 3 0, block.getD 4 0, block.getD 5 0⟩
  if extrinsics_opt = .ADJUST_ROTATION then
    { pose with rotation_ := R_refined }
  else if extrinsics_opt = .ADJUST_TRANSLATION then
    { pose with center_ := (-R_refined.transpose).mulVec t_refined }
  else
    { rotation_ := R_refined, center_ := (-R_refined.transpose).mulVec t_refined }

/-- The loop "Update camera poses with refined data". -/
def updatePoses (rot : CeresRotation α) (extrinsics_opt : Extrinsic_Parameter_Type)
    (map_poses : Hash_Map (List α)) :
    List (IndexT × Pose3 α) → Except Fault (Hash_Map (Pose3 α))
  | [] => pure []
  | pose_it :: rest => do
    let block ← Hash_Map.at_ map_poses pose_it.1
    let tail ← updatePoses rot extrinsics_opt map_poses rest
    pure ((pose_it.1, refinedPose rot extrinsics_opt block pose_it.2) :: tail)

/-- The loop "Update camera intrinsics with refined data". -/
def updateIntrinsics (ext : Externals α) (map_intrinsics : Hash_Map (List α)) :
    List (IndexT × IntrinsicBase α) → Except Fault (Hash_Map (IntrinsicBase α))
  | [] => pure []
  | intrinsic_it :: rest => do
    let vec_params ← Hash_Map.at_ map_intrinsics intrinsic_it.1
    let tail ← updateIntrinsics ext map_intrinsics rest
    pure ((intrinsic_it.1, ext.updateFromParams intrinsic_it.2 vec_params) :: tail)

/-- The branch "Solution is usable" of `Adjust`, on the scene and the maps as the solver left
them.  The statistics it logs read the scene and change nothing; they are left out. -/
def materialize (ext : Externals α) (options : Optimize_Options α) (reg : PriorRegistration α)
    (map_intrinsics map_poses : Hash_Map (List α)) (sfm_data : SfM_Data α) :
    Except Fault (SfM_Data α) := do
  let poses ←
    if options.extrinsics_opt ≠ .NONE then
      updatePoses ext.rotation options.extrinsics_opt map_poses sfm_data.poses
    else pure sfm_data.poses
  let intrinsics ←
    if options.intrinsics_opt ≠ .NONE then
      updateIntrinsics ext map_intrinsics sfm_data.intrinsics
    else pure sfm_data.intrinsics
  let sfm_data := { sfm_data with poses := poses, intrinsics := intrinsics }
  if reg.b_usable_prior then
    pure (ApplySimilarity reg.sim_to_center.inverse sfm_data true)
  else pure sfm_data

/-- How a call of `Adjust` ends: it returns a boolean and leaves the scene as given, or an
exception (or an out-of-bounds read) ends it. -/
inductive AdjustResult (α : Type) where
  | returned (value : Bool) (sfm_data : SfM_Data α)
  | fault (f : Fault)
deriving DecidableEq

/-- The scene when `ceres::Solve` returns: the points of the problem are updated in place. -/
def solvedScene (built : BuiltProblem α) (summary : SolverSummary α) (sfm_data : SfM_Data α) :
    SfM_Data α :=
  { sfm_data with
    structure_ := solvedLandmarks built.problem summary .landmark sfm_data.structure_
    control_points :=
      solvedLandmarks built.problem summary .control_point sfm_data.control_points }

/-- The call `ceres::Solve(ceres_config_options, &problem, &summary)`. -/
def solve (ext : Externals α) (ceres_options_ : BA_Ceres_options α) (built : BuiltProblem α)
    (sfm_data : SfM_Data α) : SolverSummary α :=
  ext.Solve ceres_options_ built.problem built.map_intrinsics built.map_poses sfm_data

/-- `Adjust` from the call of the solver to its end. -/
def solveAndMaterialize (ext : Externals α) (ceres_options_ : BA_Ceres_options α)
    (options : Optimize_Options α) (reg : PriorRegistration α) (built : BuiltProblem α)
    (sfm_data : SfM_Data α) : AdjustResult α :=
  let summary := solve ext ceres_options_ built sfm_data
  let map_intrinsics := solvedMap built.problem summary .intrinsic built.map_intrinsics
  let map_poses := solvedMap built.problem summary .pose built.map_poses
  let sfm_data := solvedScene built summary sfm_data
  if !summary.IsSolutionUsable then
    .returned false sfm_data
  else
    match materialize ext options reg map_intrinsics map_poses sfm_data with
    | .error f => .fault f
    | .ok sfm_data => .returned true sfm_data

/-- `Bundle_Adjustment_Ceres::Adjust(sfm_data, options)`. -/
def Adjust (ext : Externals α) (ceres_options_ : BA_Ceres_options α) (sfm_data : SfM_Data α)
    (options : Optimize_Options α) : AdjustResult α :=
  match registerPriors ext options sfm_data with
  | .error f => .fault f
  | .ok (reg, sfm_data) =>
    match buildProblem ext ceres_options_ options reg sfm_data with
    | .error (.fault f) => .fault f
    | .error .return_false => .returned false sfm_data
    | .ok built => solveAndMaterialize ext ceres_options_ options reg built sfm_data

/-! ## Notions used to state the properties -/

/-- The vector `map_poses.at(indexPose)` when `ceres::Solve` returns. -/
def solvedPoseBlock (ext : Externals α) (ceres_options_ : BA_Ceres_options α)
    (built : BuiltProblem α) (sfm_data : SfM_Data α) (indexPose : IndexT) : List α :=
  (Hash_Map.find
    (solvedMap built.problem (solve ext ceres_options_ built sfm_data) .pose built.map_poses)
    indexPose).getD []


/-- The registration block applies no transform: it ends with `b_usable_prior` false
(motion priors disabled, too few correspondences, or no model from the estimator). -/
def NoRegistration (ext : Externals α) (options : Optimize_Options α) (sfm_data : SfM_Data α) :
    Prop :=
  ∀ reg s1, registerPriors ext options sfm_data = .ok (reg, s1) → reg.b_usable_prior = false

/-- The views that supply a usable position prior, with pose and intrinsic defined. -/
def usablePositionPriors (sfm_data : SfM_Data α) : List (IndexT × View α) :=
  sfm_data.views.filter (fun view_it =>
    match view_it.2.priors with
    | some prior => sfm_data.IsPoseAndIntrinsicDefined view_it.2 && prior.b_use_pose_center_
    | none => false)

/-- The view of the observation and its intrinsic are in the scene, and the camera model
of that intrinsic yields no cost function. -/
def SfM_Data.lacksCostFunction (sfm_data : SfM_Data α) (obs_it : IndexT × Observation α) : Bool :=
  match Hash_Map.find sfm_data.views obs_it.1 with
  | some view =>
    match Hash_Map.find sfm_data.intrinsics view.id_intrinsic with
    | some intrinsic => (IntrinsicsToCostFunction intrinsic obs_it.2.x 0).isNone
    | none => false
  | none => false

/-- The observation refers to a view that is not in the scene, or to a view whose
intrinsic or pose is not in the scene. -/
def SfM_Data.dangling (sfm_data : SfM_Data α) (obs_it : IndexT × Observation α) : Bool :=
  match Hash_Map.find sfm_data.views obs_it.1 with
  | some view =>
    !Hash_Map.contains sfm_data.intrinsics view.id_intrinsic
      || !Hash_Map.contains sfm_data.poses view.id_pose
  | none => true

/-- The observations of the landmarks of the scene, in the order `Adjust` visits them. -/
def SfM_Data.observations (sfm_data : SfM_Data α) : List (IndexT × Observation α) :=
  sfm_data.structure_.flatMap (fun structure_landmark_it => structure_landmark_it.2.obs)

/-- The three identifiers of a view. -/
def View.ids (view : View α) : IndexT × IndexT × IndexT :=
  (view.id_view, view.id_intrinsic, view.id_pose)

/-- The second scene has the keys, the identifiers, the intrinsics and the observations of
the first: it differs at most in coordinates. -/
def SameShape (s s1 : SfM_Data α) : Prop :=
  s1.intrinsics = s.intrinsics
    ∧ (∀ k, (Hash_Map.find s1.views k).map View.ids = (Hash_Map.find s.views k).map View.ids)
    ∧ (∀ k, Hash_Map.contains s1.poses k = Hash_Map.contains s.poses k)
    ∧ s1.observations = s.observations

/-- The size with which the call adds the block, if it does. -/
def ProblemCall.addedSize (block : ParameterBlock) : ProblemCall α → Option Nat
  | .AddParameterBlock b size => if b = block then some size else none
  | _ => none

/-- The call is `SetParameterBlockConstant(block)`. -/
def ProblemCall.setsConstant (block : ParameterBlock) : ProblemCall α → Bool
  | .SetParameterBlockConstant b => decide (b = block)
  | _ => false

/-- The constant cells of the subset manifold the call gives to the block, if it does. -/
def ProblemCall.manifoldOf (block : ParameterBlock) : ProblemCall α → Option (List Nat)
  | .SetManifold b _ constant => if b = block then some constant else none
  | _ => none

/-- The call adds a pose block or fixes cells of one. -/
def ProblemCall.touchesPose : ProblemCall α → Bool
  | .AddParameterBlock (.pose _) _ => true
  | .SetParameterBlockConstant (.pose _) => true
  | .SetManifold (.pose _) _ _ => true
  | _ => false

/-- The size a parameter block was added with. -/
def blockSize (problem : List (ProblemCall α)) (block : ParameterBlock) : Option Nat :=
  (problem.filterMap (ProblemCall.addedSize block)).head?

/-- The cells of a parameter block that the calls on the problem hold constant: all of
them after `SetParameterBlockConstant`, else those of its subset manifold, if it has one. -/
def constantCells (problem : List (ProblemCall α)) (block : ParameterBlock) : List Nat :=
  if problem.any (ProblemCall.setsConstant block) then
    List.range ((blockSize problem block).getD 0)
  else
    ((problem.filterMap (ProblemCall.manifoldOf block)).getLast?).getD []

end sfm

/-! ## The image listing tool (`main_SfMInit_ImageListing.cpp`) -/

section ImageListing

variable {α : Type}

/-- `getImgDirection(filename, GPS_to_XYZ_method, pose_rotation)`: the flag returned and the
matrix `pose_rotation` as the call leaves it.  What the call reads of the file: `exif` is
`some direction` when the EXIF reader opens the file, finds EXIF data and a
`GPSImgDirection`; `xmp` is `some (yaw, pitch, roll)`, in degrees, when the file opens as a
stream, has metadata fields and the three angles of its `GeoLocation` are set. -/
def getImgDirection (GPS_to_XYZ_method : Int) (exif : Option α) (xmp : Option (α × α × α))
    (pose_rotation : Mat3 α) : Bool × Mat3 α :=
  if GPS_to_XYZ_method ≠ 1 then (false, pose_rotation)
  else
    match exif with
    | some direction =>
      (true, { pose_rotation with r0 := { pose_rotation.r0 with x := direction } })
    | none =>
      match xmp with
      | some (YawDegree, PitchDegree, RollDegree) =>
        (true, { pose_rotation with r0 := ⟨YawDegree, PitchDegree, RollDegree⟩ })
      | none => (false, pose_rotation)

end ImageListing


/-! ## Further notions used to state the properties -/

namespace sfm

open geometry cameras

variable {α : Type} [LinearOrderedField α]

/-- The parameter blocks a call on the problem names. -/
def ProblemCall.blocks : ProblemCall α → List ParameterBlock
  | .AddParameterBlock block _ => [block]
  | .SetParameterBlockConstant block => [block]
  | .SetManifold block _ _ => [block]
  | .AddResidualBlock _ _ blocks => blocks

/-- The vector `residual` of the registration block: the norms of the differences between
the pose centers moved by `sim` and the position priors, before it is sorted. -/
def alignedPositionResiduals (m : Libm α) (sim : Similarity3 α) (c : PriorCorrespondences α) :
    List α :=
  List.zipWith (fun a b => norm m (a - b)) (c.X_SfM.map sim.applyPoint) c.X_GPS

/-- The vector `residual_R` of the registration block: the squared norms of the differences
between the `(cos, sin)` pairs of the pose yaws and of the prior yaws, before it is sorted. -/
def orientationResiduals (c : PriorCorrespondences α) : List α :=
  List.zipWith (fun a b => squaredNorm (a - b)) c.R_SfM c.R_GPS

/-- The median as the registration block reads it: `std::sort(v)`, then `v(v.size()/2)`. -/
def sortedMiddle (v : List α) : Except Fault α :=
  coeff (v.insertionSort (· ≤ ·)) ((v.insertionSort (· ≤ ·)).length / 2)

/-- The parameters of the Huber losses of the position-prior residual blocks of a problem,
in the order the blocks were added. -/
def positionPriorLossParameters (problem : List (ProblemCall α)) : List α :=
  problem.filterMap (fun call =>
    match call with
    | .AddResidualBlock (.pose_center _) (some (.HuberLoss a)) _ => some a
    | _ => none)

/-- The views that supply a usable orientation prior, with pose and intrinsic defined. -/
def usableOrientationPriors (sfm_data : SfM_Data α) : List (IndexT × View α) :=
  sfm_data.views.filter (fun view_it =>
    match view_it.2.priors with
    | some prior => sfm_data.IsPoseAndIntrinsicDefined view_it.2 && prior.b_use_pose_rotation_
    | none => false)

/-- The mean of the pose centers of a scene. -/
def meanPoseCenter (poses : Hash_Map (Pose3 α)) : Vec3 α :=
  Vec3.sdiv ⟨(poses.map (fun pose_it => pose_it.2.center.x)).sum,
             (poses.map (fun pose_it => pose_it.2.center.y)).sum,
             (poses.map (fun pose_it => pose_it.2.center.z)).sum⟩ (poses.length : α)

/-! ### Elementary rotations

The matrices the comment of `getAngles` refers to ("Matrix would be Rx.Ry.Rz"): the
rotations by an angle about the x, y and z axes, with the cosine and sine of `m`. -/

/-- The rotation by `x` about the first axis. -/
def Rx (m : Libm α) (x : α) : Mat3 α :=
  ⟨⟨1, 0, 0⟩, ⟨0, m.cos x, -m.sin x⟩, ⟨0, m.sin x, m.cos x⟩⟩

/-- The rotation by `y` about the second axis. -/
def Ry (m : Libm α) (y : α) : Mat3 α :=
  ⟨⟨m.cos y, 0, m.sin y⟩, ⟨0, 1, 0⟩, ⟨-m.sin y, 0, m.cos y⟩⟩

/-- The rotation by `z` about the third axis. -/
def Rz (m : Libm α) (z : α) : Mat3 α :=
  ⟨⟨m.cos z, -m.sin z, 0⟩, ⟨m.sin z, m.cos z, 0⟩, ⟨0, 0, 1⟩⟩

end sfm

/-! ## The image listing tool: `checkIntrinsicStringValidity` -/

section ImageListingIntrinsics

variable {α : Type}

/-- The outputs of `checkIntrinsicStringValidity`: the value returned and the three
reference parameters as the call leaves them. -/
structure IntrinsicString (α : Type) where
  valid : Bool
  focal : α
  ppx : α
  ppy : α
deriving DecidableEq

/-- The loop "Check that all K matrix value are valid numbers" from the index `i` on.
`read str` is the extraction `ss >> readvalue` on the stream of `str`: `some readvalue`
when it succeeds. -/
def readKmatrixFields (read : String → Option α) :
    List String → Nat → α → α → α → IntrinsicString α
  | [], _, focal, ppx, ppy => ⟨true, focal, ppx, ppy⟩
  | str :: rest, i, focal, ppx, ppy =>
    match read str with
    | none => ⟨false, focal, ppx, ppy⟩
    | some readvalue =>
      let focal := if i = 0 then readvalue else focal
      let ppx := if i = 2 then readvalue else ppx
      let ppy := if i = 5 then readvalue else ppy
      readKmatrixFields read rest (i + 1) focal ppx ppy

/-- `checkIntrinsicStringValidity(Kmatrix, focal, ppx, ppy)`.  `split Kmatrix` is the vector
that `stl::split(Kmatrix, ';', vec_str)` fills. -/
def checkIntrinsicStringValidity (split : String → List String) (read : String → Option α)
    (Kmatrix : String) (focal ppx ppy : α) : IntrinsicString α :=
  let vec_str := split Kmatrix
  if vec_str.length ≠ 9 then ⟨false, focal, ppx, ppy⟩
  else readKmatrixFields read vec_str 0 focal ppx ppy

/-- The shape the usage text documents, `"f;0;ppx;0;f;ppy;0;0;1"`: nine fields that read as
numbers, the same number in the fields 0 and 4, zero in the fields 1, 3, 6, 7 and one in
the field 8. -/
def KmatrixShape [DecidableEq α] [Zero α] [One α] (split : String → List String)
    (read : String → Option α) (Kmatrix : String) : Bool :=
  match (split Kmatrix).map read with
  | [some f, some a1, some _, some a3, some f4, some _, some a6, some a7, some a8] =>
    decide (f4 = f ∧ a1 = 0 ∧ a3 = 0 ∧ a6 = 0 ∧ a7 = 0 ∧ a8 = 1)
  | _ => false

end ImageListingIntrinsics

/-! ## The image listing tool: `checkPriorWeightsString` -/

section ImageListingWeights

variable {α : Type}

/-- `v[i] = x` on a `Vec3`: a write to one of its three components; any other index is
past the end of the vector. -/
def Vec3.setCoeff (v : Vec3 α) (i : Nat) (x : α) : Except Fault (Vec3 α) :=
  match i with
  | 0 => .ok { v with x := x }
  | 1 => .ok { v with y := x }
  | 2 => .ok { v with z := x }
  | _ => .error .index_out_of_bounds

/-- The loop "Check that all weight values are valid numbers" from the index `i` on; `val`
is the pair being built.  `read str` is the extraction `ss >> readvalue` on the stream of
`str`; when it fails `readvalue` is 0. -/
def readPriorWeights [Zero α] (read : String → Option α) :
    List String → Nat → Bool × Vec3 α → Except Fault (Bool × Vec3 α)
  | [], _, val => .ok val
  | str :: rest, i, val =>
    let r : Bool × α :=
      match read str with
      | some readvalue => (val.1, readvalue)
      | none => (false, 0)
    match Vec3.setCoeff val.2 i r.2 with
    | .error f => .error f
    | .ok second => readPriorWeights read rest (i + 1) (r.1, second)

/-- `checkPriorWeightsString(sWeights)`.  `split sWeights` is the vector that
`stl::split(sWeights, ';', vec_str)` fills. -/
def checkPriorWeightsString [Zero α] (split : String → List String)
    (read : String → Option α) (sWeights : String) : Except Fault (Bool × Vec3 α) :=
  let val : Bool × Vec3 α := (true, ⟨0, 0, 0⟩)
  let vec_str := split sWeights
  let val := if vec_str.length ≠ 3 then (false, val.2) else val
  readPriorWeights read vec_str 0 val

end ImageListingWeights
/-! ## Concrete scenes and collaborators, over the rationals -/

namespace sfm

open geometry cameras

namespace Examples

/-- C library stand-ins that agree with the real functions at every argument the scenes
below pass to them: `asin 0`, `atan2(0, 1)`, `cos 0`, `sin 0`, `sqrt 0`. -/
def libm : Libm ℚ :=
  Libm.ofTotal (fun _ => 0) (fun _ _ => 0) (fun _ => 1) (fun _ => 0) (fun x => x)

/-- Ceres rotation stand-ins that agree with the library on the identity rotation, the
only rotation in the scenes below: its angle-axis vector is zero. -/
def rotation : CeresRotation ℚ :=
  { AngleAxisRotatePoint := fun _ point => point
    AngleAxisToRotationMatrix := fun _ => Mat3.Identity
    RotationMatrixToAngleAxis := fun _ => 0 }

/-- Cell `i` of a parameter block, read from the memory the problem points to. -/
def memory (map_intrinsics map_poses : Hash_Map (List ℚ)) (sfm_data : SfM_Data ℚ) :
    ParameterBlock → Nat → ℚ
  | .pose k, i => ((Hash_Map.find map_poses k).getD []).getD i 0
  | .intrinsic k, i => ((Hash_Map.find map_intrinsics k).getD []).getD i 0
  | .landmark k, i =>
    match Hash_Map.find sfm_data.structure_ k with
    | some landmark => [landmark.X.x, landmark.X.y, landmark.X.z].getD i 0
    | none => 0
  | .control_point k, i =>
    match Hash_Map.find sfm_data.control_points k with
    | some landmark => [landmark.X.x, landmark.X.y, landmark.X.z].getD i 0
    | none => 0

/-- Collaborators for the scenes below.  The solver leaves every parameter where it is and
reports `usable`; the robust estimator reports the model `lmeds`; an intrinsic is rebuilt
from its parameter vector by storing the vector. -/
def externals (usable : Bool) (lmeds : Option (ℚ × Similarity3 ℚ)) : Externals ℚ :=
  { libm := libm
    rotation := rotation
    LeastMedianOfSquares := fun _ _ => lmeds
    subsetParameterization := fun _ _ => []
    updateFromParams := fun intrinsic params => { intrinsic with getParams := params }
    Solve := fun _ _ map_intrinsics map_poses sfm_data =>
      { IsSolutionUsable := usable, value := memory map_intrinsics map_poses sfm_data } }

/-- The options object built by `BA_Ceres_options(false, false)` without sparse backend. -/
def ceres_options : BA_Ceres_options ℚ :=
  BA_Ceres_options.create (fun _ => false) none false false

/-- Everything held fixed, no control point; motion priors as given. -/
def options (extrinsics_opt : Extrinsic_Parameter_Type) (use_motion_priors_opt : Bool) :
    Optimize_Options ℚ :=
  { intrinsics_opt := .NONE
    extrinsics_opt := extrinsics_opt
    structure_opt := .NONE
    control_point_opt := { weight := 1, bUse_control_points := false }
    use_motion_priors_opt := use_motion_priors_opt }

/-- A view without prior. -/
def plainView (id id_intrinsic id_pose : IndexT) : IndexT × View ℚ :=
  (id, { id_view := id, id_intrinsic := id_intrinsic, id_pose := id_pose, priors := none })

/-- A view with a usable position prior at `center` and a usable orientation prior equal
to the identity. -/
def viewWithPrior (id : IndexT) (center : Vec3 ℚ) : IndexT × View ℚ :=
  (id, { id_view := id, id_intrinsic := 0, id_pose := id
         priors := some
           { b_use_pose_center_ := true, center_weight_ := ⟨1, 1, 1⟩, pose_center_ := center
             b_use_pose_rotation_ := true, rotation_weight_ := 1
             pose_rotation_ := Mat3.Identity } })

/-- Four views with priors; every position prior is the center of the pose of the view
moved by one unit along x. -/
def priorScene : SfM_Data ℚ :=
  { views := [viewWithPrior 0 ⟨1, 0, 0⟩, viewWithPrior 1 ⟨2, 0, 0⟩, viewWithPrior 2 ⟨1, 1, 0⟩,
              viewWithPrior 3 ⟨1, 0, 1⟩]
    poses := [(0, ⟨Mat3.Identity, ⟨0, 0, 0⟩⟩), (1, ⟨Mat3.Identity, ⟨1, 0, 0⟩⟩),
              (2, ⟨Mat3.Identity, ⟨0, 1, 0⟩⟩), (3, ⟨Mat3.Identity, ⟨0, 0, 1⟩⟩)]
    intrinsics := [(0, { getType := .PINHOLE_CAMERA, getParams := [1, 0, 0] })]
    structure_ := []
    control_points := [] }

/-- `priorScene` with a fourth view that carries no prior: four views, three usable
position priors. -/
def threePriorsScene : SfM_Data ℚ :=
  { priorScene with
    views := [viewWithPrior 0 ⟨1, 0, 0⟩, viewWithPrior 1 ⟨2, 0, 0⟩, viewWithPrior 2 ⟨1, 1, 0⟩,
              plainView 3 0 3] }

/-- The similarity that maps the pose centers of `priorScene` onto their priors: the
translation by one unit along x (`sim(x) = 1 * I * (x - (-1, 0, 0))`). -/
def shiftX : Similarity3 ℚ :=
  { pose_ := { rotation_ := Mat3.Identity, center_ := ⟨-1, 0, 0⟩ }, scale_ := 1 }

/-- `priorScene` with every pose moved by `shiftX`. -/
def priorSceneRegistered : SfM_Data ℚ :=
  { priorScene with
    poses := [(0, ⟨Mat3.Identity, ⟨1, 0, 0⟩⟩), (1, ⟨Mat3.Identity, ⟨2, 0, 0⟩⟩),
              (2, ⟨Mat3.Identity, ⟨1, 1, 0⟩⟩), (3, ⟨Mat3.Identity, ⟨1, 0, 1⟩⟩)] }

/-- The re-centering of the registered `priorScene`: the centroid of its pose centers
`(1,0,0)`, `(2,0,0)`, `(1,1,0)`, `(1,0,1)` is `(5/4, 1/4, 1/4)`. -/
def centering : Similarity3 ℚ :=
  { pose_ := { rotation_ := Mat3.Identity, center_ := ⟨5 / 4, 1 / 4, 1 / 4⟩ }, scale_ := 1 }

/-- `priorScene` registered by `shiftX`, then re-centered. -/
def priorSceneCentered : SfM_Data ℚ :=
  ApplySimilarity centering (ApplySimilarity shiftX priorScene false) true

/-- A landmark at the origin seen once, in the view `view_id`. -/
def pointSeenIn (view_id : IndexT) : Landmark ℚ :=
  { X := ⟨0, 0, 0⟩, obs := [(view_id, { x := ⟨0, 0⟩, id_feat := 0 })] }

/-- One pinhole view with its pose, and one landmark seen in it. -/
def smallScene : SfM_Data ℚ :=
  { views := [plainView 0 0 0]
    poses := [(0, ⟨Mat3.Identity, ⟨0, 0, 0⟩⟩)]
    intrinsics := [(0, { getType := .PINHOLE_CAMERA, getParams := [1, 0, 0] })]
    structure_ := [(0, pointSeenIn 0)]
    control_points := [] }

/-- The problem `Adjust` builds on `smallScene` when only the rotations are adjusted. -/
def smallProblem : BuiltProblem ℚ :=
  { problem :=
      [.AddParameterBlock (.pose 0) 6, .SetManifold (.pose 0) 6 [3, 4, 5],
       .AddParameterBlock (.intrinsic 0) 3, .SetParameterBlockConstant (.intrinsic 0),
       .AddResidualBlock (.reprojection .Pinhole_Intrinsic ⟨0, 0⟩ 0) (some (.HuberLoss 16))
         [.intrinsic 0, .pose 0, .landmark 0],
       .SetParameterBlockConstant (.landmark 0)]
    map_intrinsics := [(0, [1, 0, 0])]
    map_poses := [(0, [0, 0, 0, 0, 0, 0])] }

/-- `smallScene` without the pose of its view: the view is listed but not yet posed. -/
def unposedScene : SfM_Data ℚ := { smallScene with poses := [] }

/-- `smallScene` without its view: the landmark refers to a view that is not listed. -/
def orphanScene : SfM_Data ℚ := { smallScene with views := [] }

/-- A point at the origin seen in the views 0 and 1. -/
def pointSeenTwice : Landmark ℚ :=
  { X := ⟨0, 0, 0⟩
    obs := [(0, { x := ⟨0, 0⟩, id_feat := 0 }), (1, { x := ⟨0, 0⟩, id_feat := 0 })] }

/-- Two posed views, the first with a pinhole camera and the second with a camera model
that is not recognized, and one ground control point seen in both; no landmark. -/
def gcpScene : SfM_Data ℚ :=
  { views := [plainView 0 0 0, plainView 1 1 1]
    poses := [(0, ⟨Mat3.Identity, ⟨0, 0, 0⟩⟩), (1, ⟨Mat3.Identity, ⟨1, 0, 0⟩⟩)]
    intrinsics := [(0, { getType := .PINHOLE_CAMERA, getParams := [1, 0, 0] }),
                   (1, { getType := .UNRECOGNIZED 0, getParams := [] })]
    structure_ := []
    control_points := [(0, pointSeenTwice)] }

/-- The same scene with the point as an ordinary landmark. -/
def gcpSceneAsLandmark : SfM_Data ℚ :=
  { gcpScene with structure_ := [(0, pointSeenTwice)], control_points := [] }

/-- Everything held fixed, control points in use with weight 20. -/
def optionsWithControlPoints : Optimize_Options ℚ :=
  { options .NONE false with control_point_opt := { weight := 20, bUse_control_points := true } }

end Examples

end sfm


/-! ## More concrete scenes -/

namespace sfm

open geometry cameras

namespace Examples

/-- A point at the origin that no view observes. -/
def unobservedPoint : Landmark ℚ := { X := ⟨0, 0, 0⟩, obs := [] }

/-- `priorScene` with one ground control point without observation. -/
def priorSceneWithControlPoint : SfM_Data ℚ :=
  { priorScene with control_points := [(0, unobservedPoint)] }

/-- `smallScene` with one ground control point, seen in its view, and a second one
without observation. -/
def mixedScene : SfM_Data ℚ :=
  { smallScene with control_points := [(0, pointSeenIn 0), (1, unobservedPoint)] }

/-- The problem `Adjust` builds on `mixedScene` with `optionsWithControlPoints`. -/
def mixedProblem : BuiltProblem ℚ :=
  { problem :=
      [.AddParameterBlock (.pose 0) 6, .SetParameterBlockConstant (.pose 0),
       .AddParameterBlock (.intrinsic 0) 3, .SetParameterBlockConstant (.intrinsic 0),
       .AddResidualBlock (.reprojection .Pinhole_Intrinsic ⟨0, 0⟩ 0) (some (.HuberLoss 16))
         [.intrinsic 0, .pose 0, .landmark 0],
       .SetParameterBlockConstant (.landmark 0),
       .AddResidualBlock (.reprojection .Pinhole_Intrinsic ⟨0, 0⟩ 20) none
         [.intrinsic 0, .pose 0, .control_point 0],
       .SetParameterBlockConstant (.control_point 0)]
    map_intrinsics := [(0, [1, 0, 0])]
    map_poses := [(0, [0, 0, 0, 0, 0, 0])] }

/-- A view with a usable position prior at `center` and no usable orientation prior. -/
def viewWithPositionPrior (id : IndexT) (center : Vec3 ℚ) : IndexT × View ℚ :=
  (id, { id_view := id, id_intrinsic := 0, id_pose := id
         priors := some
           { b_use_pose_center_ := true, center_weight_ := ⟨1, 1, 1⟩, pose_center_ := center
             b_use_pose_rotation_ := false, rotation_weight_ := 1
             pose_rotation_ := Mat3.Identity } })

/-- The scene `priorScene` with position priors only: four views, each with a usable
position prior, none with a usable orientation prior. -/
def positionPriorScene : SfM_Data ℚ :=
  { priorScene with
    views := [viewWithPositionPrior 0 ⟨1, 0, 0⟩, viewWithPositionPrior 1 ⟨2, 0, 0⟩,
              viewWithPositionPrior 2 ⟨1, 1, 0⟩, viewWithPositionPrior 3 ⟨1, 0, 1⟩] }

/-- The stand-ins of `libm` with a square root that is right at 0, 1 and 4. -/
def libmSqrt : Libm ℚ :=
  Libm.ofTotal (fun _ => 0) (fun _ _ => 0) (fun _ => 1) (fun _ => 0)
    (fun x => if x = 4 then 2 else x)

/-- The collaborators `externals` with the C library `libmSqrt`. -/
def externalsSqrt (usable : Bool) (lmeds : Option (ℚ × Similarity3 ℚ)) : Externals ℚ :=
  { externals usable lmeds with libm := libmSqrt }

/-- Six views with priors.  The position priors of the views 0, 1, 2 are the pose centers
moved by one unit along x; those of the views 3, 4, 5 are two units further, along x, y
and z: `shiftX` fits three correspondences and leaves a residual of norm 2 on the others. -/
def noisyPriorScene : SfM_Data ℚ :=
  { views := [viewWithPrior 0 ⟨1, 0, 0⟩, viewWithPrior 1 ⟨2, 0, 0⟩, viewWithPrior 2 ⟨1, 1, 0⟩,
              viewWithPrior 3 ⟨3, 0, 1⟩, viewWithPrior 4 ⟨2, 3, 0⟩, viewWithPrior 5 ⟨2, 0, 3⟩]
    poses := [(0, ⟨Mat3.Identity, ⟨0, 0, 0⟩⟩), (1, ⟨Mat3.Identity, ⟨1, 0, 0⟩⟩),
              (2, ⟨Mat3.Identity, ⟨0, 1, 0⟩⟩), (3, ⟨Mat3.Identity, ⟨0, 0, 1⟩⟩),
              (4, ⟨Mat3.Identity, ⟨1, 1, 0⟩⟩), (5, ⟨Mat3.Identity, ⟨1, 0, 1⟩⟩)]
    intrinsics := [(0, { getType := .PINHOLE_CAMERA, getParams := [1, 0, 0] })]
    structure_ := []
    control_points := [] }

/-- The re-centering of `noisyPriorScene` registered by `shiftX`: the centroid of the
registered pose centers is `(3/2, 1/3, 1/3)`. -/
def centeringNoisy : Similarity3 ℚ :=
  { pose_ := { rotation_ := Mat3.Identity, center_ := ⟨3 / 2, 1 / 3, 1 / 3⟩ }, scale_ := 1 }

/-- The scene `noisyPriorScene` registered by `shiftX`, then re-centered. -/
def noisyPriorSceneCentered : SfM_Data ℚ :=
  ApplySimilarity centeringNoisy (ApplySimilarity shiftX noisyPriorScene false) true

end Examples

end sfm

/-! ## Stand-ins for the string helpers of the image listing tool -/

namespace Examples

/-- The fields `std::getline(ss, item, delim)` yields one after the other; `cur` is the
field being read, in reverse. -/
def getlineFields (delim : Char) (cur : List Char) : List Char → List String
  | [] => if cur.isEmpty then [] else [String.mk cur.reverse]
  | c :: rest =>
    if c = delim then String.mk cur.reverse :: getlineFields delim [] rest
    else getlineFields delim (c :: cur) rest

/-- A stand-in for `stl::split(s, ';', vec_str)`. -/
def split (s : String) : List String := getlineFields ';' [] s.data

/-- The number a string of decimal digits denotes, the digits read from the left. -/
def readDigits : List Char → Nat → Option Nat
  | [], n => some n
  | c :: rest, n => if c.isDigit then readDigits rest (10 * n + (c.toNat - 48)) else none

/-- A stand-in for the extraction `ss >> readvalue`, right on the strings of decimal
digits (it reads nothing else). -/
def read (s : String) : Option ℚ :=
  if s.data.isEmpty then none else (readDigits s.data 0).map (fun n => (n : ℚ))

end Examples

/-! ## Scenes whose views and poses have different keys -/

namespace sfm

open geometry cameras

namespace Examples

/-- A view with a usable position prior at `center` and a usable orientation prior equal
to the identity, posed by the pose `id_pose`. -/
def viewWithPriorOn (id id_pose : IndexT) (center : Vec3 ℚ) : IndexT × View ℚ :=
  (id, { id_view := id, id_intrinsic := 0, id_pose := id_pose
         priors := some
           { b_use_pose_center_ := true, center_weight_ := ⟨1, 1, 1⟩, pose_center_ := center
             b_use_pose_rotation_ := true, rotation_weight_ := 1
             pose_rotation_ := Mat3.Identity } })

/-- The poses of `priorScene`, with the views 0 and 1 posed by the poses 1 and 0 and the
views 2 and 3 by the poses 3 and 2; every position prior is the center of the pose of its
view moved by one unit along x. -/
def swappedPoseScene : SfM_Data ℚ :=
  { priorScene with
    views := [viewWithPriorOn 0 1 ⟨2, 0, 0⟩, viewWithPriorOn 1 0 ⟨1, 0, 0⟩,
              viewWithPriorOn 2 3 ⟨1, 0, 1⟩, viewWithPriorOn 3 2 ⟨1, 1, 0⟩] }

/-- The scene `priorScene` with its poses under the keys 10 to 13. -/
def offsetPoseScene : SfM_Data ℚ :=
  { priorScene with
    views := [viewWithPriorOn 0 10 ⟨1, 0, 0⟩, viewWithPriorOn 1 11 ⟨2, 0, 0⟩,
              viewWithPriorOn 2 12 ⟨1, 1, 0⟩, viewWithPriorOn 3 13 ⟨1, 0, 1⟩]
    poses := [(10, ⟨Mat3.Identity, ⟨0, 0, 0⟩⟩), (11, ⟨Mat3.Identity, ⟨1, 0, 0⟩⟩),
              (12, ⟨Mat3.Identity, ⟨0, 1, 0⟩⟩), (13, ⟨Mat3.Identity, ⟨0, 0, 1⟩⟩)] }

/-- The registration of `swappedPoseScene` by `shiftX`, then re-centered. -/
def swappedPoseSceneCentered : SfM_Data ℚ :=
  ApplySimilarity centering (ApplySimilarity shiftX swappedPoseScene false) true

/-- Stand-ins for the Ceres rotation conversions that are right on the rotations about
the z axis: the angle-axis vector `(0, 0, a)` is the rotation `Rz(a)`. -/
def rotationAboutZ {α : Type} [LinearOrderedField α] (m : Libm α) : CeresRotation α :=
  { AngleAxisRotatePoint := fun angle_axis point => (Rz m angle_axis.z).mulVec point
    AngleAxisToRotationMatrix := fun angle_axis => Rz m angle_axis.z
    RotationMatrixToAngleAxis := fun R => ⟨0, 0, m.atan2 (R 1 0) (R 0 0)⟩ }

/-- The identity matrix with `d` written in its cell (0,0): what `getImgDirection` leaves
for the EXIF direction `d` on a matrix that was the identity. -/
def headingMatrix {α : Type} [LinearOrderedField α] (d : α) : Mat3 α :=
  ⟨⟨d, 0, 0⟩, ⟨0, 1, 0⟩, ⟨0, 0, 1⟩⟩

/-- A view, posed by the pose 0, whose one usable prior is the orientation prior with the
matrix `P` and the weight 1. -/
def headingView {α : Type} [LinearOrderedField α] (P : Mat3 α) : View α :=
  { id_view := 0, id_intrinsic := 0, id_pose := 0
    priors := some
      { b_use_pose_center_ := false, center_weight_ := ⟨1, 1, 1⟩, pose_center_ := ⟨0, 0, 0⟩
        b_use_pose_rotation_ := true, rotation_weight_ := 1
        pose_rotation_ := P } }

/-- One pinhole view with the identity pose and the orientation prior `P`. -/
def headingScene {α : Type} [LinearOrderedField α] (P : Mat3 α) : SfM_Data α :=
  { views := [(0, headingView P)]
    poses := [(0, ⟨Mat3.Identity, ⟨0, 0, 0⟩⟩)]
    intrinsics := [(0, { getType := .PINHOLE_CAMERA, getParams := [1, 0, 0] })]
    structure_ := []
    control_points := [] }

end Examples

end sfm
/-! # Properties -/

set_option linter.unusedSectionVars false
set_option linter.unnecessarySeqFocus false

namespace sfm

open geometry cameras

variable {α : Type} [LinearOrderedField α]

/-! ## The registration block -/

theorem registerPriors_of_flag_false (ext : Externals α) (o : Optimize_Options α)
    (s : SfM_Data α) (reg : PriorRegistration α) (s1 : SfM_Data α)
    (h : registerPriors ext o s = .ok (reg, s1)) (hf : reg.b_usable_prior = false) :
    reg = PriorRegistration.initial ∧ s1 = s := by
  unfold registerPriors at h
  split_ifs at h with h1
  · cases hc : collectCorrespondences ext.libm s s.views with
    | error e => simp [hc, bind, Except.bind] at h
    | ok c =>
      simp only [hc, bind, Except.bind] at h
      split_ifs at h with h2
      · cases hl : ext.LeastMedianOfSquares c.X_SfM c.X_GPS with
        | none =>
          simp only [hl, pure, Except.pure] at h
          cases h; exact ⟨rfl, rfl⟩
        | some r =>
          obtain ⟨med, sim⟩ := r
          simp only [hl] at h
          split at h
          · cases h
          · split at h
            · cases h
            · simp only [pure, Except.pure] at h
              cases h
              simp at hf
      · simp only [pure, Except.pure] at h
        cases h; exact ⟨rfl, rfl⟩
  · simp only [pure, Except.pure] at h
    cases h; exact ⟨rfl, rfl⟩

theorem registerPriors_intrinsics (ext : Externals α) (o : Optimize_Options α)
    (s : SfM_Data α) (reg : PriorRegistration α) (s1 : SfM_Data α)
    (h : registerPriors ext o s = .ok (reg, s1)) : s1.intrinsics = s.intrinsics := by
  unfold registerPriors at h
  split_ifs at h with h1
  · cases hc : collectCorrespondences ext.libm s s.views with
    | error e => simp [hc, bind, Except.bind] at h
    | ok c =>
      simp only [hc, bind, Except.bind] at h
      split_ifs at h with h2
      · cases hl : ext.LeastMedianOfSquares c.X_SfM c.X_GPS with
        | none =>
          simp only [hl, pure, Except.pure] at h
          cases h; rfl
        | some r =>
          obtain ⟨med, sim⟩ := r
          simp only [hl] at h
          split at h
          · cases h
          · split at h
            · cases h
            · simp only [pure, Except.pure] at h
              cases h
              rfl
      · simp only [pure, Except.pure] at h
        cases h; rfl
  · simp only [pure, Except.pure] at h
    cases h; rfl

theorem noRegistration_of_disabled (ext : Externals α) (o : Optimize_Options α)
    (s : SfM_Data α) (h : o.use_motion_priors_opt = false) : NoRegistration ext o s := by
  intro reg s1 hr
  simp [registerPriors, h, pure, Except.pure] at hr
  rw [← hr.1]; rfl

/-! ## How a call of `Adjust` ends -/

theorem Adjust_returned (ext : Externals α) (c : BA_Ceres_options α) (s : SfM_Data α)
    (o : Optimize_Options α) (b : Bool) (s' : SfM_Data α)
    (h : Adjust ext c s o = .returned b s') :
    ∃ reg s1, registerPriors ext o s = .ok (reg, s1) ∧
      ((buildProblem ext c o reg s1 = .error .return_false ∧ b = false ∧ s' = s1) ∨
       ∃ built, buildProblem ext c o reg s1 = .ok built ∧
         solveAndMaterialize ext c o reg built s1 = .returned b s') := by
  unfold Adjust at h
  split at h
  · cases h
  · rename_i reg s1 hr
    refine ⟨reg, s1, hr, ?_⟩
    split at h
    · cases h
    · rename_i hb
      cases h
      exact Or.inl ⟨hb, rfl, rfl⟩
    · rename_i built hb
      exact Or.inr ⟨built, hb, h⟩

theorem solveAndMaterialize_returned (ext : Externals α) (c : BA_Ceres_options α)
    (o : Optimize_Options α) (reg : PriorRegistration α) (built : BuiltProblem α)
    (s1 : SfM_Data α) (b : Bool) (s' : SfM_Data α)
    (h : solveAndMaterialize ext c o reg built s1 = .returned b s') :
    ((solve ext c built s1).IsSolutionUsable = false ∧ b = false ∧
        s' = solvedScene built (solve ext c built s1) s1) ∨
    ((solve ext c built s1).IsSolutionUsable = true ∧ b = true ∧
        materialize ext o reg
          (solvedMap built.problem (solve ext c built s1) .intrinsic built.map_intrinsics)
          (solvedMap built.problem (solve ext c built s1) .pose built.map_poses)
          (solvedScene built (solve ext c built s1) s1) = .ok s') := by
  unfold solveAndMaterialize at h
  simp only at h
  split_ifs at h with hu
  · cases h
    left
    simp at hu
    exact ⟨hu, rfl, rfl⟩
  · simp at hu
    split at h
    · cases h
    · rename_i hm
      cases h
      right
      exact ⟨hu, rfl, hm⟩

theorem materialize_poses_of_NONE (ext : Externals α) (o : Optimize_Options α)
    (reg : PriorRegistration α) (mi mp : Hash_Map (List α)) (s s' : SfM_Data α)
    (hNone : o.extrinsics_opt = .NONE) (hreg : reg.b_usable_prior = false)
    (h : materialize ext o reg mi mp s = .ok s') : s'.poses = s.poses := by
  unfold materialize at h
  simp only [hNone, ne_eq, not_true_eq_false, if_false, hreg, Bool.false_eq_true, bind,
    Except.bind, pure, Except.pure] at h
  by_cases hi : o.intrinsics_opt = .NONE
  · simp only [hi, not_true_eq_false, if_false] at h
    cases h; rfl
  · simp only [hi, not_false_eq_true, if_true] at h
    cases hu : updateIntrinsics ext mi s.intrinsics with
    | error e => simp [hu] at h
    | ok v => simp only [hu] at h; cases h; rfl

/-! ## Maps -/

theorem Hash_Map.find_map {V W : Type} (f : V → W) (m : Hash_Map V) (k : IndexT) :
    Hash_Map.find (m.map (fun it => (it.1, f it.2))) k = (Hash_Map.find m k).map f := by
  induction m with
  | nil => rfl
  | cons hd tl ih =>
    obtain ⟨k', v⟩ := hd
    simp only [List.map, Hash_Map.find]
    split_ifs with hk
    · rfl
    · exact ih

theorem Hash_Map.contains_map {V W : Type} (f : V → W) (m : Hash_Map V) (k : IndexT) :
    Hash_Map.contains (m.map (fun it => (it.1, f it.2))) k = Hash_Map.contains m k := by
  simp [Hash_Map.contains, Hash_Map.find_map]

theorem Hash_Map.find_set {V : Type} (m : Hash_Map V) (k k' : IndexT) (v : V) :
    Hash_Map.find (Hash_Map.set m k v) k' = if k = k' then some v else Hash_Map.find m k' := by
  induction m with
  | nil => simp [Hash_Map.set, Hash_Map.find]
  | cons hd tl ih =>
    obtain ⟨k0, v0⟩ := hd
    simp only [Hash_Map.set]
    by_cases h0 : k0 = k
    · subst h0
      by_cases h1 : k0 = k' <;> simp [Hash_Map.find, h1]
    · simp only [h0, if_false, Hash_Map.find, ih]
      by_cases h1 : k0 = k'
      · subst h1
        simp [Ne.symm h0]
      · simp [h1]

theorem Hash_Map.not_contains_iff {V : Type} (m : Hash_Map V) (k : IndexT) :
    (!Hash_Map.contains m k) = true ↔ Hash_Map.find m k = none := by
  unfold Hash_Map.contains
  cases Hash_Map.find m k <;> simp

theorem Hash_Map.at_eq_ok {V : Type} (m : Hash_Map V) (k : IndexT) (v : V) :
    Hash_Map.at_ m k = .ok v ↔ Hash_Map.find m k = some v := by
  unfold Hash_Map.at_
  cases Hash_Map.find m k <;> simp

theorem Hash_Map.at_of_find_none {V : Type} (m : Hash_Map V) (k : IndexT)
    (h : Hash_Map.find m k = none) : Hash_Map.at_ m k = .error .out_of_range := by
  simp [Hash_Map.at_, h]

theorem Hash_Map.mem_of_find {V : Type} (m : Hash_Map V) (k : IndexT) (v : V)
    (h : Hash_Map.find m k = some v) : (k, v) ∈ m := by
  induction m with
  | nil => simp [Hash_Map.find] at h
  | cons hd tl ih =>
    obtain ⟨k0, v0⟩ := hd
    simp only [Hash_Map.find] at h
    split_ifs at h with h0
    · cases h; subst h0; exact List.mem_cons_self _ _
    · exact List.mem_cons_of_mem _ (ih h)

theorem Hash_Map.find_of_mem_nodup {V : Type} (m : Hash_Map V) (k : IndexT) (v : V)
    (hm : (k, v) ∈ m) (hn : (m.map (fun it => it.1)).Nodup) : Hash_Map.find m k = some v := by
  induction m with
  | nil => cases hm
  | cons hd tl ih =>
    obtain ⟨k0, v0⟩ := hd
    simp only [List.map, List.nodup_cons] at hn
    simp only [Hash_Map.find]
    rcases List.mem_cons.mp hm with heq | htl
    · cases heq; simp
    · have hne : k0 ≠ k := by
        intro hk
        subst hk
        exact hn.1 (List.mem_map.mpr ⟨(k0, v), htl, rfl⟩)
      simp only [hne, if_false]
      exact ih htl hn.2

/-! ## The loop over the poses -/

theorem setupPoses_fold (rot : CeresRotation α) (e : Extrinsic_Parameter_Type)
    (poses : Hash_Map (Pose3 α)) (mp : Hash_Map (List α)) (calls : List (ProblemCall α)) :
    (poses.foldl (fun st pose_it =>
        (Hash_Map.set st.1 pose_it.1 (poseParameters rot pose_it.2),
         st.2 ++ poseBlockCalls e pose_it.1)) (mp, calls)).2
      = calls ++ poses.flatMap (fun pose_it => poseBlockCalls e pose_it.1) := by
  induction poses generalizing mp calls with
  | nil => simp
  | cons hd tl ih => simp [List.foldl, ih, List.flatMap_cons, List.append_assoc]

/-- The calls of the loop over the poses: those of each pose, in order. -/
theorem setupPoses_calls (rot : CeresRotation α) (e : Extrinsic_Parameter_Type)
    (poses : Hash_Map (Pose3 α)) :
    (setupPoses rot e poses).2 = poses.flatMap (fun pose_it => poseBlockCalls e pose_it.1) := by
  unfold setupPoses
  rw [setupPoses_fold]
  simp

theorem setupPoses_fold_find (rot : CeresRotation α) (e : Extrinsic_Parameter_Type)
    (poses : Hash_Map (Pose3 α)) (mp : Hash_Map (List α)) (calls : List (ProblemCall α))
    (k : IndexT) :
    Hash_Map.find (poses.foldl (fun st pose_it =>
        (Hash_Map.set st.1 pose_it.1 (poseParameters rot pose_it.2),
         st.2 ++ poseBlockCalls e pose_it.1)) (mp, calls)).1 k
      = match Hash_Map.find poses.reverse k with
        | some pose => some (poseParameters rot pose)
        | none => Hash_Map.find mp k := by
  induction poses generalizing mp calls with
  | nil => simp [Hash_Map.find]
  | cons hd tl ih =>
    obtain ⟨k0, p0⟩ := hd
    simp only [List.foldl, ih, List.reverse_cons]
    have happ : ∀ (l : Hash_Map (Pose3 α)),
        Hash_Map.find (l ++ [(k0, p0)]) k
          = match Hash_Map.find l k with
            | some pose => some pose
            | none => if k0 = k then some p0 else none := by
      intro l
      induction l with
      | nil => simp [Hash_Map.find]
      | cons hd2 tl2 ih2 =>
        obtain ⟨k2, p2⟩ := hd2
        simp only [List.cons_append, Hash_Map.find]
        by_cases h2 : k2 = k
        · simp [h2]
        · simp only [h2, if_false]
          exact ih2
    rw [happ]
    cases hfind : Hash_Map.find tl.reverse k with
    | some pose => simp
    | none =>
      simp only [Hash_Map.find_set]
      split_ifs <;> rfl

/-- A pose id that is not a key of the poses is not a key of `map_poses`. -/
theorem setupPoses_find_none (rot : CeresRotation α) (e : Extrinsic_Parameter_Type)
    (poses : Hash_Map (Pose3 α)) (k : IndexT) (h : Hash_Map.find poses k = none) :
    Hash_Map.find (setupPoses rot e poses).1 k = none := by
  unfold setupPoses
  rw [setupPoses_fold_find]
  have hrev : Hash_Map.find poses.reverse k = none := by
    cases hr : Hash_Map.find poses.reverse k with
    | none => rfl
    | some p =>
      have hmem := List.mem_reverse.mp (Hash_Map.mem_of_find _ _ _ hr)
      exfalso
      clear hr
      induction poses with
      | nil => cases hmem
      | cons hd tl ih =>
        obtain ⟨k0, p0⟩ := hd
        simp only [Hash_Map.find] at h
        split_ifs at h with h0
        rcases List.mem_cons.mp hmem with heq | htl
        · cases heq; exact h0 rfl
        · exact ih h htl
  simp [hrev, Hash_Map.find]

/-! ## The registration keeps the shape of the scene -/

theorem SameShape.refl (s : SfM_Data α) : SameShape s s :=
  ⟨rfl, fun _ => rfl, fun _ => rfl, rfl⟩

theorem SameShape.trans {s s1 s2 : SfM_Data α} (h1 : SameShape s s1) (h2 : SameShape s1 s2) :
    SameShape s s2 :=
  ⟨h2.1.trans h1.1, fun k => (h2.2.1 k).trans (h1.2.1 k),
    fun k => (h2.2.2.1 k).trans (h1.2.2.1 k), h2.2.2.2.trans h1.2.2.2⟩

theorem ApplySimilarity_sameShape (sim : Similarity3 α) (s : SfM_Data α) (tp : Bool) :
    SameShape s (ApplySimilarity sim s tp) := by
  refine ⟨rfl, fun k => ?_, fun k => ?_, ?_⟩
  · cases tp
    · rfl
    · let g : ViewPriors α → ViewPriors α := fun prior =>
        { prior with pose_center_ := sim.applyPoint prior.pose_center_ }
      let f : View α → View α := fun v => { v with priors := Option.map g v.priors }
      show (Hash_Map.find (s.views.map (fun it => (it.1, f it.2))) k).map View.ids = _
      rw [Hash_Map.find_map f]
      cases Hash_Map.find s.views k <;> rfl
  · exact Hash_Map.contains_map _ _ _
  · simp only [SfM_Data.observations, ApplySimilarity]
    generalize s.structure_ = l
    induction l with
    | nil => rfl
    | cons hd tl ih => simp only [List.map_cons, List.flatMap_cons, ih]

theorem registerPriors_cases (ext : Externals α) (o : Optimize_Options α)
    (s : SfM_Data α) (reg : PriorRegistration α) (s1 : SfM_Data α)
    (h : registerPriors ext o s = .ok (reg, s1)) :
    (reg = PriorRegistration.initial ∧ s1 = s) ∨
    (reg.b_usable_prior = true ∧ ∃ sim : Similarity3 α,
      reg.sim_to_center =
        { pose_ := { rotation_ := Mat3.Identity
                     center_ := poseCentroid (ApplySimilarity sim s false).poses }
          scale_ := 1 } ∧
      s1 = ApplySimilarity reg.sim_to_center (ApplySimilarity sim s false) true) := by
  unfold registerPriors at h
  split_ifs at h with h1
  · cases hc : collectCorrespondences ext.libm s s.views with
    | error e => simp [hc, bind, Except.bind] at h
    | ok c =>
      simp only [hc, bind, Except.bind] at h
      split_ifs at h with h2
      · cases hl : ext.LeastMedianOfSquares c.X_SfM c.X_GPS with
        | none =>
          simp only [hl, pure, Except.pure] at h
          cases h; exact Or.inl ⟨rfl, rfl⟩
        | some r =>
          obtain ⟨med, sim⟩ := r
          simp only [hl] at h
          split at h
          · cases h
          · split at h
            · cases h
            · simp only [pure, Except.pure] at h
              cases h
              exact Or.inr ⟨rfl, sim, rfl, rfl⟩
      · simp only [pure, Except.pure] at h
        cases h; exact Or.inl ⟨rfl, rfl⟩
  · simp only [pure, Except.pure] at h
    cases h; exact Or.inl ⟨rfl, rfl⟩

theorem registerPriors_sameShape (ext : Externals α) (o : Optimize_Options α)
    (s : SfM_Data α) (reg : PriorRegistration α) (s1 : SfM_Data α)
    (h : registerPriors ext o s = .ok (reg, s1)) : SameShape s s1 := by
  rcases registerPriors_cases ext o s reg s1 h with ⟨-, rfl⟩ | ⟨-, sim, -, rfl⟩
  · exact SameShape.refl _
  · exact (ApplySimilarity_sameShape sim s false).trans (ApplySimilarity_sameShape _ _ true)

theorem lacksCostFunction_sameShape {s s1 : SfM_Data α} (h : SameShape s s1)
    (obs_it : IndexT × Observation α) :
    s1.lacksCostFunction obs_it = s.lacksCostFunction obs_it := by
  unfold SfM_Data.lacksCostFunction
  have hv := h.2.1 obs_it.1
  rw [h.1]
  cases h1 : Hash_Map.find s1.views obs_it.1 with
  | none =>
    cases h0 : Hash_Map.find s.views obs_it.1 with
    | none => rfl
    | some v => simp [h1, h0] at hv
  | some v1 =>
    cases h0 : Hash_Map.find s.views obs_it.1 with
    | none => simp [h1, h0] at hv
    | some v =>
      simp only [h1, h0, Option.map_some', Option.some.injEq, View.ids, Prod.mk.injEq] at hv
      simp only [hv.2.1]

theorem dangling_sameShape {s s1 : SfM_Data α} (h : SameShape s s1)
    (obs_it : IndexT × Observation α) : s1.dangling obs_it = s.dangling obs_it := by
  unfold SfM_Data.dangling
  have hv := h.2.1 obs_it.1
  rw [h.1]
  cases h1 : Hash_Map.find s1.views obs_it.1 with
  | none =>
    cases h0 : Hash_Map.find s.views obs_it.1 with
    | none => rfl
    | some v => simp [h1, h0] at hv
  | some v1 =>
    cases h0 : Hash_Map.find s.views obs_it.1 with
    | none => simp [h1, h0] at hv
    | some v =>
      simp only [h1, h0, Option.map_some', Option.some.injEq, View.ids, Prod.mk.injEq] at hv
      simp only [hv.2.1, hv.2.2, h.2.2.1]

/-! ## The loop over the landmark observations -/

theorem landmarkObservation_of_lacksCostFunction (s : SfM_Data α)
    (mi mp : Hash_Map (List α)) (loss : Option (LossFunction α)) (id : IndexT)
    (obs_it : IndexT × Observation α) (h : s.lacksCostFunction obs_it = true) :
    landmarkObservation s mi mp loss id obs_it = .error .return_false := by
  unfold SfM_Data.lacksCostFunction at h
  unfold landmarkObservation
  cases hv : Hash_Map.find s.views obs_it.1 with
  | none => simp [hv] at h
  | some view =>
    simp only [hv] at h
    cases hi : Hash_Map.find s.intrinsics view.id_intrinsic with
    | none => simp [hi] at h
    | some intrinsic =>
      simp only [hi, Option.isNone_iff_eq_none] at h
      simp [Hash_Map.at_, hv, hi, liftFault, bind, Except.bind, h]

theorem lacksCostFunction_of_landmarkObservation (s : SfM_Data α)
    (mi mp : Hash_Map (List α)) (loss : Option (LossFunction α)) (id : IndexT)
    (obs_it : IndexT × Observation α)
    (h : landmarkObservation s mi mp loss id obs_it = .error .return_false) :
    s.lacksCostFunction obs_it = true := by
  unfold SfM_Data.lacksCostFunction
  unfold landmarkObservation at h
  cases hv : Hash_Map.find s.views obs_it.1 with
  | none => simp [Hash_Map.at_, hv, liftFault, bind, Except.bind] at h
  | some view =>
    simp only [Hash_Map.at_, hv, liftFault, bind, Except.bind] at h
    cases hi : Hash_Map.find s.intrinsics view.id_intrinsic with
    | none => simp [hi] at h
    | some intrinsic =>
      simp only [hi] at h
      cases hc : IntrinsicsToCostFunction intrinsic obs_it.2.x 0 with
      | none => simp [hi, hc]
      | some cost =>
        simp only [hc] at h
        cases hm : Hash_Map.find mi view.id_intrinsic with
        | none => simp [hm] at h
        | some params =>
          simp only [hm] at h
          cases hp : Hash_Map.find mp view.id_pose with
          | none => split_ifs at h <;> simp [hp] at h
          | some block => split_ifs at h <;> simp [hp, pure, Except.pure] at h

theorem landmarkObservation_of_dangling (s : SfM_Data α)
    (mi mp : Hash_Map (List α)) (loss : Option (LossFunction α)) (id : IndexT)
    (obs_it : IndexT × Observation α) (h : s.dangling obs_it = true)
    (hmp : ∀ k, Hash_Map.find s.poses k = none → Hash_Map.find mp k = none) :
    ∃ e, landmarkObservation s mi mp loss id obs_it = .error e := by
  unfold SfM_Data.dangling at h
  unfold landmarkObservation
  cases hv : Hash_Map.find s.views obs_it.1 with
  | none => exact ⟨_, by simp [Hash_Map.at_, hv, liftFault, bind, Except.bind]; rfl⟩
  | some view =>
    simp only [hv, Bool.or_eq_true, Hash_Map.not_contains_iff] at h
    simp only [Hash_Map.at_, hv, liftFault, bind, Except.bind]
    cases hi : Hash_Map.find s.intrinsics view.id_intrinsic with
    | none => exact ⟨_, rfl⟩
    | some intrinsic =>
      have hp : Hash_Map.find mp view.id_pose = none := by
        rcases h with h | h
        · rw [hi] at h; cases h
        · exact hmp _ h
      simp only
      cases hc : IntrinsicsToCostFunction intrinsic obs_it.2.x 0 with
      | none => exact ⟨_, rfl⟩
      | some cost =>
        simp only
        cases hm : Hash_Map.find mi view.id_intrinsic with
        | none => exact ⟨_, rfl⟩
        | some params =>
          simp only [hp]
          split_ifs <;> exact ⟨_, rfl⟩

theorem landmarkObservations_error_of_mem (s : SfM_Data α)
    (mi mp : Hash_Map (List α)) (loss : Option (LossFunction α)) (id : IndexT)
    (obs : List (IndexT × Observation α)) (obs_it : IndexT × Observation α)
    (hmem : obs_it ∈ obs) (h : ∃ e, landmarkObservation s mi mp loss id obs_it = .error e) :
    ∃ e, landmarkObservations s mi mp loss id obs = .error e := by
  induction obs with
  | nil => cases hmem
  | cons hd tl ih =>
    unfold landmarkObservations
    cases hhd : landmarkObservation s mi mp loss id hd with
    | error e => exact ⟨e, by simp [bind, Except.bind]⟩
    | ok calls =>
      rcases List.mem_cons.mp hmem with heq | htl
      · subst heq
        obtain ⟨e, he⟩ := h
        rw [hhd] at he; cases he
      · obtain ⟨e, he⟩ := ih htl
        exact ⟨e, by simp [bind, Except.bind, he]⟩

theorem landmarkObservations_return_false (s : SfM_Data α)
    (mi mp : Hash_Map (List α)) (loss : Option (LossFunction α)) (id : IndexT)
    (obs : List (IndexT × Observation α))
    (h : landmarkObservations s mi mp loss id obs = .error .return_false) :
    ∃ obs_it ∈ obs, landmarkObservation s mi mp loss id obs_it = .error .return_false := by
  induction obs with
  | nil => simp [landmarkObservations, pure, Except.pure] at h
  | cons hd tl ih =>
    unfold landmarkObservations at h
    cases hhd : landmarkObservation s mi mp loss id hd with
    | error e =>
      simp only [hhd, bind, Except.bind] at h
      cases h
      exact ⟨hd, List.mem_cons_self _ _, hhd⟩
    | ok calls =>
      simp only [hhd, bind, Except.bind] at h
      cases htl : landmarkObservations s mi mp loss id tl with
      | error e =>
        simp only [htl] at h
        cases h
        obtain ⟨o, ho, hoe⟩ := ih htl
        exact ⟨o, List.mem_cons_of_mem _ ho, hoe⟩
      | ok calls2 => simp [htl, pure, Except.pure] at h

theorem landmarkResiduals_error_of_mem (s : SfM_Data α) (so : Structure_Parameter_Type)
    (mi mp : Hash_Map (List α)) (loss : Option (LossFunction α))
    (l : List (IndexT × Landmark α)) (obs_it : IndexT × Observation α)
    (hmem : obs_it ∈ l.flatMap (fun it => it.2.obs))
    (h : ∀ id, ∃ e, landmarkObservation s mi mp loss id obs_it = .error e) :
    ∃ e, landmarkResiduals s so mi mp loss l = .error e := by
  induction l with
  | nil => simp at hmem
  | cons hd tl ih =>
    unfold landmarkResiduals
    cases hhd : landmarkObservations s mi mp loss hd.1 hd.2.obs with
    | error e => exact ⟨e, by simp [bind, Except.bind]⟩
    | ok calls =>
      rw [List.flatMap_cons, List.mem_append] at hmem
      rcases hmem with hin | htl
      · obtain ⟨e, he⟩ := landmarkObservations_error_of_mem s mi mp loss hd.1 hd.2.obs obs_it
          hin (h hd.1)
        rw [hhd] at he; cases he
      · obtain ⟨e, he⟩ := ih htl
        exact ⟨e, by simp [bind, Except.bind, he]⟩

theorem landmarkResiduals_return_false (s : SfM_Data α) (so : Structure_Parameter_Type)
    (mi mp : Hash_Map (List α)) (loss : Option (LossFunction α))
    (l : List (IndexT × Landmark α))
    (h : landmarkResiduals s so mi mp loss l = .error .return_false) :
    ∃ obs_it ∈ l.flatMap (fun it => it.2.obs), s.lacksCostFunction obs_it = true := by
  induction l with
  | nil => simp [landmarkResiduals, pure, Except.pure] at h
  | cons hd tl ih =>
    unfold landmarkResiduals at h
    cases hhd : landmarkObservations s mi mp loss hd.1 hd.2.obs with
    | error e =>
      simp only [hhd, bind, Except.bind] at h
      cases h
      obtain ⟨o, ho, hoe⟩ := landmarkObservations_return_false s mi mp loss hd.1 hd.2.obs hhd
      exact ⟨o, by rw [List.flatMap_cons]; exact List.mem_append_left _ ho,
        lacksCostFunction_of_landmarkObservation s mi mp loss hd.1 o hoe⟩
    | ok calls =>
      simp only [hhd, bind, Except.bind] at h
      cases htl : landmarkResiduals s so mi mp loss tl with
      | error e =>
        simp only [htl] at h
        cases h
        obtain ⟨o, ho, hoe⟩ := ih htl
        exact ⟨o, by rw [List.flatMap_cons]; exact List.mem_append_right _ ho, hoe⟩
      | ok calls2 => simp [htl, pure, Except.pure] at h

/-! ## The construction of the problem -/

theorem buildProblem_error_of_landmarks (ext : Externals α) (c : BA_Ceres_options α)
    (o : Optimize_Options α) (reg : PriorRegistration α) (s : SfM_Data α)
    (obs_it : IndexT × Observation α) (hmem : obs_it ∈ s.observations)
    (h : s.lacksCostFunction obs_it = true ∨ s.dangling obs_it = true) :
    ∃ e, buildProblem ext c o reg s = .error e := by
  unfold buildProblem
  obtain ⟨e, he⟩ := landmarkResiduals_error_of_mem s o.structure_opt
    (setupIntrinsics ext o.intrinsics_opt s.intrinsics).1
    (setupPoses ext.rotation o.extrinsics_opt s.poses).1
    (if c.bUse_loss_function_ = true then some (LossFunction.HuberLoss (Square 4)) else none)
    s.structure_ obs_it hmem (fun id => by
      rcases h with h | h
      · exact ⟨_, landmarkObservation_of_lacksCostFunction s _ _ _ id obs_it h⟩
      · exact landmarkObservation_of_dangling s _ _ _ id obs_it h
          (fun k hk => setupPoses_find_none ext.rotation o.extrinsics_opt s.poses k hk))
  exact ⟨e, by simp [bind, Except.bind, he]⟩

theorem liftFault_ne_return_false {V : Type} (x : Except Fault V) :
    liftFault x ≠ .error .return_false := by
  cases x <;> simp [liftFault]

theorem buildProblem_return_false (ext : Externals α) (c : BA_Ceres_options α)
    (o : Optimize_Options α) (reg : PriorRegistration α) (s : SfM_Data α)
    (h : buildProblem ext c o reg s = .error .return_false) :
    ∃ obs_it ∈ s.observations, s.lacksCostFunction obs_it = true := by
  unfold buildProblem at h
  simp only [bind, Except.bind] at h
  split at h
  · rename_i e he
    cases h
    exact landmarkResiduals_return_false s _ _ _ _ _ he
  · rename_i landmarks he
    exfalso
    split at h
    · rename_i e hg
      cases h
      exact liftFault_ne_return_false _ hg
    · rename_i gcps hg
      split at h
      · rename_i e hp
        cases h
        exact liftFault_ne_return_false _ hp
      · simp [pure, Except.pure] at h


/-! ## The calls on the problem, by the loop that makes them -/

theorem liftFault_ok {V : Type} (x : Except Fault V) (v : V) (h : liftFault x = .ok v) :
    x = .ok v := by
  cases x with
  | error f => simp [liftFault] at h
  | ok w => simp only [liftFault] at h; cases h; rfl

theorem buildProblem_ok (ext : Externals α) (c : BA_Ceres_options α)
    (o : Optimize_Options α) (reg : PriorRegistration α) (s : SfM_Data α)
    (built : BuiltProblem α) (h : buildProblem ext c o reg s = .ok built) :
    ∃ landmarks control_points priors : List (ProblemCall α),
      landmarkResiduals s o.structure_opt (setupIntrinsics ext o.intrinsics_opt s.intrinsics).1
          (setupPoses ext.rotation o.extrinsics_opt s.poses).1
          (if c.bUse_loss_function_ then some (.HuberLoss (Square 4)) else none) s.structure_
        = .ok landmarks
      ∧ controlPointResiduals s o (setupIntrinsics ext o.intrinsics_opt s.intrinsics).1
          (setupPoses ext.rotation o.extrinsics_opt s.poses).1 = .ok control_points
      ∧ usablePriorResiduals reg s (setupPoses ext.rotation o.extrinsics_opt s.poses).1
        = .ok priors
      ∧ built.problem = (setupPoses ext.rotation o.extrinsics_opt s.poses).2
          ++ (setupIntrinsics ext o.intrinsics_opt s.intrinsics).2 ++ landmarks
          ++ control_points ++ priors := by
  unfold buildProblem at h
  simp only [bind, Except.bind] at h
  split at h
  · cases h
  · rename_i landmarks hl
    split at h
    · cases h
    · rename_i gcps hg
      split at h
      · cases h
      · rename_i priors hp
        simp only [pure, Except.pure] at h
        cases h
        exact ⟨landmarks, gcps, priors, hl, liftFault_ok _ _ hg, liftFault_ok _ _ hp, rfl⟩

theorem IntrinsicsToCostFunction_some (intrinsic : IntrinsicBase α) (x : Vec2 α) (w : α)
    (cost_function : CostFunction α)
    (h : IntrinsicsToCostFunction intrinsic x w = some cost_function) :
    ∃ functor, cost_function = .reprojection functor x w := by
  unfold IntrinsicsToCostFunction at h
  split at h <;> first
    | (cases h; exact ⟨_, rfl⟩)
    | cases h

/-- The calls made for one pose name the block of that pose and add no residual block. -/
theorem poseBlockCalls_blocks (e : Extrinsic_Parameter_Type) (k : IndexT) :
    ∀ call ∈ poseBlockCalls (α := α) e k,
      call.blocks = [.pose k] ∧ ∀ cf loss blocks, call ≠ .AddResidualBlock cf loss blocks := by
  intro call hcall
  unfold poseBlockCalls at hcall
  simp only [List.mem_cons] at hcall
  rcases hcall with rfl | hcall
  · exact ⟨rfl, fun _ _ _ h => by cases h⟩
  · split_ifs at hcall <;> simp at hcall <;> subst hcall <;>
      exact ⟨rfl, fun _ _ _ h => by cases h⟩

/-- The calls made for one intrinsic name the block of that intrinsic and add no residual
block. -/
theorem intrinsicBlockCalls_blocks (ext : Externals α) (io : Intrinsic_Parameter_Type)
    (k : IndexT) (intrinsic : IntrinsicBase α) (params : List α) :
    ∀ call ∈ intrinsicBlockCalls ext io k intrinsic params,
      call.blocks = [.intrinsic k]
        ∧ ∀ cf loss blocks, call ≠ .AddResidualBlock cf loss blocks := by
  intro call hcall
  unfold intrinsicBlockCalls at hcall
  by_cases hp : (!params.isEmpty) = true
  · simp only [hp, if_true, List.mem_cons] at hcall
    rcases hcall with rfl | hcall
    · exact ⟨rfl, fun _ _ _ h => by cases h⟩
    · by_cases hio : io = .NONE
      · simp only [hio, if_true, List.mem_singleton] at hcall
        subst hcall
        exact ⟨rfl, fun _ _ _ h => by cases h⟩
      · simp only [hio, if_false] at hcall
        split_ifs at hcall
        · simp only [List.mem_singleton] at hcall
          subst hcall
          exact ⟨rfl, fun _ _ _ h => by cases h⟩
        · cases hcall
  · simp only [hp] at hcall
    cases hcall

theorem setupIntrinsics_blocks (ext : Externals α) (io : Intrinsic_Parameter_Type)
    (intrinsics : Hash_Map (IntrinsicBase α)) :
    ∀ call ∈ (setupIntrinsics ext io intrinsics).2,
      (∃ k, call.blocks = [.intrinsic k])
        ∧ ∀ cf loss blocks, call ≠ .AddResidualBlock cf loss blocks := by
  unfold setupIntrinsics
  have hgen : ∀ (l : Hash_Map (IntrinsicBase α)) (st : Hash_Map (List α) × List (ProblemCall α)),
      (∀ call ∈ st.2, (∃ k, call.blocks = [.intrinsic k])
        ∧ ∀ cf loss blocks, call ≠ .AddResidualBlock cf loss blocks) →
      ∀ call ∈ (l.foldl (fun st intrinsic_it =>
          if isValid intrinsic_it.2.getType then
            (Hash_Map.set st.1 intrinsic_it.1 intrinsic_it.2.getParams,
             st.2 ++ intrinsicBlockCalls ext io intrinsic_it.1 intrinsic_it.2
               intrinsic_it.2.getParams)
          else st) st).2, (∃ k, call.blocks = [.intrinsic k])
        ∧ ∀ cf loss blocks, call ≠ .AddResidualBlock cf loss blocks := by
    intro l
    induction l with
    | nil => intro st hst; exact hst
    | cons hd tl ih =>
      intro st hst
      simp only [List.foldl]
      apply ih
      split_ifs
      · intro call hcall
        rcases List.mem_append.mp hcall with h1 | h2
        · exact hst call h1
        · obtain ⟨hb, hr⟩ := intrinsicBlockCalls_blocks ext io _ _ _ call h2
          exact ⟨⟨_, hb⟩, hr⟩
      · exact hst
  exact hgen intrinsics ([], []) (by simp)

theorem setupPoses_blocks (rot : CeresRotation α) (e : Extrinsic_Parameter_Type)
    (poses : Hash_Map (Pose3 α)) :
    ∀ call ∈ (setupPoses rot e poses).2,
      (∃ k, call.blocks = [.pose k])
        ∧ ∀ cf loss blocks, call ≠ .AddResidualBlock cf loss blocks := by
  intro call hcall
  rw [setupPoses_calls] at hcall
  obtain ⟨it, -, hit⟩ := List.mem_flatMap.mp hcall
  obtain ⟨hb, hr⟩ := poseBlockCalls_blocks e it.1 call hit
  exact ⟨⟨_, hb⟩, hr⟩

/-! ## The residual blocks, by the loop that adds them -/

/-- The one call made for the observation of a landmark. -/
theorem landmarkObservation_ok (s : SfM_Data α) (mi mp : Hash_Map (List α))
    (loss : Option (LossFunction α)) (id : IndexT) (obs_it : IndexT × Observation α)
    (calls : List (ProblemCall α)) (h : landmarkObservation s mi mp loss id obs_it = .ok calls) :
    ∃ functor blocks,
      calls = [.AddResidualBlock (.reprojection functor obs_it.2.x 0) loss
        (blocks ++ [.landmark id])]
      ∧ ∀ b ∈ blocks, (∃ k, b = ParameterBlock.intrinsic k) ∨ ∃ k, b = ParameterBlock.pose k := by
  unfold landmarkObservation at h
  simp only [bind, Except.bind] at h
  split at h
  · cases h
  · split at h
    · cases h
    · split at h
      · rename_i cf hcf
        obtain ⟨functor, rfl⟩ := IntrinsicsToCostFunction_some _ _ _ _ hcf
        split at h
        · cases h
        · split_ifs at h
          · split at h
            · cases h
            · simp only [pure, Except.pure] at h
              cases h
              refine ⟨functor, [.intrinsic _, .pose _], rfl, ?_⟩
              intro b hb
              simp only [List.mem_cons, List.mem_singleton, List.not_mem_nil, or_false] at hb
              rcases hb with rfl | rfl
              · exact Or.inl ⟨_, rfl⟩
              · exact Or.inr ⟨_, rfl⟩
          · split at h
            · cases h
            · simp only [pure, Except.pure] at h
              cases h
              refine ⟨functor, [.pose _], rfl, ?_⟩
              intro b hb
              simp only [List.mem_singleton] at hb
              subst hb
              exact Or.inr ⟨_, rfl⟩
      · cases h

theorem landmarkObservations_calls (s : SfM_Data α) (mi mp : Hash_Map (List α))
    (loss : Option (LossFunction α)) (id : IndexT) (obs : List (IndexT × Observation α))
    (calls : List (ProblemCall α))
    (h : landmarkObservations s mi mp loss id obs = .ok calls) :
    (∀ call ∈ calls, ∃ obs_it ∈ obs, ∃ c1,
        landmarkObservation s mi mp loss id obs_it = .ok c1 ∧ call ∈ c1)
    ∧ ∀ obs_it ∈ obs, ∃ c1,
        landmarkObservation s mi mp loss id obs_it = .ok c1 ∧ ∀ call ∈ c1, call ∈ calls := by
  induction obs generalizing calls with
  | nil =>
    simp only [landmarkObservations, pure, Except.pure] at h
    cases h; simp
  | cons hd tl ih =>
    unfold landmarkObservations at h
    cases hhd : landmarkObservation s mi mp loss id hd with
    | error e => simp [hhd, bind, Except.bind] at h
    | ok c1 =>
      cases htl : landmarkObservations s mi mp loss id tl with
      | error e => simp [hhd, htl, bind, Except.bind] at h
      | ok c2 =>
        simp only [hhd, htl, bind, Except.bind, pure, Except.pure] at h
        cases h
        obtain ⟨ih1, ih2⟩ := ih c2 htl
        constructor
        · intro call hcall
          rcases List.mem_append.mp hcall with h1 | h2
          · exact ⟨hd, List.mem_cons_self _ _, c1, hhd, h1⟩
          · obtain ⟨obs_it, hmem, c, hc, hin⟩ := ih1 call h2
            exact ⟨obs_it, List.mem_cons_of_mem _ hmem, c, hc, hin⟩
        · intro obs_it hmem
          rcases List.mem_cons.mp hmem with rfl | hmem
          · exact ⟨c1, hhd, fun call hc => List.mem_append_left _ hc⟩
          · obtain ⟨c, hc, hin⟩ := ih2 obs_it hmem
            exact ⟨c, hc, fun call hcall => List.mem_append_right _ (hin call hcall)⟩

/-- The calls of the loop over the landmarks: a residual block per observation, with the
default weight and the loss of the problem, and the points held constant by policy. -/
theorem landmarkResiduals_calls (s : SfM_Data α) (so : Structure_Parameter_Type)
    (mi mp : Hash_Map (List α)) (loss : Option (LossFunction α))
    (l : List (IndexT × Landmark α)) (calls : List (ProblemCall α))
    (h : landmarkResiduals s so mi mp loss l = .ok calls) :
    (∀ call ∈ calls,
      (∃ it ∈ l, ∃ obs_it ∈ it.2.obs, ∃ functor blocks,
        call = .AddResidualBlock (.reprojection functor obs_it.2.x 0) loss
          (blocks ++ [.landmark it.1])
        ∧ ∀ b ∈ blocks, (∃ k, b = ParameterBlock.intrinsic k) ∨ ∃ k, b = ParameterBlock.pose k)
      ∨ ∃ it ∈ l, call = .SetParameterBlockConstant (.landmark it.1))
    ∧ ∀ it ∈ l, ∀ obs_it ∈ it.2.obs, ∃ functor blocks,
        ProblemCall.AddResidualBlock (.reprojection functor obs_it.2.x 0) loss
          (blocks ++ [.landmark it.1]) ∈ calls := by
  induction l generalizing calls with
  | nil =>
    simp only [landmarkResiduals, pure, Except.pure] at h
    cases h; simp
  | cons hd tl ih =>
    unfold landmarkResiduals at h
    cases hhd : landmarkObservations s mi mp loss hd.1 hd.2.obs with
    | error e => simp [hhd, bind, Except.bind] at h
    | ok c1 =>
      cases htl : landmarkResiduals s so mi mp loss tl with
      | error e => simp [hhd, htl, bind, Except.bind] at h
      | ok c2 =>
        simp only [hhd, htl, bind, Except.bind, pure, Except.pure] at h
        cases h
        obtain ⟨ih1, ih2⟩ := ih c2 htl
        obtain ⟨ho1, ho2⟩ := landmarkObservations_calls s mi mp loss hd.1 hd.2.obs c1 hhd
        constructor
        · intro call hcall
          rcases List.mem_append.mp hcall with h12 | h3
          · rcases List.mem_append.mp h12 with h1 | h2
            · obtain ⟨obs_it, hmem, c, hc, hin⟩ := ho1 call h1
              obtain ⟨functor, blocks, rfl, hb⟩ := landmarkObservation_ok s mi mp loss _ _ c hc
              simp only [List.mem_singleton] at hin
              exact Or.inl ⟨hd, List.mem_cons_self _ _, obs_it, hmem, functor, blocks, hin, hb⟩
            · split_ifs at h2
              · simp only [List.mem_singleton] at h2
                exact Or.inr ⟨hd, List.mem_cons_self _ _, h2⟩
              · cases h2
          · rcases ih1 call h3 with ⟨it, hit, rest⟩ | ⟨it, hit, rest⟩
            · exact Or.inl ⟨it, List.mem_cons_of_mem _ hit, rest⟩
            · exact Or.inr ⟨it, List.mem_cons_of_mem _ hit, rest⟩
        · intro it hit obs_it hmem
          rcases List.mem_cons.mp hit with rfl | hit
          · obtain ⟨c, hc, hin⟩ := ho2 obs_it hmem
            obtain ⟨functor, blocks, rfl, -⟩ := landmarkObservation_ok s mi mp loss _ _ c hc
            exact ⟨functor, blocks, List.mem_append_left _ (List.mem_append_left _
              (hin _ (List.mem_singleton.mpr rfl)))⟩
          · obtain ⟨functor, blocks, hin⟩ := ih2 it hit obs_it hmem
            exact ⟨functor, blocks, List.mem_append_right _ hin⟩

/-- The call made for the observation of a control point, if one is made. -/
theorem gcpObservation_ok (s : SfM_Data α) (weight : α) (mi mp : Hash_Map (List α))
    (id : IndexT) (obs_it : IndexT × Observation α) (calls : List (ProblemCall α))
    (h : gcpObservation s weight mi mp id obs_it = .ok calls) :
    ∀ call ∈ calls, ∃ functor blocks,
      call = .AddResidualBlock (.reprojection functor obs_it.2.x weight) none
        (blocks ++ [.control_point id])
      ∧ ∀ b ∈ blocks, (∃ k, b = ParameterBlock.intrinsic k) ∨ ∃ k, b = ParameterBlock.pose k := by
  unfold gcpObservation at h
  simp only [bind, Except.bind] at h
  split at h
  · cases h
  · split at h
    · cases h
    · split at h
      · rename_i cf hcf
        obtain ⟨functor, rfl⟩ := IntrinsicsToCostFunction_some _ _ _ _ hcf
        split at h
        · cases h
        · split_ifs at h
          · split at h
            · cases h
            · simp only [pure, Except.pure] at h
              cases h
              intro call hcall
              simp only [List.mem_singleton] at hcall
              refine ⟨functor, [.intrinsic _, .pose _], hcall, ?_⟩
              intro b hb
              simp only [List.mem_cons, List.mem_singleton, List.not_mem_nil, or_false] at hb
              rcases hb with rfl | rfl
              · exact Or.inl ⟨_, rfl⟩
              · exact Or.inr ⟨_, rfl⟩
          · split at h
            · cases h
            · simp only [pure, Except.pure] at h
              cases h
              intro call hcall
              simp only [List.mem_singleton] at hcall
              refine ⟨functor, [.pose _], hcall, ?_⟩
              intro b hb
              simp only [List.mem_singleton] at hb
              subst hb
              exact Or.inr ⟨_, rfl⟩
      · simp only [pure, Except.pure] at h
        cases h
        intro call hcall
        cases hcall

theorem gcpObservations_calls (s : SfM_Data α) (weight : α) (mi mp : Hash_Map (List α))
    (id : IndexT) (obs : List (IndexT × Observation α)) (calls : List (ProblemCall α))
    (h : gcpObservations s weight mi mp id obs = .ok calls) :
    ∀ call ∈ calls, ∃ obs_it ∈ obs, ∃ functor blocks,
      call = .AddResidualBlock (.reprojection functor obs_it.2.x weight) none
        (blocks ++ [.control_point id])
      ∧ ∀ b ∈ blocks, (∃ k, b = ParameterBlock.intrinsic k) ∨ ∃ k, b = ParameterBlock.pose k := by
  induction obs generalizing calls with
  | nil =>
    simp only [gcpObservations, pure, Except.pure] at h
    cases h; simp
  | cons hd tl ih =>
    unfold gcpObservations at h
    cases hhd : gcpObservation s weight mi mp id hd with
    | error e => simp [hhd, bind, Except.bind] at h
    | ok c1 =>
      cases htl : gcpObservations s weight mi mp id tl with
      | error e => simp [hhd, htl, bind, Except.bind] at h
      | ok c2 =>
        simp only [hhd, htl, bind, Except.bind, pure, Except.pure] at h
        cases h
        intro call hcall
        rcases List.mem_append.mp hcall with h1 | h2
        · exact ⟨hd, List.mem_cons_self _ _, gcpObservation_ok s weight mi mp id hd c1 hhd call h1⟩
        · obtain ⟨obs_it, hmem, rest⟩ := ih c2 htl call h2
          exact ⟨obs_it, List.mem_cons_of_mem _ hmem, rest⟩

/-- The calls of the loop over the control points: residual blocks with the weight of the
control points and no loss, and the point of every observed control point held constant. -/
theorem gcpResiduals_calls (s : SfM_Data α) (weight : α) (mi mp : Hash_Map (List α))
    (l : List (IndexT × Landmark α)) (calls : List (ProblemCall α))
    (h : gcpResiduals s weight mi mp l = .ok calls) :
    (∀ call ∈ calls,
      (∃ it ∈ l, ∃ obs_it ∈ it.2.obs, ∃ functor blocks,
        call = .AddResidualBlock (.reprojection functor obs_it.2.x weight) none
          (blocks ++ [.control_point it.1])
        ∧ ∀ b ∈ blocks, (∃ k, b = ParameterBlock.intrinsic k) ∨ ∃ k, b = ParameterBlock.pose k)
      ∨ ∃ it ∈ l, it.2.obs ≠ [] ∧ call = .SetParameterBlockConstant (.control_point it.1))
    ∧ ∀ it ∈ l, it.2.obs ≠ [] →
        ProblemCall.SetParameterBlockConstant (.control_point it.1) ∈ calls := by
  induction l generalizing calls with
  | nil =>
    simp only [gcpResiduals, pure, Except.pure] at h
    cases h; simp
  | cons hd tl ih =>
    unfold gcpResiduals at h
    cases hhd : gcpObservations s weight mi mp hd.1 hd.2.obs with
    | error e => simp [hhd, bind, Except.bind] at h
    | ok c1 =>
      cases htl : gcpResiduals s weight mi mp tl with
      | error e => simp [hhd, htl, bind, Except.bind] at h
      | ok c2 =>
        simp only [hhd, htl, bind, Except.bind, pure, Except.pure] at h
        cases h
        obtain ⟨ih1, ih2⟩ := ih c2 htl
        constructor
        · intro call hcall
          rcases List.mem_append.mp hcall with h12 | h3
          · rcases List.mem_append.mp h12 with h1 | h2
            · obtain ⟨obs_it, hmem, rest⟩ :=
                gcpObservations_calls s weight mi mp hd.1 hd.2.obs c1 hhd call h1
              exact Or.inl ⟨hd, List.mem_cons_self _ _, obs_it, hmem, rest⟩
            · by_cases he : hd.2.obs.isEmpty = true
              · simp only [he, if_true] at h2
                cases h2
              · simp only [he, Bool.false_eq_true, if_false, List.mem_singleton] at h2
                refine Or.inr ⟨hd, List.mem_cons_self _ _, ?_, h2⟩
                intro hnil
                exact he (by rw [hnil]; rfl)
          · rcases ih1 call h3 with ⟨it, hit, rest⟩ | ⟨it, hit, rest⟩
            · exact Or.inl ⟨it, List.mem_cons_of_mem _ hit, rest⟩
            · exact Or.inr ⟨it, List.mem_cons_of_mem _ hit, rest⟩
        · intro it hit hobs
          rcases List.mem_cons.mp hit with rfl | hit
          · have he : it.2.obs.isEmpty = false := by
              cases hob : it.2.obs with
              | nil => exact absurd hob hobs
              | cons a b => rfl
            simp only [he, Bool.false_eq_true, if_false]
            exact List.mem_append_left _ (List.mem_append_right _ (List.mem_singleton.mpr rfl))
          · exact List.mem_append_right _ (ih2 it hit hobs)

/-- The calls made for the priors of one view: residual blocks on one pose block, with a
Huber loss whose parameter is the square of a fitting error of the registration. -/
theorem viewPriorResiduals_calls (reg : PriorRegistration α) (s : SfM_Data α)
    (mp : Hash_Map (List α)) (view : View α) (calls : List (ProblemCall α))
    (h : viewPriorResiduals reg s mp view = .ok calls) :
    ∀ call ∈ calls, ∃ prior, view.priors = some prior ∧
      ((prior.b_use_pose_center_ = true ∧ call = .AddResidualBlock
          (.pose_center { weight_ := prior.center_weight_
                          pose_center_constraint_ := prior.pose_center_ })
          (some (.HuberLoss (Square reg.pose_center_robust_fitting_error)))
          [.pose view.id_view])
      ∨ (prior.b_use_pose_rotation_ = true ∧ call = .AddResidualBlock
          (.pose_rotation { weight_ := prior.rotation_weight_
                            pose_rotation_constraint_ := prior.pose_rotation_ })
          (some (.HuberLoss (Square reg.pose_rotation_robust_fitting_error)))
          [.pose view.id_view])) := by
  unfold viewPriorResiduals at h
  cases hp : view.priors with
  | none =>
    simp only [hp, pure, Except.pure] at h
    cases h
    intro call hcall
    cases hcall
  | some prior =>
    simp only [hp] at h
    by_cases hd : s.IsPoseAndIntrinsicDefined view = true
    · simp only [hd, if_true, bind, Except.bind, pure, Except.pure] at h
      intro call hcall
      refine ⟨prior, rfl, ?_⟩
      cases hc : prior.b_use_pose_center_ <;> cases hr : prior.b_use_pose_rotation_ <;>
        simp only [hc, hr, Bool.false_eq_true, if_false, if_true] at h
      · cases h; cases hcall
      · cases hat : Hash_Map.at_ mp view.id_view with
        | error f => simp [hat] at h
        | ok v =>
          simp only [hat] at h
          cases h
          simp only [List.nil_append, List.mem_singleton] at hcall
          exact Or.inr ⟨rfl, hcall⟩
      · cases hat : Hash_Map.at_ mp view.id_view with
        | error f => simp [hat] at h
        | ok v =>
          simp only [hat] at h
          cases h
          simp only [List.append_nil, List.mem_singleton] at hcall
          exact Or.inl ⟨rfl, hcall⟩
      · cases hat : Hash_Map.at_ mp view.id_view with
        | error f => simp [hat] at h
        | ok v =>
          simp only [hat] at h
          cases h
          simp only [List.cons_append, List.nil_append, List.mem_cons, List.mem_singleton,
            List.not_mem_nil, or_false] at hcall
          rcases hcall with hcall | hcall
          · exact Or.inl ⟨rfl, hcall⟩
          · exact Or.inr ⟨rfl, hcall⟩
    · simp only [hd, Bool.false_eq_true, if_false, pure, Except.pure] at h
      cases h
      intro call hcall
      cases hcall

theorem priorResiduals_calls (reg : PriorRegistration α) (s : SfM_Data α)
    (mp : Hash_Map (List α)) (views : List (IndexT × View α)) (calls : List (ProblemCall α))
    (h : priorResiduals reg s mp views = .ok calls) :
    ∀ call ∈ calls, ∃ view_it ∈ views, ∃ c1,
      viewPriorResiduals reg s mp view_it.2 = .ok c1 ∧ call ∈ c1 := by
  induction views generalizing calls with
  | nil =>
    simp only [priorResiduals, pure, Except.pure] at h
    cases h; simp
  | cons hd tl ih =>
    unfold priorResiduals at h
    cases hhd : viewPriorResiduals reg s mp hd.2 with
    | error e => simp [hhd, bind, Except.bind] at h
    | ok c1 =>
      cases htl : priorResiduals reg s mp tl with
      | error e => simp [hhd, htl, bind, Except.bind] at h
      | ok c2 =>
        simp only [hhd, htl, bind, Except.bind, pure, Except.pure] at h
        cases h
        intro call hcall
        rcases List.mem_append.mp hcall with h1 | h2
        · exact ⟨hd, List.mem_cons_self _ _, c1, hhd, h1⟩
        · obtain ⟨view_it, hmem, rest⟩ := ih c2 htl call h2
          exact ⟨view_it, List.mem_cons_of_mem _ hmem, rest⟩
/-! ## Extrinsics policy `NONE` -/

/-- C1, counterexample: in `priorScene` the registration succeeds (four position priors,
the estimator reports the translation `shiftX`); with the extrinsics policy `NONE` and a
usable solution `Adjust` returns true and every pose is moved by `shiftX`. -/
theorem Adjust_NONE_registration_moves_poses :
    registerPriors (Examples.externals true (some (0, Examples.shiftX)))
        (Examples.options .NONE true) Examples.priorScene
      = .ok ({ pose_center_robust_fitting_error := 0
               pose_rotation_robust_fitting_error := 0
               sim_to_center := Examples.centering
               b_usable_prior := true }, Examples.priorSceneCentered)
    ∧ Adjust (Examples.externals true (some (0, Examples.shiftX))) Examples.ceres_options
        Examples.priorScene (Examples.options .NONE true)
      = .returned true Examples.priorSceneRegistered
    ∧ Examples.priorSceneRegistered.poses ≠ Examples.priorScene.poses := by
  refine ⟨?_, ?_, ?_⟩
  · decide!
  · decide!
  · decide!

/-- C1, amended: with the extrinsics policy `NONE`, when the call applies no motion-prior
registration, every pose after `Adjust` is the pose before it, whatever the other options,
the residuals built and the value returned. -/
theorem Adjust_NONE_poses_unchanged (ext : Externals α) (c : BA_Ceres_options α)
    (s : SfM_Data α) (o : Optimize_Options α) (hNone : o.extrinsics_opt = .NONE)
    (hreg : NoRegistration ext o s) (b : Bool) (s' : SfM_Data α)
    (h : Adjust ext c s o = .returned b s') : s'.poses = s.poses := by
  obtain ⟨reg, s1, hr, hcase⟩ := Adjust_returned ext c s o b s' h
  have hflag := hreg reg s1 hr
  obtain ⟨-, rfl⟩ := registerPriors_of_flag_false ext o s reg s1 hr hflag
  rcases hcase with ⟨-, -, rfl⟩ | ⟨built, -, hsm⟩
  · rfl
  · rcases solveAndMaterialize_returned ext c o reg built s1 b s' hsm with
      ⟨-, -, rfl⟩ | ⟨-, -, hm⟩
    · rfl
    · exact (materialize_poses_of_NONE ext o reg _ _ _ s' hNone hflag hm).trans rfl

/-- C1, witness: `smallScene` with the policy `NONE` and the motion priors disabled; `Adjust`
returns true and the poses are those before the call. -/
theorem Adjust_NONE_poses_unchanged_witness :
    (Examples.options .NONE false).extrinsics_opt = .NONE
    ∧ Adjust (Examples.externals true none) Examples.ceres_options Examples.smallScene
        (Examples.options .NONE false) = .returned true Examples.smallScene
    ∧ Examples.smallScene.poses = Examples.smallScene.poses :=
  ⟨rfl, by decide!,
    Adjust_NONE_poses_unchanged (Examples.externals true none) Examples.ceres_options
      Examples.smallScene (Examples.options .NONE false) rfl
      (noRegistration_of_disabled _ _ _ rfl) true Examples.smallScene (by decide!)⟩

/-! ## What a failed call leaves -/

/-- C2, counterexample: in `priorScene` the registration succeeds and the solver then
reports an unusable solution; `Adjust` returns false and leaves every pose registered by
`shiftX` and re-centered on the centroid `(5/4, 1/4, 1/4)` of the registered centers. -/
theorem Adjust_false_after_registration_moves_poses :
    registerPriors (Examples.externals false (some (0, Examples.shiftX)))
        (Examples.options .ADJUST_ALL true) Examples.priorScene
      = .ok ({ pose_center_robust_fitting_error := 0
               pose_rotation_robust_fitting_error := 0
               sim_to_center := Examples.centering
               b_usable_prior := true }, Examples.priorSceneCentered)
    ∧ Adjust (Examples.externals false (some (0, Examples.shiftX))) Examples.ceres_options
        Examples.priorScene (Examples.options .ADJUST_ALL true)
      = .returned false Examples.priorSceneCentered
    ∧ Examples.priorSceneCentered.poses ≠ Examples.priorScene.poses
    ∧ Examples.priorSceneCentered.poses.map (fun pose_it => pose_it.2.center)
        = [⟨-1 / 4, -1 / 4, -1 / 4⟩, ⟨3 / 4, -1 / 4, -1 / 4⟩, ⟨-1 / 4, 3 / 4, -1 / 4⟩,
           ⟨-1 / 4, -1 / 4, 3 / 4⟩] := by
  refine ⟨?_, ?_, ?_, ?_⟩
  · decide!
  · decide!
  · decide!
  · decide!

/-- C2, amended: whenever `Adjust` returns false, the intrinsics of the scene are those
before the call, and so are the poses when the call applied no motion-prior registration. -/
theorem Adjust_false_leaves_intrinsics_and_poses (ext : Externals α)
    (c : BA_Ceres_options α) (s : SfM_Data α) (o : Optimize_Options α) (s' : SfM_Data α)
    (h : Adjust ext c s o = .returned false s') :
    s'.intrinsics = s.intrinsics ∧ (NoRegistration ext o s → s'.poses = s.poses) := by
  obtain ⟨reg, s1, hr, hcase⟩ := Adjust_returned ext c s o false s' h
  have hi := registerPriors_intrinsics ext o s reg s1 hr
  have hs : s'.intrinsics = s1.intrinsics ∧ s'.poses = s1.poses := by
    rcases hcase with ⟨-, -, rfl⟩ | ⟨built, -, hsm⟩
    · exact ⟨rfl, rfl⟩
    · rcases solveAndMaterialize_returned ext c o reg built s1 false s' hsm with
        ⟨-, -, rfl⟩ | ⟨-, hb, -⟩
      · exact ⟨rfl, rfl⟩
      · cases hb
  refine ⟨hs.1.trans hi, fun hreg => ?_⟩
  obtain ⟨-, rfl⟩ := registerPriors_of_flag_false ext o s reg s1 hr (hreg reg s1 hr)
  exact hs.2

/-- C2, witness: on `smallScene` the solver reports an unusable solution; `Adjust` returns
false and leaves the intrinsics and the poses. -/
theorem Adjust_false_leaves_intrinsics_and_poses_witness :
    Adjust (Examples.externals false none) Examples.ceres_options Examples.smallScene
        (Examples.options .ADJUST_ALL false) = .returned false Examples.smallScene
    ∧ Examples.smallScene.intrinsics = Examples.smallScene.intrinsics
    ∧ (NoRegistration (Examples.externals false none) (Examples.options .ADJUST_ALL false)
          Examples.smallScene → Examples.smallScene.poses = Examples.smallScene.poses) :=
  ⟨by decide!,
    Adjust_false_leaves_intrinsics_and_poses (Examples.externals false none)
      Examples.ceres_options Examples.smallScene (Examples.options .ADJUST_ALL false)
      Examples.smallScene (by decide!)⟩

/-! ## The value returned -/

/-- C3, counterexample: in `unposedScene` the view of the only observation has a pinhole
camera, which yields a cost function, and the solver would report a usable solution on
any problem; yet `Adjust` does not return true: `map_poses.at(view->id_pose)` throws
`std::out_of_range` before the solver is invoked. -/
theorem Adjust_unposed_view_does_not_return :
    (∀ obs_it ∈ Examples.unposedScene.observations,
        Examples.unposedScene.lacksCostFunction obs_it = false)
    ∧ (∀ c problem map_intrinsics map_poses sfm_data,
        ((Examples.externals true none).Solve c problem map_intrinsics map_poses
          sfm_data).IsSolutionUsable = true)
    ∧ Adjust (Examples.externals true none) Examples.ceres_options Examples.unposedScene
        (Examples.options .ADJUST_ALL false) = .fault .out_of_range := by
  refine ⟨?_, fun _ _ _ _ _ => rfl, ?_⟩
  · decide!
  · decide!

/-- C3, amended: `Adjust` returns true exactly when the registration block and the
construction of the problem end without a failed lookup, the solver is invoked and
reports a usable solution, and the write-back ends without a failed lookup.  It never
returns true when the camera model of some landmark observation yields no cost function.
When it returns false, either the construction stopped at such an observation, the solver
not being invoked, or the solver was invoked and its solution is not usable. -/
theorem Adjust_return_value (ext : Externals α) (c : BA_Ceres_options α) (s : SfM_Data α)
    (o : Optimize_Options α) (s' : SfM_Data α) :
    (Adjust ext c s o = .returned true s' ↔
      ∃ reg s1 built, registerPriors ext o s = .ok (reg, s1)
        ∧ buildProblem ext c o reg s1 = .ok built
        ∧ (solve ext c built s1).IsSolutionUsable = true
        ∧ materialize ext o reg
            (solvedMap built.problem (solve ext c built s1) .intrinsic built.map_intrinsics)
            (solvedMap built.problem (solve ext c built s1) .pose built.map_poses)
            (solvedScene built (solve ext c built s1) s1) = .ok s')
    ∧ ((∃ obs_it ∈ s.observations, s.lacksCostFunction obs_it = true) →
        Adjust ext c s o ≠ .returned true s')
    ∧ (Adjust ext c s o = .returned false s' →
        ∃ reg s1, registerPriors ext o s = .ok (reg, s1)
          ∧ ((buildProblem ext c o reg s1 = .error .return_false
                ∧ ∃ obs_it ∈ s.observations, s.lacksCostFunction obs_it = true)
             ∨ ∃ built, buildProblem ext c o reg s1 = .ok built
                ∧ (solve ext c built s1).IsSolutionUsable = false)) := by
  have hfwd : Adjust ext c s o = .returned true s' →
      ∃ reg s1 built, registerPriors ext o s = .ok (reg, s1)
        ∧ buildProblem ext c o reg s1 = .ok built
        ∧ (solve ext c built s1).IsSolutionUsable = true
        ∧ materialize ext o reg
            (solvedMap built.problem (solve ext c built s1) .intrinsic built.map_intrinsics)
            (solvedMap built.problem (solve ext c built s1) .pose built.map_poses)
            (solvedScene built (solve ext c built s1) s1) = .ok s' := by
    intro h
    obtain ⟨reg, s1, hr, hcase⟩ := Adjust_returned ext c s o true s' h
    rcases hcase with ⟨-, hb, -⟩ | ⟨built, hb, hsm⟩
    · cases hb
    · rcases solveAndMaterialize_returned ext c o reg built s1 true s' hsm with
        ⟨-, hb', -⟩ | ⟨hu, -, hm⟩
      · cases hb'
      · exact ⟨reg, s1, built, hr, hb, hu, hm⟩
  refine ⟨⟨hfwd, ?_⟩, ?_, ?_⟩
  · rintro ⟨reg, s1, built, hr, hb, hu, hm⟩
    simp only [Adjust, hr, hb, solveAndMaterialize, hu, Bool.not_true, Bool.false_eq_true,
      if_false, hm]
  · rintro ⟨obs_it, hmem, hlack⟩ h
    obtain ⟨reg, s1, built, hr, hb, -, -⟩ := hfwd h
    have hshape := registerPriors_sameShape ext o s reg s1 hr
    obtain ⟨e, he⟩ := buildProblem_error_of_landmarks ext c o reg s1 obs_it
      (by rw [hshape.2.2.2]; exact hmem)
      (Or.inl (by rw [lacksCostFunction_sameShape hshape]; exact hlack))
    rw [hb] at he
    cases he
  · intro h
    obtain ⟨reg, s1, hr, hcase⟩ := Adjust_returned ext c s o false s' h
    have hshape := registerPriors_sameShape ext o s reg s1 hr
    refine ⟨reg, s1, hr, ?_⟩
    rcases hcase with ⟨hb, -, -⟩ | ⟨built, hb, hsm⟩
    · left
      obtain ⟨obs_it, hmem, hlack⟩ := buildProblem_return_false ext c o reg s1 hb
      exact ⟨hb, obs_it, by rw [← hshape.2.2.2]; exact hmem,
        by rw [← lacksCostFunction_sameShape hshape]; exact hlack⟩
    · right
      rcases solveAndMaterialize_returned ext c o reg built s1 false s' hsm with
        ⟨hu, -, -⟩ | ⟨-, hb', -⟩
      · exact ⟨built, hb, hu⟩
      · cases hb'

/-! ## Observations without cost function -/

/-- C4, at `gcpScene` with control points in use: the camera model of the view 1 yields
no cost function; the loop over the observations of the control point adds the residual
block of the view 0 and skips the observation of the view 1, and `Adjust` returns true.
The same point as an ordinary landmark makes `Adjust` return false. -/
theorem Adjust_skips_control_point_observation :
    Examples.gcpScene.lacksCostFunction (1, { x := ⟨0, 0⟩, id_feat := 0 }) = true
    ∧ gcpResiduals Examples.gcpScene 20 [(0, [1, 0, 0])]
        [(0, [0, 0, 0, 0, 0, 0]), (1, [0, 0, 0, -1, 0, 0])] Examples.gcpScene.control_points
      = .ok [.AddResidualBlock (.reprojection .Pinhole_Intrinsic ⟨0, 0⟩ 20) none
               [.intrinsic 0, .pose 0, .control_point 0],
             .SetParameterBlockConstant (.control_point 0)]
    ∧ Adjust (Examples.externals true none) Examples.ceres_options Examples.gcpScene
        Examples.optionsWithControlPoints = .returned true Examples.gcpScene
    ∧ Adjust (Examples.externals true none) Examples.ceres_options
        Examples.gcpSceneAsLandmark Examples.optionsWithControlPoints
      = .returned false Examples.gcpSceneAsLandmark := by
  refine ⟨?_, ?_, ?_, ?_⟩
  · decide!
  · decide!
  · decide!
  · decide!

/-! ## Observations that refer to nothing -/

/-- C5, counterexample: in `orphanScene` the only landmark observation refers to the view
id 0, which is not in the scene; `Adjust` returns neither false nor true:
`sfm_data.views.at(0)` throws `std::out_of_range`, which leaves `Adjust`. -/
theorem Adjust_absent_view_throws :
    (∃ obs_it ∈ Examples.orphanScene.observations,
        Hash_Map.find Examples.orphanScene.views obs_it.1 = none)
    ∧ Adjust (Examples.externals true none) Examples.ceres_options Examples.orphanScene
        (Examples.options .ADJUST_ALL false) = .fault .out_of_range := by
  refine ⟨⟨(0, { x := ⟨0, 0⟩, id_feat := 0 }), ?_, ?_⟩, ?_⟩
  · decide!
  · decide!
  · decide!

/-- C5, amended: if a landmark observation refers to a view id that is not in the scene,
to a view whose intrinsic id or pose id is not in the scene, or to an intrinsic whose
camera model yields no cost function (it is then not in `map_intrinsics`), then `Adjust`
does not return true: it returns false when an observation without cost function is the
first failure met, and it ends with an exception, which leaves `Adjust`, otherwise. -/
theorem Adjust_of_dangling_observation (ext : Externals α) (c : BA_Ceres_options α)
    (s : SfM_Data α) (o : Optimize_Options α) (obs_it : IndexT × Observation α)
    (hmem : obs_it ∈ s.observations)
    (hd : s.dangling obs_it = true ∨ s.lacksCostFunction obs_it = true) :
    (∃ f, Adjust ext c s o = .fault f)
    ∨ (∃ s', Adjust ext c s o = .returned false s'
        ∧ ∃ obs_it' ∈ s.observations, s.lacksCostFunction obs_it' = true) := by
  unfold Adjust
  cases hr : registerPriors ext o s with
  | error f => exact Or.inl ⟨f, rfl⟩
  | ok r =>
    obtain ⟨reg, s1⟩ := r
    have hshape := registerPriors_sameShape ext o s reg s1 hr
    obtain ⟨e, he⟩ := buildProblem_error_of_landmarks ext c o reg s1 obs_it
      (by rw [hshape.2.2.2]; exact hmem)
      (by
        rcases hd with hd | hd
        · exact Or.inr (by rw [dangling_sameShape hshape]; exact hd)
        · exact Or.inl (by rw [lacksCostFunction_sameShape hshape]; exact hd))
    simp only [he]
    cases e with
    | return_false =>
      obtain ⟨o', hmem', hlack'⟩ := buildProblem_return_false ext c o reg s1 he
      exact Or.inr ⟨s1, rfl, o', by rw [← hshape.2.2.2]; exact hmem',
        by rw [← lacksCostFunction_sameShape hshape]; exact hlack'⟩
    | fault f => exact Or.inl ⟨f, rfl⟩

/-- C5, witness: in `unposedScene` the view of the only observation has no pose. -/
theorem Adjust_of_dangling_observation_witness :
    (0, ({ x := ⟨0, 0⟩, id_feat := 0 } : Observation ℚ)) ∈ Examples.unposedScene.observations
    ∧ Examples.unposedScene.dangling (0, { x := ⟨0, 0⟩, id_feat := 0 }) = true
    ∧ ((∃ f, Adjust (Examples.externals true none) Examples.ceres_options
          Examples.unposedScene (Examples.options .ADJUST_ALL false) = .fault f)
       ∨ (∃ s', Adjust (Examples.externals true none) Examples.ceres_options
          Examples.unposedScene (Examples.options .ADJUST_ALL false) = .returned false s'
          ∧ ∃ obs_it' ∈ Examples.unposedScene.observations,
              Examples.unposedScene.lacksCostFunction obs_it' = true)) :=
  ⟨by decide!, by decide!,
    Adjust_of_dangling_observation (Examples.externals true none) Examples.ceres_options
      Examples.unposedScene (Examples.options .ADJUST_ALL false)
      (0, { x := ⟨0, 0⟩, id_feat := 0 }) (by decide!) (Or.inl (by decide!))⟩

/-! ## Too few position priors -/

theorem viewCorrespondences_ok (m : Libm α) (s : SfM_Data α) (view_it : IndexT × View α) :
    ∃ c, viewCorrespondences m s view_it.2 = .ok c
      ∧ c.X_GPS.length = ([view_it].filter (fun view_it =>
          match view_it.2.priors with
          | some prior => s.IsPoseAndIntrinsicDefined view_it.2 && prior.b_use_pose_center_
          | none => false)).length := by
  unfold viewCorrespondences
  cases hp : view_it.2.priors with
  | none => exact ⟨_, rfl, by simp [hp]⟩
  | some prior =>
    by_cases hdef : s.IsPoseAndIntrinsicDefined view_it.2 = true
    · have hpose : ∃ pose, Hash_Map.at_ s.poses view_it.2.id_pose = .ok pose := by
        unfold SfM_Data.IsPoseAndIntrinsicDefined at hdef
        simp only [Bool.and_eq_true] at hdef
        have hc := hdef.2
        unfold Hash_Map.contains at hc
        unfold Hash_Map.at_
        cases hf : Hash_Map.find s.poses view_it.2.id_pose with
        | none => simp [hf] at hc
        | some pose => exact ⟨pose, rfl⟩
      obtain ⟨pose, hpose⟩ := hpose
      simp only [hdef, if_true, hpose, bind, Except.bind, pure, Except.pure]
      cases hcb : prior.b_use_pose_center_ <;> cases hrb : prior.b_use_pose_rotation_ <;>
        simp [hp, hdef, hcb]
    · simp only [hdef, if_false]
      exact ⟨_, rfl, by simp [hp, hdef]⟩

/-- The loop that collects the correspondences does not fault, and `X_GPS` holds one
entry per view with a usable position prior. -/
theorem collectCorrespondences_ok (m : Libm α) (s : SfM_Data α)
    (views : List (IndexT × View α)) :
    ∃ c, collectCorrespondences m s views = .ok c
      ∧ c.X_GPS.length = (views.filter (fun view_it =>
          match view_it.2.priors with
          | some prior => s.IsPoseAndIntrinsicDefined view_it.2 && prior.b_use_pose_center_
          | none => false)).length := by
  induction views with
  | nil => exact ⟨_, rfl, rfl⟩
  | cons hd tl ih =>
    obtain ⟨c, hc, hlen⟩ := viewCorrespondences_ok m s hd
    obtain ⟨cs, hcs, hlens⟩ := ih
    refine ⟨⟨c.X_SfM ++ cs.X_SfM, c.X_GPS ++ cs.X_GPS, c.R_SfM ++ cs.R_SfM,
      c.R_GPS ++ cs.R_GPS⟩, ?_, ?_⟩
    · simp only [collectCorrespondences, hc, hcs, bind, Except.bind, pure, Except.pure]
    · simp only [List.length_append, hlen, hlens]
      rw [← List.length_append, ← List.filter_append]
      rfl

theorem registerPriors_of_few_position_priors (ext : Externals α) (o : Optimize_Options α)
    (s : SfM_Data α) (h : (usablePositionPriors s).length < 4) :
    registerPriors ext o s = .ok (PriorRegistration.initial, s) := by
  unfold registerPriors
  split_ifs with h1
  · obtain ⟨c, hc, hlen⟩ := collectCorrespondences_ok ext.libm s s.views
    have hfew : ¬ c.X_GPS.length > 3 := by
      rw [hlen]
      unfold usablePositionPriors at h
      omega
    simp only [hc, bind, Except.bind, hfew, if_false, pure, Except.pure]
  · rfl

/-- C6: when fewer than 4 views supply a usable position prior, the registration block
leaves the flag `b_usable_prior` false, the fitting errors and the re-centering at their
initial values and the scene as it is; the block of the prior residuals adds nothing;
and `Adjust` ends as it does with the motion priors disabled. -/
theorem Adjust_of_few_position_priors (ext : Externals α) (c : BA_Ceres_options α)
    (s : SfM_Data α) (o : Optimize_Options α) (h : (usablePositionPriors s).length < 4) :
    registerPriors ext o s = .ok (PriorRegistration.initial, s)
    ∧ (PriorRegistration.initial : PriorRegistration α).b_usable_prior = false
    ∧ (∀ map_poses, usablePriorResiduals PriorRegistration.initial s map_poses = .ok [])
    ∧ Adjust ext c s o = Adjust ext c s { o with use_motion_priors_opt := false } := by
  refine ⟨registerPriors_of_few_position_priors ext o s h, rfl, fun _ => rfl, ?_⟩
  have h1 := registerPriors_of_few_position_priors ext o s h
  have h2 := registerPriors_of_few_position_priors ext
    { o with use_motion_priors_opt := false } s h
  unfold Adjust
  rw [h1, h2]
  rfl

/-- C6, witness: `threePriorsScene` has four views and three usable position priors. -/
theorem Adjust_of_few_position_priors_witness :
    (usablePositionPriors Examples.threePriorsScene).length < 4
    ∧ registerPriors (Examples.externals true (some (0, Examples.shiftX)))
        (Examples.options .ADJUST_ALL true) Examples.threePriorsScene
      = .ok (PriorRegistration.initial, Examples.threePriorsScene)
    ∧ Adjust (Examples.externals true (some (0, Examples.shiftX))) Examples.ceres_options
        Examples.threePriorsScene (Examples.options .ADJUST_ALL true)
      = Adjust (Examples.externals true (some (0, Examples.shiftX))) Examples.ceres_options
        Examples.threePriorsScene
        { Examples.options .ADJUST_ALL true with use_motion_priors_opt := false } :=
  have h := Adjust_of_few_position_priors (Examples.externals true (some (0, Examples.shiftX)))
    Examples.ceres_options Examples.threePriorsScene (Examples.options .ADJUST_ALL true)
    (by decide!)
  ⟨by decide!, h.1, h.2.2.2⟩

/-! ## The write-back of the poses -/

theorem updatePoses_eq (rot : CeresRotation α) (e : Extrinsic_Parameter_Type)
    (mp : Hash_Map (List α)) (poses updated : Hash_Map (Pose3 α))
    (h : updatePoses rot e mp poses = .ok updated) :
    updated = poses.map (fun pose_it =>
      (pose_it.1, refinedPose rot e ((Hash_Map.find mp pose_it.1).getD []) pose_it.2)) := by
  induction poses generalizing updated with
  | nil =>
    simp only [updatePoses, pure, Except.pure] at h
    cases h; rfl
  | cons hd tl ih =>
    unfold updatePoses at h
    cases hb : Hash_Map.find mp hd.1 with
    | none => simp [Hash_Map.at_, hb, bind, Except.bind] at h
    | some block =>
      simp only [Hash_Map.at_, hb, bind, Except.bind] at h
      cases htl : updatePoses rot e mp tl with
      | error f => simp [htl] at h
      | ok tail =>
        simp only [htl, pure, Except.pure] at h
        cases h
        simp only [List.map_cons, hb, Option.getD_some, ih tail htl]

theorem materialize_poses (ext : Externals α) (o : Optimize_Options α)
    (reg : PriorRegistration α) (mi mp : Hash_Map (List α)) (s s' : SfM_Data α)
    (hreg : reg.b_usable_prior = false) (h : materialize ext o reg mi mp s = .ok s') :
    s'.poses =
      if o.extrinsics_opt = .NONE then s.poses
      else s.poses.map (fun pose_it =>
        (pose_it.1, refinedPose ext.rotation o.extrinsics_opt
          ((Hash_Map.find mp pose_it.1).getD []) pose_it.2)) := by
  unfold materialize at h
  simp only [hreg, Bool.false_eq_true, if_false, bind, Except.bind, pure, Except.pure] at h
  by_cases hNone : o.extrinsics_opt = .NONE
  · simp only [hNone, ne_eq, not_true_eq_false, if_false, if_true] at h ⊢
    by_cases hi : o.intrinsics_opt = .NONE
    · simp only [hi, not_true_eq_false, if_false] at h
      cases h; rfl
    · simp only [hi, not_false_eq_true, if_true] at h
      cases hu : updateIntrinsics ext mi s.intrinsics with
      | error f => simp [hu] at h
      | ok v => simp only [hu] at h; cases h; rfl
  · simp only [hNone, ne_eq, not_false_eq_true, if_true, if_false] at h ⊢
    cases hp : updatePoses ext.rotation o.extrinsics_opt mp s.poses with
    | error f => simp [hp] at h
    | ok updated =>
      simp only [hp] at h
      have hupd := updatePoses_eq ext.rotation o.extrinsics_opt mp s.poses updated hp
      by_cases hi : o.intrinsics_opt = .NONE
      · simp only [hi, not_true_eq_false, if_false] at h
        cases h; exact hupd
      · simp only [hi, not_false_eq_true, if_true] at h
        cases hu : updateIntrinsics ext mi s.intrinsics with
        | error f => simp [hu] at h
        | ok v => simp only [hu] at h; cases h; exact hupd

/-- C7: on a successful solve, when the call applied no motion-prior registration, the
poses are written back by policy.  Under `ADJUST_ROTATION` each pose gets the rotation
`R_refined` read from its parameter block as the solver left it, and keeps its center;
under `ADJUST_TRANSLATION` it gets the center `-R_refined^T * t_refined` and keeps its
rotation; under `NONE` no pose is written. -/
theorem Adjust_write_back_by_policy (ext : Externals α) (c : BA_Ceres_options α)
    (s : SfM_Data α) (o : Optimize_Options α) (s' : SfM_Data α)
    (hreg : NoRegistration ext o s) (h : Adjust ext c s o = .returned true s') :
    ∃ built, buildProblem ext c o PriorRegistration.initial s = .ok built
      ∧ (o.extrinsics_opt = .ADJUST_ROTATION →
        s'.poses = s.poses.map (fun pose_it => (pose_it.1,
          { pose_it.2 with
            rotation_ := ext.rotation.AngleAxisToRotationMatrix
              ⟨(solvedPoseBlock ext c built s pose_it.1).getD 0 0,
               (solvedPoseBlock ext c built s pose_it.1).getD 1 0,
               (solvedPoseBlock ext c built s pose_it.1).getD 2 0⟩ })))
      ∧ (o.extrinsics_opt = .ADJUST_TRANSLATION →
        s'.poses = s.poses.map (fun pose_it => (pose_it.1,
          { pose_it.2 with
            center_ := (-(ext.rotation.AngleAxisToRotationMatrix
              ⟨(solvedPoseBlock ext c built s pose_it.1).getD 0 0,
               (solvedPoseBlock ext c built s pose_it.1).getD 1 0,
               (solvedPoseBlock ext c built s pose_it.1).getD 2 0⟩).transpose).mulVec
              ⟨(solvedPoseBlock ext c built s pose_it.1).getD 3 0,
               (solvedPoseBlock ext c built s pose_it.1).getD 4 0,
               (solvedPoseBlock ext c built s pose_it.1).getD 5 0⟩ })))
      ∧ (o.extrinsics_opt = .NONE → s'.poses = s.poses) := by
  obtain ⟨reg, s1, hr, hcase⟩ := Adjust_returned ext c s o true s' h
  have hflag := hreg reg s1 hr
  obtain ⟨rfl, rfl⟩ := registerPriors_of_flag_false ext o s reg s1 hr hflag
  rcases hcase with ⟨-, hb, -⟩ | ⟨built, hbuilt, hsm⟩
  · cases hb
  · rcases solveAndMaterialize_returned ext c o _ built s1 true s' hsm with
      ⟨-, hb, -⟩ | ⟨-, -, hm⟩
    · cases hb
    · have hp := materialize_poses ext o _ _ _ _ s' hflag hm
      refine ⟨built, hbuilt, ?_, ?_, ?_⟩
      · intro hpol
        rw [hp]
        simp only [hpol, reduceCtorEq, if_false, refinedPose, if_true]
        rfl
      · intro hpol
        rw [hp]
        simp only [hpol, reduceCtorEq, if_false, refinedPose, if_true]
        rfl
      · intro hpol
        rw [hp]
        simp only [hpol, if_true]
        rfl

/-- C7, witness: `smallScene` under `ADJUST_ROTATION`, with the motion priors disabled. -/
theorem Adjust_write_back_by_policy_witness :
    NoRegistration (Examples.externals true none) (Examples.options .ADJUST_ROTATION false)
        Examples.smallScene
    ∧ Adjust (Examples.externals true none) Examples.ceres_options Examples.smallScene
        (Examples.options .ADJUST_ROTATION false) = .returned true Examples.smallScene
    ∧ ∃ built, buildProblem (Examples.externals true none) Examples.ceres_options
          (Examples.options .ADJUST_ROTATION false) PriorRegistration.initial
          Examples.smallScene = .ok built
        ∧ Examples.smallScene.poses = Examples.smallScene.poses.map (fun pose_it => (pose_it.1,
          { pose_it.2 with
            rotation_ := (Examples.externals true none).rotation.AngleAxisToRotationMatrix
              ⟨(solvedPoseBlock (Examples.externals true none) Examples.ceres_options built
                  Examples.smallScene pose_it.1).getD 0 0,
               (solvedPoseBlock (Examples.externals true none) Examples.ceres_options built
                  Examples.smallScene pose_it.1).getD 1 0,
               (solvedPoseBlock (Examples.externals true none) Examples.ceres_options built
                  Examples.smallScene pose_it.1).getD 2 0⟩ })) :=
  ⟨noRegistration_of_disabled _ _ _ rfl, by decide!,
    (Adjust_write_back_by_policy (Examples.externals true none) Examples.ceres_options
      Examples.smallScene (Examples.options .ADJUST_ROTATION false) Examples.smallScene
      (noRegistration_of_disabled _ _ _ rfl) (by decide!)).imp
      (fun _ hb => ⟨hb.1, hb.2.1 rfl⟩)⟩

/-! ## The parameter blocks of the poses -/

theorem ProblemCall.queries_of_not_touchesPose (call : ProblemCall α) (k : IndexT)
    (h : call.touchesPose = false) :
    call.addedSize (.pose k) = none ∧ call.setsConstant (.pose k) = false
      ∧ call.manifoldOf (.pose k) = none := by
  cases call with
  | AddParameterBlock b size =>
    cases b <;> simp_all [ProblemCall.touchesPose, ProblemCall.addedSize,
      ProblemCall.setsConstant, ProblemCall.manifoldOf]
  | SetParameterBlockConstant b =>
    cases b <;> simp_all [ProblemCall.touchesPose, ProblemCall.addedSize,
      ProblemCall.setsConstant, ProblemCall.manifoldOf]
  | SetManifold b size constant =>
    cases b <;> simp_all [ProblemCall.touchesPose, ProblemCall.addedSize,
      ProblemCall.setsConstant, ProblemCall.manifoldOf]
  | AddResidualBlock cost loss blocks =>
    simp [ProblemCall.addedSize, ProblemCall.setsConstant, ProblemCall.manifoldOf]

theorem intrinsicBlockCalls_not_touchesPose (ext : Externals α)
    (io : Intrinsic_Parameter_Type) (k : IndexT) (intrinsic : IntrinsicBase α)
    (params : List α) :
    ∀ call ∈ intrinsicBlockCalls ext io k intrinsic params, call.touchesPose = false := by
  intro call hcall
  unfold intrinsicBlockCalls at hcall
  by_cases hp : (!params.isEmpty) = true
  · simp only [hp, if_true, List.mem_cons] at hcall
    rcases hcall with rfl | hcall
    · rfl
    · by_cases hio : io = .NONE
      · simp only [hio, if_true, List.mem_singleton] at hcall
        subst hcall; rfl
      · simp only [hio, if_false] at hcall
        split_ifs at hcall
        · simp only [List.mem_singleton] at hcall
          subst hcall; rfl
        · cases hcall
  · simp only [hp] at hcall
    cases hcall

theorem setupIntrinsics_not_touchesPose (ext : Externals α) (io : Intrinsic_Parameter_Type)
    (intrinsics : Hash_Map (IntrinsicBase α)) :
    ∀ call ∈ (setupIntrinsics ext io intrinsics).2, call.touchesPose = false := by
  unfold setupIntrinsics
  have hgen : ∀ (l : Hash_Map (IntrinsicBase α)) (st : Hash_Map (List α) × List (ProblemCall α)),
      (∀ call ∈ st.2, call.touchesPose = false) →
      ∀ call ∈ (l.foldl (fun st intrinsic_it =>
          if isValid intrinsic_it.2.getType then
            (Hash_Map.set st.1 intrinsic_it.1 intrinsic_it.2.getParams,
             st.2 ++ intrinsicBlockCalls ext io intrinsic_it.1 intrinsic_it.2
               intrinsic_it.2.getParams)
          else st) st).2, call.touchesPose = false := by
    intro l
    induction l with
    | nil => intro st hst; exact hst
    | cons hd tl ih =>
      intro st hst
      simp only [List.foldl]
      apply ih
      split_ifs
      · intro call hcall
        rcases List.mem_append.mp hcall with h1 | h2
        · exact hst call h1
        · exact intrinsicBlockCalls_not_touchesPose ext io _ _ _ call h2
      · exact hst
  exact hgen intrinsics ([], []) (by simp)

theorem landmarkObservation_not_touchesPose (s : SfM_Data α) (mi mp : Hash_Map (List α))
    (loss : Option (LossFunction α)) (id : IndexT) (obs_it : IndexT × Observation α)
    (calls : List (ProblemCall α)) (h : landmarkObservation s mi mp loss id obs_it = .ok calls) :
    ∀ call ∈ calls, call.touchesPose = false := by
  unfold landmarkObservation at h
  simp only [bind, Except.bind] at h
  split at h
  · cases h
  · split at h
    · cases h
    · split at h
      · split at h
        · cases h
        · split_ifs at h
          · split at h
            · cases h
            · simp only [pure, Except.pure] at h
              cases h
              simp [ProblemCall.touchesPose]
          · split at h
            · cases h
            · simp only [pure, Except.pure] at h
              cases h
              simp [ProblemCall.touchesPose]
      · cases h

theorem landmarkObservations_not_touchesPose (s : SfM_Data α) (mi mp : Hash_Map (List α))
    (loss : Option (LossFunction α)) (id : IndexT) (obs : List (IndexT × Observation α))
    (calls : List (ProblemCall α))
    (h : landmarkObservations s mi mp loss id obs = .ok calls) :
    ∀ call ∈ calls, call.touchesPose = false := by
  induction obs generalizing calls with
  | nil =>
    simp only [landmarkObservations, pure, Except.pure] at h
    cases h; simp
  | cons hd tl ih =>
    unfold landmarkObservations at h
    cases hhd : landmarkObservation s mi mp loss id hd with
    | error e => simp [hhd, bind, Except.bind] at h
    | ok c1 =>
      cases htl : landmarkObservations s mi mp loss id tl with
      | error e => simp [hhd, htl, bind, Except.bind] at h
      | ok c2 =>
        simp only [hhd, htl, bind, Except.bind, pure, Except.pure] at h
        cases h
        intro call hcall
        rcases List.mem_append.mp hcall with h1 | h2
        · exact landmarkObservation_not_touchesPose s mi mp loss id hd c1 hhd call h1
        · exact ih c2 htl call h2

theorem landmarkResiduals_not_touchesPose (s : SfM_Data α) (so : Structure_Parameter_Type)
    (mi mp : Hash_Map (List α)) (loss : Option (LossFunction α))
    (l : List (IndexT × Landmark α)) (calls : List (ProblemCall α))
    (h : landmarkResiduals s so mi mp loss l = .ok calls) :
    ∀ call ∈ calls, call.touchesPose = false := by
  induction l generalizing calls with
  | nil =>
    simp only [landmarkResiduals, pure, Except.pure] at h
    cases h; simp
  | cons hd tl ih =>
    unfold landmarkResiduals at h
    cases hhd : landmarkObservations s mi mp loss hd.1 hd.2.obs with
    | error e => simp [hhd, bind, Except.bind] at h
    | ok c1 =>
      cases htl : landmarkResiduals s so mi mp loss tl with
      | error e => simp [hhd, htl, bind, Except.bind] at h
      | ok c2 =>
        simp only [hhd, htl, bind, Except.bind, pure, Except.pure] at h
        cases h
        intro call hcall
        rcases List.mem_append.mp hcall with h12 | h3
        · rcases List.mem_append.mp h12 with h1 | h2
          · exact landmarkObservations_not_touchesPose s mi mp loss hd.1 hd.2.obs c1 hhd call h1
          · split_ifs at h2
            · simp at h2; subst h2; rfl
            · simp at h2
        · exact ih c2 htl call h3

theorem gcpObservation_not_touchesPose (s : SfM_Data α) (w : α) (mi mp : Hash_Map (List α))
    (id : IndexT) (obs_it : IndexT × Observation α)
    (calls : List (ProblemCall α)) (h : gcpObservation s w mi mp id obs_it = .ok calls) :
    ∀ call ∈ calls, call.touchesPose = false := by
  unfold gcpObservation at h
  simp only [bind, Except.bind] at h
  split at h
  · cases h
  · split at h
    · cases h
    · split at h
      · split at h
        · cases h
        · split_ifs at h
          · split at h
            · cases h
            · simp only [pure, Except.pure] at h
              cases h
              simp [ProblemCall.touchesPose]
          · split at h
            · cases h
            · simp only [pure, Except.pure] at h
              cases h
              simp [ProblemCall.touchesPose]
      · simp only [pure, Except.pure] at h
        cases h
        simp

theorem gcpObservations_not_touchesPose (s : SfM_Data α) (w : α) (mi mp : Hash_Map (List α))
    (id : IndexT) (obs : List (IndexT × Observation α))
    (calls : List (ProblemCall α)) (h : gcpObservations s w mi mp id obs = .ok calls) :
    ∀ call ∈ calls, call.touchesPose = false := by
  induction obs generalizing calls with
  | nil =>
    simp only [gcpObservations, pure, Except.pure] at h
    cases h; simp
  | cons hd tl ih =>
    unfold gcpObservations at h
    cases hhd : gcpObservation s w mi mp id hd with
    | error e => simp [hhd, bind, Except.bind] at h
    | ok c1 =>
      cases htl : gcpObservations s w mi mp id tl with
      | error e => simp [hhd, htl, bind, Except.bind] at h
      | ok c2 =>
        simp only [hhd, htl, bind, Except.bind, pure, Except.pure] at h
        cases h
        intro call hcall
        rcases List.mem_append.mp hcall with h1 | h2
        · exact gcpObservation_not_touchesPose s w mi mp id hd c1 hhd call h1
        · exact ih c2 htl call h2

theorem gcpResiduals_not_touchesPose (s : SfM_Data α) (w : α) (mi mp : Hash_Map (List α))
    (l : List (IndexT × Landmark α)) (calls : List (ProblemCall α))
    (h : gcpResiduals s w mi mp l = .ok calls) :
    ∀ call ∈ calls, call.touchesPose = false := by
  induction l generalizing calls with
  | nil =>
    simp only [gcpResiduals, pure, Except.pure] at h
    cases h; simp
  | cons hd tl ih =>
    unfold gcpResiduals at h
    cases hhd : gcpObservations s w mi mp hd.1 hd.2.obs with
    | error e => simp [hhd, bind, Except.bind] at h
    | ok c1 =>
      cases htl : gcpResiduals s w mi mp tl with
      | error e => simp [hhd, htl, bind, Except.bind] at h
      | ok c2 =>
        simp only [hhd, htl, bind, Except.bind, pure, Except.pure] at h
        cases h
        intro call hcall
        rcases List.mem_append.mp hcall with h12 | h3
        · rcases List.mem_append.mp h12 with h1 | h2
          · exact gcpObservations_not_touchesPose s w mi mp hd.1 hd.2.obs c1 hhd call h1
          · split_ifs at h2
            · simp at h2
            · simp at h2; subst h2; rfl
        · exact ih c2 htl call h3

theorem viewPriorResiduals_not_touchesPose (reg : PriorRegistration α) (s : SfM_Data α)
    (mp : Hash_Map (List α)) (view : View α) (calls : List (ProblemCall α))
    (h : viewPriorResiduals reg s mp view = .ok calls) :
    ∀ call ∈ calls, call.touchesPose = false := by
  unfold viewPriorResiduals at h
  cases hp : view.priors with
  | none =>
    simp only [hp, pure, Except.pure] at h
    cases h; simp
  | some prior =>
    simp only [hp] at h
    by_cases hdef : s.IsPoseAndIntrinsicDefined view = true
    · simp only [hdef, if_true] at h
      cases hat : Hash_Map.at_ mp view.id_view with
      | error f =>
        cases hc : prior.b_use_pose_center_ <;> cases hr : prior.b_use_pose_rotation_ <;>
          simp [hat, hc, hr, bind, Except.bind, pure, Except.pure] at h <;>
          (subst h; simp)
      | ok block =>
        cases hc : prior.b_use_pose_center_ <;> cases hr : prior.b_use_pose_rotation_ <;>
          simp [hat, hc, hr, bind, Except.bind, pure, Except.pure] at h <;>
          (subst h; simp [ProblemCall.touchesPose])
    · simp only [hdef, pure, Except.pure] at h
      cases h; simp

theorem priorResiduals_not_touchesPose (reg : PriorRegistration α) (s : SfM_Data α)
    (mp : Hash_Map (List α)) (views : List (IndexT × View α)) (calls : List (ProblemCall α))
    (h : priorResiduals reg s mp views = .ok calls) :
    ∀ call ∈ calls, call.touchesPose = false := by
  induction views generalizing calls with
  | nil =>
    simp only [priorResiduals, pure, Except.pure] at h
    cases h; simp
  | cons hd tl ih =>
    unfold priorResiduals at h
    cases hhd : viewPriorResiduals reg s mp hd.2 with
    | error e => simp [hhd, bind, Except.bind] at h
    | ok c1 =>
      cases htl : priorResiduals reg s mp tl with
      | error e => simp [hhd, htl, bind, Except.bind] at h
      | ok c2 =>
        simp only [hhd, htl, bind, Except.bind, pure, Except.pure] at h
        cases h
        intro call hcall
        rcases List.mem_append.mp hcall with h1 | h2
        · exact viewPriorResiduals_not_touchesPose reg s mp hd.2 c1 hhd call h1
        · exact ih c2 htl call h2

theorem buildProblem_problem (ext : Externals α) (c : BA_Ceres_options α)
    (o : Optimize_Options α) (reg : PriorRegistration α) (s : SfM_Data α)
    (built : BuiltProblem α) (h : buildProblem ext c o reg s = .ok built) :
    built.map_poses = (setupPoses ext.rotation o.extrinsics_opt s.poses).1
    ∧ ∃ rest : List (ProblemCall α),
        built.problem = s.poses.flatMap (fun pose_it => poseBlockCalls o.extrinsics_opt pose_it.1)
          ++ rest
        ∧ ∀ call ∈ rest, call.touchesPose = false := by
  unfold buildProblem at h
  simp only [bind, Except.bind] at h
  split at h
  · cases h
  · rename_i landmarks hl
    split at h
    · cases h
    · rename_i gcps hg
      split at h
      · cases h
      · rename_i priors hp
        simp only [pure, Except.pure] at h
        cases h
        refine ⟨rfl, (setupIntrinsics ext o.intrinsics_opt s.intrinsics).2 ++ landmarks ++ gcps
          ++ priors, ?_, ?_⟩
        · simp only [setupPoses_calls, List.append_assoc]
        · intro call hcall
          rcases List.mem_append.mp hcall with h123 | h4
          · rcases List.mem_append.mp h123 with h12 | h3
            · rcases List.mem_append.mp h12 with h1 | h2
              · exact setupIntrinsics_not_touchesPose ext _ _ call h1
              · exact landmarkResiduals_not_touchesPose s _ _ _ _ _ landmarks hl call h2
            · unfold controlPointResiduals at hg
              split_ifs at hg
              · cases hgr : gcpResiduals s o.control_point_opt.weight
                    (setupIntrinsics ext o.intrinsics_opt s.intrinsics).1
                    (setupPoses ext.rotation o.extrinsics_opt s.poses).1 s.control_points with
                | error f => simp [hgr, liftFault] at hg
                | ok v =>
                  simp only [hgr, liftFault] at hg
                  cases hg
                  exact gcpResiduals_not_touchesPose s _ _ _ _ _ hgr call h3
              · simp only [liftFault, pure, Except.pure] at hg
                cases hg
                cases h3
          · unfold usablePriorResiduals at hp
            split_ifs at hp
            · cases hpr : priorResiduals reg s
                  (setupPoses ext.rotation o.extrinsics_opt s.poses).1 s.views with
              | error f => simp [hpr, liftFault] at hp
              | ok v =>
                simp only [hpr, liftFault] at hp
                cases hp
                exact priorResiduals_not_touchesPose reg s _ _ _ hpr call h4
            · simp only [liftFault, pure, Except.pure] at hp
              cases hp
              cases h4

theorem head?_eq_of_forall_eq {β : Type} (l : List β) (x : β) (hne : l ≠ [])
    (h : ∀ y ∈ l, y = x) : l.head? = some x := by
  cases l with
  | nil => exact absurd rfl hne
  | cons a tl => simp [h a (List.mem_cons_self _ _)]

theorem getLast?_eq_of_forall_eq {β : Type} (l : List β) (x : β) (hne : l ≠ [])
    (h : ∀ y ∈ l, y = x) : l.getLast? = some x := by
  rw [List.getLast?_eq_getLast _ hne]
  exact congrArg some (h _ (List.getLast_mem hne))

/-- The set of cells the policy holds constant in a pose block. -/
theorem vec_constant_extrinsic_eq (e : Extrinsic_Parameter_Type) :
    vec_constant_extrinsic e =
      match e with
      | .ADJUST_TRANSLATION => [0, 1, 2]
      | .ADJUST_ROTATION => [3, 4, 5]
      | _ => [] := by
  cases e <;> rfl

/-- C8: in the problem handed to the solver, the block of every pose of the scene (a map,
whose keys are distinct) has 6 scalars, the angle-axis vector of the rotation in the
cells 0, 1, 2 and the translation in the cells 3, 4, 5, and the cells held constant are
fixed by the extrinsics policy alone: all six under `NONE`, 0, 1, 2 under
`ADJUST_TRANSLATION`, 3, 4, 5 under `ADJUST_ROTATION`, none under `ADJUST_ALL`. -/
theorem buildProblem_pose_blocks (ext : Externals α) (c : BA_Ceres_options α)
    (o : Optimize_Options α) (reg : PriorRegistration α) (s : SfM_Data α)
    (built : BuiltProblem α) (h : buildProblem ext c o reg s = .ok built)
    (hkeys : (s.poses.map (fun pose_it => pose_it.1)).Nodup)
    (pose_it : IndexT × Pose3 α) (hmem : pose_it ∈ s.poses) :
    blockSize built.problem (.pose pose_it.1) = some 6
    ∧ Hash_Map.find built.map_poses pose_it.1 =
        some [(ext.rotation.RotationMatrixToAngleAxis pose_it.2.rotation).x,
              (ext.rotation.RotationMatrixToAngleAxis pose_it.2.rotation).y,
              (ext.rotation.RotationMatrixToAngleAxis pose_it.2.rotation).z,
              pose_it.2.translation.x, pose_it.2.translation.y, pose_it.2.translation.z]
    ∧ constantCells built.problem (.pose pose_it.1) =
        match o.extrinsics_opt with
        | .NONE => [0, 1, 2, 3, 4, 5]
        | .ADJUST_TRANSLATION => [0, 1, 2]
        | .ADJUST_ROTATION => [3, 4, 5]
        | .ADJUST_ALL => [] := by
  obtain ⟨hmp, rest, hproblem, hrest⟩ := buildProblem_problem ext c o reg s built h
  obtain ⟨k, pose⟩ := pose_it
  -- membership in the problem
  have hcalls : ∀ call ∈ built.problem,
      (∃ k', call ∈ poseBlockCalls o.extrinsics_opt k') ∨ call.touchesPose = false := by
    intro call hcall
    rw [hproblem] at hcall
    rcases List.mem_append.mp hcall with h1 | h2
    · obtain ⟨it, -, hit⟩ := List.mem_flatMap.mp h1
      exact Or.inl ⟨it.1, hit⟩
    · exact Or.inr (hrest call h2)
  have hown : ∀ call ∈ poseBlockCalls (α := α) o.extrinsics_opt k, call ∈ built.problem := by
    intro call hcall
    rw [hproblem]
    exact List.mem_append_left _ (List.mem_flatMap.mpr ⟨(k, pose), hmem, hcall⟩)
  have hsize : blockSize built.problem (.pose k) = some 6 := by
    unfold blockSize
    apply head?_eq_of_forall_eq
    · intro hnil
      have : (6 : Nat) ∈ built.problem.filterMap (ProblemCall.addedSize (.pose k)) :=
        List.mem_filterMap.mpr ⟨.AddParameterBlock (.pose k) 6,
          hown _ (by simp [poseBlockCalls]), by simp [ProblemCall.addedSize]⟩
      rw [hnil] at this
      cases this
    · intro y hy
      obtain ⟨call, hcall, hq⟩ := List.mem_filterMap.mp hy
      rcases hcalls call hcall with ⟨k', hk'⟩ | hnt
      · unfold poseBlockCalls at hk'
        simp only [List.mem_cons] at hk'
        rcases hk' with rfl | hk'
        · simp only [ProblemCall.addedSize] at hq
          split_ifs at hq
          cases hq; rfl
        · split_ifs at hk' <;> simp at hk' <;> subst hk' <;>
            simp [ProblemCall.addedSize] at hq
      · rw [(ProblemCall.queries_of_not_touchesPose call k hnt).1] at hq
        cases hq
  refine ⟨hsize, ?_, ?_⟩
  · rw [hmp]
    unfold setupPoses
    rw [setupPoses_fold_find]
    have hrev : Hash_Map.find s.poses.reverse k = some pose :=
      Hash_Map.find_of_mem_nodup _ _ _ (List.mem_reverse.mpr hmem)
        (by rw [List.map_reverse]; exact List.nodup_reverse.mpr hkeys)
    simp only [hrev]
    rfl
  · unfold constantCells
    by_cases hNone : o.extrinsics_opt = .NONE
    · have hany : built.problem.any (ProblemCall.setsConstant (.pose k)) = true :=
        List.any_eq_true.mpr ⟨.SetParameterBlockConstant (.pose k),
          hown _ (by simp [poseBlockCalls, hNone]), by simp [ProblemCall.setsConstant]⟩
      simp only [hany, if_true, hsize, Option.getD_some, hNone]
      decide
    · have hany : built.problem.any (ProblemCall.setsConstant (.pose k)) = false := by
        rw [List.any_eq_false]
        intro call hcall
        rcases hcalls call hcall with ⟨k', hk'⟩ | hnt
        · unfold poseBlockCalls at hk'
          simp only [hNone, if_false, List.mem_cons] at hk'
          rcases hk' with rfl | hk'
          · simp [ProblemCall.setsConstant]
          · split_ifs at hk' <;> simp at hk'
            subst hk'
            simp [ProblemCall.setsConstant]
        · simp [(ProblemCall.queries_of_not_touchesPose call k hnt).2.1]
      simp only [hany, Bool.false_eq_true, if_false]
      have hall : ∀ y ∈ built.problem.filterMap (ProblemCall.manifoldOf (.pose k)),
          y = vec_constant_extrinsic o.extrinsics_opt := by
        intro y hy
        obtain ⟨call, hcall, hq⟩ := List.mem_filterMap.mp hy
        rcases hcalls call hcall with ⟨k', hk'⟩ | hnt
        · unfold poseBlockCalls at hk'
          simp only [hNone, if_false, List.mem_cons] at hk'
          rcases hk' with rfl | hk'
          · simp [ProblemCall.manifoldOf] at hq
          · split_ifs at hk' <;> simp at hk'
            subst hk'
            simp only [ProblemCall.manifoldOf] at hq
            split_ifs at hq
            cases hq; rfl
        · rw [(ProblemCall.queries_of_not_touchesPose call k hnt).2.2] at hq
          cases hq
      by_cases hvec : (vec_constant_extrinsic o.extrinsics_opt).isEmpty = true
      · have hnil : built.problem.filterMap (ProblemCall.manifoldOf (.pose k)) = [] := by
          apply List.eq_nil_iff_forall_not_mem.mpr
          intro y hy
          obtain ⟨call, hcall, hq⟩ := List.mem_filterMap.mp hy
          rcases hcalls call hcall with ⟨k', hk'⟩ | hnt
          · unfold poseBlockCalls at hk'
            simp only [hNone, if_false, hvec, Bool.not_true, Bool.false_eq_true,
              List.mem_cons] at hk'
            rcases hk' with rfl | hk'
            · simp [ProblemCall.manifoldOf] at hq
            · cases hk'
          · rw [(ProblemCall.queries_of_not_touchesPose call k hnt).2.2] at hq
            cases hq
        rw [hnil]
        cases he : o.extrinsics_opt with
        | NONE => exact absurd he hNone
        | ADJUST_ALL => rfl
        | ADJUST_TRANSLATION =>
          rw [he] at hvec
          simp [vec_constant_extrinsic] at hvec
        | ADJUST_ROTATION =>
          rw [he] at hvec
          simp [vec_constant_extrinsic] at hvec
      · have hlast := getLast?_eq_of_forall_eq _ _ (by
          intro hnil
          have : vec_constant_extrinsic o.extrinsics_opt
              ∈ built.problem.filterMap (ProblemCall.manifoldOf (.pose k)) :=
            List.mem_filterMap.mpr ⟨.SetManifold (.pose k) 6
              (vec_constant_extrinsic o.extrinsics_opt),
              hown _ (by simp [poseBlockCalls, hNone, hvec]),
              by simp [ProblemCall.manifoldOf]⟩
          rw [hnil] at this
          cases this) hall
        rw [hlast, Option.getD_some]
        cases he : o.extrinsics_opt with
        | NONE => exact absurd he hNone
        | ADJUST_ALL =>
          rw [he] at hvec
          exact absurd rfl hvec
        | ADJUST_TRANSLATION => rfl
        | ADJUST_ROTATION => rfl

/-- C8, witness: the problem built on `smallScene` under `ADJUST_ROTATION`. -/
theorem buildProblem_pose_blocks_witness :
    buildProblem (Examples.externals true none) Examples.ceres_options
        (Examples.options .ADJUST_ROTATION false) PriorRegistration.initial Examples.smallScene
      = .ok Examples.smallProblem
    ∧ (Examples.smallScene.poses.map (fun pose_it => pose_it.1)).Nodup
    ∧ blockSize Examples.smallProblem.problem (.pose 0) = some 6
    ∧ Hash_Map.find Examples.smallProblem.map_poses 0 = some [0, 0, 0, 0, 0, 0]
    ∧ constantCells Examples.smallProblem.problem (.pose 0) = [3, 4, 5] :=
  have h := buildProblem_pose_blocks (Examples.externals true none) Examples.ceres_options
    (Examples.options .ADJUST_ROTATION false) PriorRegistration.initial Examples.smallScene
    Examples.smallProblem (by decide!) (by decide!) (0, ⟨Mat3.Identity, ⟨0, 0, 0⟩⟩)
    (by decide!)
  ⟨by decide!, by decide!, h.1, by decide!, h.2.2⟩


/-! ## Control points without observation -/

theorem Hash_Map.find_map_key {V W : Type} (f : IndexT → V → W) (m : Hash_Map V) (k : IndexT) :
    Hash_Map.find (m.map (fun it => (it.1, f it.1 it.2))) k = (Hash_Map.find m k).map (f k) := by
  induction m with
  | nil => rfl
  | cons hd tl ih =>
    obtain ⟨k', v⟩ := hd
    simp only [List.map_cons, Hash_Map.find]
    by_cases hk : k' = k
    · subst hk; simp
    · simp [hk, ih]

theorem ProblemCall.mem_blocks_of_mentions (call : ProblemCall α) (block : ParameterBlock)
    (h : call.mentions block = true) : block ∈ call.blocks := by
  cases call with
  | AddParameterBlock b size =>
    simp only [ProblemCall.mentions, decide_eq_true_eq] at h
    simp [ProblemCall.blocks, h]
  | SetParameterBlockConstant b => simp [ProblemCall.mentions] at h
  | SetManifold b size constant => simp [ProblemCall.mentions] at h
  | AddResidualBlock cost loss blocks =>
    simpa [ProblemCall.mentions, ProblemCall.blocks] using h

theorem Vec3.sub_def (a b : Vec3 α) : a - b = ⟨a.x - b.x, a.y - b.y, a.z - b.z⟩ := rfl

theorem Vec3.neg_def (a : Vec3 α) : -a = ⟨-a.x, -a.y, -a.z⟩ := rfl

theorem Vec3.add_def (a b : Vec3 α) : a + b = ⟨a.x + b.x, a.y + b.y, a.z + b.z⟩ := rfl

theorem Vec3.zero_def : (0 : Vec3 α) = ⟨0, 0, 0⟩ := rfl

/-- The re-centering moves a point by the opposite of the center. -/
theorem Similarity3.applyPoint_centering (center x : Vec3 α) :
    Similarity3.applyPoint
        { pose_ := { rotation_ := Mat3.Identity, center_ := center }, scale_ := (1 : α) } x
      = x - center := by
  simp only [Similarity3.applyPoint, Pose3.apply, Mat3.Identity, Mat3.mulVec, Vec3.dot,
    Vec3.smul, Vec3.sub_def, one_mul, zero_mul, add_zero, zero_add]

/-- The re-centering, then its inverse, leaves a point where it is. -/
theorem Similarity3.inverse_applyPoint_centering (center x : Vec3 α) :
    (Similarity3.inverse
        { pose_ := { rotation_ := Mat3.Identity, center_ := center }, scale_ := (1 : α) }).applyPoint
      (Similarity3.applyPoint
        { pose_ := { rotation_ := Mat3.Identity, center_ := center }, scale_ := (1 : α) } x)
      = x := by
  rw [Similarity3.applyPoint_centering]
  simp only [Similarity3.inverse, Similarity3.applyPoint, Pose3.inverse, Pose3.apply,
    Mat3.Identity, Mat3.transpose, Mat3.mulVec, Vec3.dot, Vec3.smul, Vec3.sub_def,
    Vec3.neg_def, one_mul, zero_mul, add_zero, zero_add, div_one, sub_neg_eq_add,
    sub_add_cancel]

/-- The control points when the registration block ends: where they were, or moved by the
re-centering. -/
theorem registerPriors_control_points (ext : Externals α) (o : Optimize_Options α)
    (s : SfM_Data α) (reg : PriorRegistration α) (s1 : SfM_Data α)
    (h : registerPriors ext o s = .ok (reg, s1)) :
    (reg.b_usable_prior = false ∧ s1 = s) ∨
    (reg.b_usable_prior = true ∧ ∃ center : Vec3 α,
      reg.sim_to_center =
        { pose_ := { rotation_ := Mat3.Identity, center_ := center }, scale_ := 1 } ∧
      s1.control_points = s.control_points.map (fun it =>
        (it.1, { it.2 with X := reg.sim_to_center.applyPoint it.2.X }))) := by
  rcases registerPriors_cases ext o s reg s1 h with ⟨rfl, rfl⟩ | ⟨hu, sim, hsim, rfl⟩
  · exact Or.inl ⟨rfl, rfl⟩
  · exact Or.inr ⟨hu, _, hsim, by simp [ApplySimilarity]⟩

/-- No call on the problem names the point of a control point without observation, nor
that of any control point when the control points are not in use. -/
theorem buildProblem_unobserved_control_point (ext : Externals α) (c : BA_Ceres_options α)
    (o : Optimize_Options α) (reg : PriorRegistration α) (s : SfM_Data α)
    (built : BuiltProblem α) (h : buildProblem ext c o reg s = .ok built) (id : IndexT)
    (hobs : o.control_point_opt.bUse_control_points = true →
      ∀ it ∈ s.control_points, it.1 = id → it.2.obs = []) :
    ∀ call ∈ built.problem, ParameterBlock.control_point id ∉ call.blocks := by
  obtain ⟨landmarks, gcps, priors, hl, hg, hp, hproblem⟩ := buildProblem_ok ext c o reg s built h
  intro call hcall hin
  rw [hproblem] at hcall
  simp only [List.mem_append] at hcall
  rcases hcall with (((h1 | h2) | h3) | h4) | h5
  · obtain ⟨⟨k, hk⟩, -⟩ := setupPoses_blocks _ _ _ call h1
    rw [hk] at hin
    simp at hin
  · obtain ⟨⟨k, hk⟩, -⟩ := setupIntrinsics_blocks _ _ _ call h2
    rw [hk] at hin
    simp at hin
  · rcases (landmarkResiduals_calls _ _ _ _ _ _ _ hl).1 call h3 with
      ⟨it, -, obs_it, -, functor, blocks, rfl, hb⟩ | ⟨it, -, rfl⟩
    · simp only [ProblemCall.blocks, List.mem_append, List.mem_singleton] at hin
      rcases hin with hin | hin
      · rcases hb _ hin with ⟨k, hk⟩ | ⟨k, hk⟩ <;> cases hk
      · cases hin
    · simp [ProblemCall.blocks] at hin
  · unfold controlPointResiduals at hg
    split_ifs at hg with hu
    · rcases (gcpResiduals_calls _ _ _ _ _ _ hg).1 call h4 with
        ⟨it, hit, obs_it, hmem, functor, blocks, rfl, hb⟩ | ⟨it, hit, hne, rfl⟩
      · simp only [ProblemCall.blocks, List.mem_append, List.mem_singleton] at hin
        rcases hin with hin | hin
        · rcases hb _ hin with ⟨k, hk⟩ | ⟨k, hk⟩ <;> cases hk
        · injection hin with hid
          rw [hobs hu it hit hid.symm] at hmem
          cases hmem
      · simp only [ProblemCall.blocks, List.mem_singleton] at hin
        injection hin with hid
        exact hne (hobs hu it hit hid.symm)
    · simp only [pure, Except.pure] at hg
      cases hg
      cases h4
  · unfold usablePriorResiduals at hp
    split_ifs at hp
    · obtain ⟨view_it, -, c1, hc1, hin1⟩ := priorResiduals_calls _ _ _ _ _ hp call h5
      obtain ⟨prior, -, hcase⟩ := viewPriorResiduals_calls _ _ _ _ _ hc1 call hin1
      rcases hcase with ⟨-, rfl⟩ | ⟨-, rfl⟩ <;> simp [ProblemCall.blocks] at hin
    · simp only [pure, Except.pure] at hp
      cases hp
      cases h5

/-- The scene when the branch "Solution is usable" ends: poses and intrinsics are written
back, and the re-centering is inverted when the priors were used. -/
theorem materialize_ok (ext : Externals α) (o : Optimize_Options α)
    (reg : PriorRegistration α) (mi mp : Hash_Map (List α)) (s s' : SfM_Data α)
    (h : materialize ext o reg mi mp s = .ok s') :
    ∃ poses intrinsics,
      s' = if reg.b_usable_prior then
          ApplySimilarity reg.sim_to_center.inverse
            { s with poses := poses, intrinsics := intrinsics } true
        else { s with poses := poses, intrinsics := intrinsics } := by
  unfold materialize at h
  simp only [bind, Except.bind, pure, Except.pure] at h
  have hend : ∀ (poses : Hash_Map (Pose3 α)) (intrinsics : Hash_Map (IntrinsicBase α)),
      (if reg.b_usable_prior = true then
          Except.ok (ε := Fault) (ApplySimilarity reg.sim_to_center.inverse
            { s with poses := poses, intrinsics := intrinsics } true)
        else Except.ok { s with poses := poses, intrinsics := intrinsics }) = .ok s' →
      s' = if reg.b_usable_prior then
          ApplySimilarity reg.sim_to_center.inverse
            { s with poses := poses, intrinsics := intrinsics } true
        else { s with poses := poses, intrinsics := intrinsics } := by
    intro poses intrinsics hh
    split_ifs at hh ⊢ <;> cases hh <;> rfl
  by_cases he : o.extrinsics_opt = .NONE <;> by_cases hi : o.intrinsics_opt = .NONE
  · simp only [he, hi, ne_eq, not_true_eq_false, if_false] at h
    exact ⟨_, _, hend _ _ h⟩
  · simp only [he, hi, ne_eq, not_true_eq_false, not_false_eq_true, if_false, if_true] at h
    cases hu : updateIntrinsics ext mi s.intrinsics with
    | error f => simp [hu] at h
    | ok v => simp only [hu] at h; exact ⟨_, _, hend _ _ h⟩
  · simp only [he, hi, ne_eq, not_true_eq_false, not_false_eq_true, if_false, if_true] at h
    cases hp : updatePoses ext.rotation o.extrinsics_opt mp s.poses with
    | error f => simp [hp] at h
    | ok v => simp only [hp] at h; exact ⟨_, _, hend _ _ h⟩
  · simp only [he, hi, ne_eq, not_false_eq_true, if_true] at h
    cases hp : updatePoses ext.rotation o.extrinsics_opt mp s.poses with
    | error f => simp [hp] at h
    | ok v =>
      simp only [hp] at h
      cases hu : updateIntrinsics ext mi s.intrinsics with
      | error f => simp [hu] at h
      | ok w => simp only [hu] at h; exact ⟨_, _, hend _ _ h⟩

/-- The control points when the branch "Solution is usable" ends. -/
theorem materialize_control_points (ext : Externals α) (o : Optimize_Options α)
    (reg : PriorRegistration α) (mi mp : Hash_Map (List α)) (s s' : SfM_Data α)
    (h : materialize ext o reg mi mp s = .ok s') :
    s'.control_points =
      if reg.b_usable_prior then
        s.control_points.map (fun it =>
          (it.1, { it.2 with X := reg.sim_to_center.inverse.applyPoint it.2.X }))
      else s.control_points := by
  obtain ⟨poses, intrinsics, rfl⟩ := materialize_ok ext o reg mi mp s s' h
  split_ifs
  · simp [ApplySimilarity]
  · rfl

/-- The solver leaves a control point that no call on the problem names. -/
theorem solvedScene_control_point (built : BuiltProblem α) (summary : SolverSummary α)
    (s : SfM_Data α) (id : IndexT)
    (h : ∀ call ∈ built.problem, ParameterBlock.control_point id ∉ call.blocks) :
    Hash_Map.find (solvedScene built summary s).control_points id
      = Hash_Map.find s.control_points id := by
  have hm : problemMentions built.problem (.control_point id) = false := by
    unfold problemMentions
    rw [List.any_eq_false]
    intro call hcall hmen
    exact h call hcall (ProblemCall.mem_blocks_of_mentions call _ hmen)
  show Hash_Map.find (solvedLandmarks built.problem summary .control_point s.control_points) id
    = _
  unfold solvedLandmarks
  refine (Hash_Map.find_map_key (fun k (v : Landmark α) =>
    { v with X := solvedPoint built.problem summary (.control_point k) v.X }) _ _).trans ?_
  cases Hash_Map.find s.control_points id with
  | none => rfl
  | some v => simp [solvedPoint, hm]

/-- C11, at `priorSceneWithControlPoint`, whose control point has no observation and is at
the origin.  The registration succeeds and the scene is re-centered; the solver then
reports an unusable solution and `Adjust` returns false without setting the scene back:
the control point is left at `(-5/4, -1/4, -1/4)`.  When the solver reports a usable
solution the branch that returns true sets the scene back and the control point is at the
origin again. -/
theorem Adjust_false_leaves_control_point_recentered :
    Examples.priorSceneWithControlPoint.control_points
      = [(0, { X := ⟨0, 0, 0⟩, obs := [] })]
    ∧ (∃ s', Adjust (Examples.externals false (some (0, Examples.shiftX)))
          Examples.ceres_options Examples.priorSceneWithControlPoint
          (Examples.options .NONE true) = .returned false s'
        ∧ s'.control_points = [(0, { X := ⟨-5 / 4, -1 / 4, -1 / 4⟩, obs := [] })])
    ∧ (∃ s', Adjust (Examples.externals true (some (0, Examples.shiftX)))
          Examples.ceres_options Examples.priorSceneWithControlPoint
          (Examples.options .NONE true) = .returned true s'
        ∧ s'.control_points = [(0, { X := ⟨0, 0, 0⟩, obs := [] })]) := by
  refine ⟨by decide!, ⟨ApplySimilarity Examples.centering
      (ApplySimilarity Examples.shiftX Examples.priorSceneWithControlPoint false) true,
      by decide!, by decide!⟩,
    ⟨ApplySimilarity Examples.shiftX Examples.priorSceneWithControlPoint false,
      by decide!, by decide!⟩⟩

/-- A control point without observation, in a scene whose control points have distinct
keys: no call on the problem names its point, and when `Adjust` returns true, or returns
after a registration block that applied no transform, the control point is as it was
given. -/
theorem Adjust_unobserved_control_point (ext : Externals α) (c : BA_Ceres_options α)
    (s : SfM_Data α) (o : Optimize_Options α)
    (hkeys : (s.control_points.map (fun it => it.1)).Nodup)
    (gcp_landmark_it : IndexT × Landmark α) (hmem : gcp_landmark_it ∈ s.control_points)
    (hobs : gcp_landmark_it.2.obs = []) :
    (∀ reg s1 built, registerPriors ext o s = .ok (reg, s1) →
        buildProblem ext c o reg s1 = .ok built →
        ∀ call ∈ built.problem, ParameterBlock.control_point gcp_landmark_it.1 ∉ call.blocks)
    ∧ (∀ s', Adjust ext c s o = .returned true s' →
        Hash_Map.find s'.control_points gcp_landmark_it.1 = some gcp_landmark_it.2)
    ∧ (NoRegistration ext o s → ∀ b s', Adjust ext c s o = .returned b s' →
        Hash_Map.find s'.control_points gcp_landmark_it.1 = some gcp_landmark_it.2) := by
  obtain ⟨id, g⟩ := gcp_landmark_it
  simp only at hobs ⊢
  have hfind : Hash_Map.find s.control_points id = some g :=
    Hash_Map.find_of_mem_nodup _ _ _ hmem hkeys
  have huniq : ∀ it ∈ s.control_points, it.1 = id → it.2.obs = [] := by
    intro it hit hid
    have h2 : Hash_Map.find s.control_points it.1 = some it.2 :=
      Hash_Map.find_of_mem_nodup _ _ _ hit hkeys
    rw [hid, hfind] at h2
    cases h2
    exact hobs
  -- the control points when the registration block ends
  have hreg : ∀ reg s1, registerPriors ext o s = .ok (reg, s1) →
      (∀ it ∈ s1.control_points, it.1 = id → it.2.obs = []) ∧
      ((reg.b_usable_prior = false ∧ s1 = s) ∨
       (reg.b_usable_prior = true ∧ ∃ center : Vec3 α,
          reg.sim_to_center =
            { pose_ := { rotation_ := Mat3.Identity, center_ := center }, scale_ := 1 } ∧
          Hash_Map.find s1.control_points id
            = some { g with X := reg.sim_to_center.applyPoint g.X })) := by
    intro reg s1 hr
    rcases registerPriors_control_points ext o s reg s1 hr with ⟨hu, rfl⟩ | ⟨hu, center, hc, hcp⟩
    · exact ⟨huniq, Or.inl ⟨hu, rfl⟩⟩
    · refine ⟨?_, Or.inr ⟨hu, center, hc, ?_⟩⟩
      · intro it hit hid
        rw [hcp] at hit
        obtain ⟨it0, hit0, rfl⟩ := List.mem_map.mp hit
        exact huniq it0 hit0 hid
      · rw [hcp]
        refine (Hash_Map.find_map
          (fun v : Landmark α => { v with X := reg.sim_to_center.applyPoint v.X }) _ _).trans ?_
        rw [hfind]
        rfl
  have hbuilt : ∀ reg s1 built, registerPriors ext o s = .ok (reg, s1) →
      buildProblem ext c o reg s1 = .ok built →
      ∀ call ∈ built.problem, ParameterBlock.control_point id ∉ call.blocks :=
    fun reg s1 built hr hb =>
      buildProblem_unobserved_control_point ext c o reg s1 built hb id
        (fun _ => (hreg reg s1 hr).1)
  refine ⟨hbuilt, ?_, ?_⟩
  · intro s' hA
    obtain ⟨reg, s1, hr, hcase⟩ := Adjust_returned ext c s o true s' hA
    rcases hcase with ⟨-, hb, -⟩ | ⟨built, hb, hsm⟩
    · cases hb
    · rcases solveAndMaterialize_returned ext c o reg built s1 true s' hsm with
        ⟨-, hb', -⟩ | ⟨-, -, hmat⟩
      · cases hb'
      · have hcp := materialize_control_points ext o reg _ _ _ s' hmat
        have hsolved := solvedScene_control_point built (solve ext c built s1) s1 id
          (hbuilt reg s1 built hr hb)
        rcases (hreg reg s1 hr).2 with ⟨hu, rfl⟩ | ⟨hu, center, hc, hf⟩
        · rw [hcp]
          simp only [hu, Bool.false_eq_true, if_false]
          rw [hsolved, hfind]
        · rw [hcp]
          simp only [hu, if_true]
          refine (Hash_Map.find_map
            (fun v : Landmark α => { v with X := reg.sim_to_center.inverse.applyPoint v.X })
            _ _).trans ?_
          rw [hsolved, hf]
          simp only [Option.map_some', hc, Similarity3.inverse_applyPoint_centering]
  · intro hno b s' hA
    obtain ⟨reg, s1, hr, hcase⟩ := Adjust_returned ext c s o b s' hA
    have hu := hno reg s1 hr
    obtain ⟨-, rfl⟩ := registerPriors_of_flag_false ext o s reg s1 hr hu
    rcases hcase with ⟨-, -, rfl⟩ | ⟨built, hb, hsm⟩
    · exact hfind
    · have hsolved := solvedScene_control_point built (solve ext c built s1) s1 id
        (hbuilt _ s1 built hr hb)
      rcases solveAndMaterialize_returned ext c o _ built s1 b s' hsm with
        ⟨-, -, rfl⟩ | ⟨-, -, hmat⟩
      · rw [hsolved, hfind]
      · have hcp := materialize_control_points ext o _ _ _ _ s' hmat
        rw [hcp]
        simp only [hu, Bool.false_eq_true, if_false]
        rw [hsolved, hfind]

/-- The control point without observation of `mixedScene` stays where it is. -/
theorem Adjust_unobserved_control_point_witness :
    Adjust (Examples.externals true none) Examples.ceres_options Examples.mixedScene
        Examples.optionsWithControlPoints = .returned true Examples.mixedScene
    ∧ Hash_Map.find Examples.mixedScene.control_points 1 = some Examples.unobservedPoint :=
  ⟨by decide!,
    (Adjust_unobserved_control_point (Examples.externals true none) Examples.ceres_options
      Examples.mixedScene Examples.optionsWithControlPoints (by decide)
      (1, Examples.unobservedPoint) (by decide!) rfl).2.1 Examples.mixedScene (by decide!)⟩

/-! ## Weights and losses of the reprojection residuals -/

theorem Square_four : Square (4 : α) = 16 := by
  unfold Square
  norm_num

/-- A residual block of the problem, by the loop that added it: the loop over the
landmarks, the loop over the control points, or the loop over the priors. -/
theorem buildProblem_residual_block (ext : Externals α) (c : BA_Ceres_options α)
    (o : Optimize_Options α) (reg : PriorRegistration α) (s : SfM_Data α)
    (built : BuiltProblem α) (h : buildProblem ext c o reg s = .ok built)
    (cost_function : CostFunction α) (loss_function : Option (LossFunction α))
    (blocks : List ParameterBlock)
    (hmem : ProblemCall.AddResidualBlock cost_function loss_function blocks ∈ built.problem) :
    (∃ functor x id front,
        cost_function = .reprojection functor x 0
        ∧ loss_function = (if c.bUse_loss_function_ then some (.HuberLoss (Square 4)) else none)
        ∧ blocks = front ++ [.landmark id]
        ∧ ∀ b ∈ front, (∃ k, b = ParameterBlock.intrinsic k) ∨ ∃ k, b = ParameterBlock.pose k)
    ∨ (∃ functor x id front,
        o.control_point_opt.bUse_control_points = true
        ∧ cost_function = .reprojection functor x o.control_point_opt.weight
        ∧ loss_function = none
        ∧ blocks = front ++ [.control_point id]
        ∧ ∀ b ∈ front, (∃ k, b = ParameterBlock.intrinsic k) ∨ ∃ k, b = ParameterBlock.pose k)
    ∨ (∃ k, reg.b_usable_prior = true ∧ blocks = [.pose k]
        ∧ ((∃ f, cost_function = .pose_center f
              ∧ loss_function
                = some (.HuberLoss (Square reg.pose_center_robust_fitting_error)))
          ∨ (∃ f, cost_function = .pose_rotation f
              ∧ loss_function
                = some (.HuberLoss (Square reg.pose_rotation_robust_fitting_error))))) := by
  obtain ⟨landmarks, gcps, priors, hl, hg, hp, hproblem⟩ := buildProblem_ok ext c o reg s built h
  rw [hproblem] at hmem
  simp only [List.mem_append] at hmem
  rcases hmem with (((h1 | h2) | h3) | h4) | h5
  · exact absurd rfl ((setupPoses_blocks _ _ _ _ h1).2 _ _ _)
  · exact absurd rfl ((setupIntrinsics_blocks _ _ _ _ h2).2 _ _ _)
  · rcases (landmarkResiduals_calls _ _ _ _ _ _ _ hl).1 _ h3 with
      ⟨it, -, obs_it, -, functor, front, heq, hb⟩ | ⟨it, -, heq⟩
    · cases heq
      exact Or.inl ⟨functor, _, it.1, front, rfl, rfl, rfl, hb⟩
    · cases heq
  · unfold controlPointResiduals at hg
    split_ifs at hg with hu
    · rcases (gcpResiduals_calls _ _ _ _ _ _ hg).1 _ h4 with
        ⟨it, -, obs_it, -, functor, front, heq, hb⟩ | ⟨it, -, -, heq⟩
      · cases heq
        exact Or.inr (Or.inl ⟨functor, _, it.1, front, hu, rfl, rfl, rfl, hb⟩)
      · cases heq
    · simp only [pure, Except.pure] at hg
      cases hg
      cases h4
  · unfold usablePriorResiduals at hp
    split_ifs at hp with hu
    · obtain ⟨view_it, -, c1, hc1, hin1⟩ := priorResiduals_calls _ _ _ _ _ hp _ h5
      obtain ⟨prior, -, hcase⟩ := viewPriorResiduals_calls _ _ _ _ _ hc1 _ hin1
      rcases hcase with ⟨-, heq⟩ | ⟨-, heq⟩
      · cases heq
        exact Or.inr (Or.inr ⟨_, hu, rfl, Or.inl ⟨_, rfl, rfl⟩⟩)
      · cases heq
        exact Or.inr (Or.inr ⟨_, hu, rfl, Or.inr ⟨_, rfl, rfl⟩⟩)
    · simp only [pure, Except.pure] at hp
      cases hp
      cases h5

/-- C12: in the problem handed to the solver, a residual block on the point of a landmark
has a reprojection cost function with the default weight 0 ("means no weight") and the
Huber loss of parameter 16 when the loss option is set, no loss otherwise, and every
observation of a landmark has such a block; a residual block on the point of a control
point has a reprojection cost function with the weight of the control points and no loss;
with control points in use the point of every control point that has an observation is
set constant, and without them no call names the point of a control point. -/
theorem buildProblem_reprojection_residuals (ext : Externals α) (c : BA_Ceres_options α)
    (o : Optimize_Options α) (reg : PriorRegistration α) (s : SfM_Data α)
    (built : BuiltProblem α) (h : buildProblem ext c o reg s = .ok built) :
    (∀ cost_function loss_function blocks id,
        ProblemCall.AddResidualBlock cost_function loss_function blocks ∈ built.problem →
        ParameterBlock.landmark id ∈ blocks →
        (∃ functor x, cost_function = .reprojection functor x 0)
        ∧ loss_function = if c.bUse_loss_function_ then some (.HuberLoss 16) else none)
    ∧ (∀ it ∈ s.structure_, ∀ obs_it ∈ it.2.obs, ∃ functor front,
        ProblemCall.AddResidualBlock (.reprojection functor obs_it.2.x 0)
          (if c.bUse_loss_function_ then some (.HuberLoss 16) else none)
          (front ++ [.landmark it.1]) ∈ built.problem)
    ∧ (∀ cost_function loss_function blocks id,
        ProblemCall.AddResidualBlock cost_function loss_function blocks ∈ built.problem →
        ParameterBlock.control_point id ∈ blocks →
        (∃ functor x, cost_function = .reprojection functor x o.control_point_opt.weight)
        ∧ loss_function = none)
    ∧ (o.control_point_opt.bUse_control_points = true →
        ∀ it ∈ s.control_points, it.2.obs ≠ [] →
          ProblemCall.SetParameterBlockConstant (.control_point it.1) ∈ built.problem)
    ∧ (o.control_point_opt.bUse_control_points = false →
        ∀ call ∈ built.problem, ∀ id, ParameterBlock.control_point id ∉ call.blocks) := by
  have hshape := buildProblem_residual_block ext c o reg s built h
  obtain ⟨landmarks, gcps, priors, hl, hg, hp, hproblem⟩ := buildProblem_ok ext c o reg s built h
  refine ⟨?_, ?_, ?_, ?_, ?_⟩
  · intro cf loss blocks id hmem hid
    rcases hshape cf loss blocks hmem with ⟨functor, x, id', front, rfl, rfl, rfl, hb⟩ |
      ⟨functor, x, id', front, -, rfl, rfl, rfl, hb⟩ | ⟨k, -, rfl, -⟩
    · exact ⟨⟨functor, x, rfl⟩, by rw [Square_four]⟩
    · simp only [List.mem_append, List.mem_singleton] at hid
      rcases hid with hid | hid
      · rcases hb _ hid with ⟨k, hk⟩ | ⟨k, hk⟩ <;> cases hk
      · cases hid
    · simp at hid
  · intro it hit obs_it hobs
    obtain ⟨functor, front, hin⟩ := (landmarkResiduals_calls _ _ _ _ _ _ _ hl).2 it hit obs_it hobs
    refine ⟨functor, front, ?_⟩
    rw [hproblem, ← Square_four]
    exact List.mem_append_left _ (List.mem_append_left _ (List.mem_append_right _ hin))
  · intro cf loss blocks id hmem hid
    rcases hshape cf loss blocks hmem with ⟨functor, x, id', front, rfl, rfl, rfl, hb⟩ |
      ⟨functor, x, id', front, -, rfl, rfl, rfl, hb⟩ | ⟨k, -, rfl, -⟩
    · simp only [List.mem_append, List.mem_singleton] at hid
      rcases hid with hid | hid
      · rcases hb _ hid with ⟨k, hk⟩ | ⟨k, hk⟩ <;> cases hk
      · cases hid
    · exact ⟨⟨functor, x, rfl⟩, rfl⟩
    · simp at hid
  · intro hu it hit hobs
    unfold controlPointResiduals at hg
    simp only [hu, if_true] at hg
    rw [hproblem]
    exact List.mem_append_left _ (List.mem_append_right _
      ((gcpResiduals_calls _ _ _ _ _ _ hg).2 it hit hobs))
  · intro hu call hcall id
    exact buildProblem_unobserved_control_point ext c o reg s built h id
      (fun hu' => by rw [hu] at hu'; cases hu') call hcall

/-- C12, witness: the problem built on `mixedScene`, which has a landmark and a control
point seen in its view, and a control point without observation. -/
theorem buildProblem_reprojection_residuals_witness :
    buildProblem (Examples.externals true none) Examples.ceres_options
        Examples.optionsWithControlPoints PriorRegistration.initial Examples.mixedScene
      = .ok Examples.mixedProblem
    ∧ ProblemCall.AddResidualBlock (.reprojection .Pinhole_Intrinsic ⟨0, 0⟩ 0)
        (some (.HuberLoss 16)) [.intrinsic 0, .pose 0, .landmark 0]
        ∈ Examples.mixedProblem.problem
    ∧ ProblemCall.AddResidualBlock (.reprojection .Pinhole_Intrinsic ⟨0, 0⟩ 20)
        none [.intrinsic 0, .pose 0, .control_point 0] ∈ Examples.mixedProblem.problem
    ∧ (Examples.optionsWithControlPoints.control_point_opt.bUse_control_points = true →
        ∀ it ∈ Examples.mixedScene.control_points, it.2.obs ≠ [] →
          ProblemCall.SetParameterBlockConstant (.control_point it.1)
            ∈ Examples.mixedProblem.problem) :=
  ⟨by decide!, by decide!, by decide!,
    (buildProblem_reprojection_residuals (Examples.externals true none)
      Examples.ceres_options Examples.optionsWithControlPoints PriorRegistration.initial
      Examples.mixedScene Examples.mixedProblem (by decide!)).2.2.2.1⟩

/-! ## The losses of the prior residuals -/

/-- What a registration block that ends with `b_usable_prior` set has done. -/
theorem registerPriors_usable (ext : Externals α) (o : Optimize_Options α)
    (s : SfM_Data α) (reg : PriorRegistration α) (s1 : SfM_Data α)
    (h : registerPriors ext o s = .ok (reg, s1)) (hu : reg.b_usable_prior = true) :
    ∃ cs med sim,
      collectCorrespondences ext.libm s s.views = .ok cs
      ∧ cs.X_GPS.length > 3
      ∧ ext.LeastMedianOfSquares cs.X_SfM cs.X_GPS = some (med, sim)
      ∧ sortedMiddle (alignedPositionResiduals ext.libm sim cs)
          = .ok reg.pose_center_robust_fitting_error
      ∧ sortedMiddle (orientationResiduals cs) = .ok reg.pose_rotation_robust_fitting_error
      ∧ reg.sim_to_center =
          { pose_ := { rotation_ := Mat3.Identity
                       center_ := poseCentroid (ApplySimilarity sim s false).poses }
            scale_ := 1 }
      ∧ s1 = ApplySimilarity reg.sim_to_center (ApplySimilarity sim s false) true := by
  unfold registerPriors at h
  split_ifs at h with h1
  · cases hc : collectCorrespondences ext.libm s s.views with
    | error e => simp [hc, bind, Except.bind] at h
    | ok c =>
      simp only [hc, bind, Except.bind] at h
      split_ifs at h with h2
      · cases hl : ext.LeastMedianOfSquares c.X_SfM c.X_GPS with
        | none =>
          simp only [hl, pure, Except.pure] at h
          cases h
          cases hu
        | some r =>
          obtain ⟨med, sim⟩ := r
          simp only [hl] at h
          split at h
          · cases h
          · rename_i e1 he1
            split at h
            · cases h
            · rename_i e2 he2
              simp only [pure, Except.pure] at h
              cases h
              exact ⟨c, med, sim, rfl, h2, hl, he1, he2, rfl, rfl⟩
      · simp only [pure, Except.pure] at h
        cases h
        cases hu
  · simp only [pure, Except.pure] at h
    cases h
    cases hu

/-- C13, counterexample: in `noisyPriorScene` the estimator yields `shiftX`; the sorted
residual norms of the aligned position correspondences are 0, 0, 0, 2, 2, 2 and their
median, the value the registration keeps, is 2; the Huber loss of each of the six
position-prior residual blocks has the parameter 4, its square. -/
theorem Adjust_prior_loss_parameter_is_not_the_median :
    registerPriors (Examples.externalsSqrt true (some (4, Examples.shiftX)))
        (Examples.options .NONE true) Examples.noisyPriorScene
      = .ok ({ pose_center_robust_fitting_error := 2
               pose_rotation_robust_fitting_error := 0
               sim_to_center := Examples.centeringNoisy
               b_usable_prior := true }, Examples.noisyPriorSceneCentered)
    ∧ (collectCorrespondences Examples.libmSqrt Examples.noisyPriorScene
          Examples.noisyPriorScene.views).map
        (fun cs => (alignedPositionResiduals Examples.libmSqrt Examples.shiftX cs,
          sortedMiddle (alignedPositionResiduals Examples.libmSqrt Examples.shiftX cs)))
      = .ok ([0, 0, 0, 2, 2, 2], .ok 2)
    ∧ (buildProblem (Examples.externalsSqrt true (some (4, Examples.shiftX)))
          Examples.ceres_options (Examples.options .NONE true)
          { pose_center_robust_fitting_error := 2
            pose_rotation_robust_fitting_error := 0
            sim_to_center := Examples.centeringNoisy
            b_usable_prior := true } Examples.noisyPriorSceneCentered).map
        (fun built => positionPriorLossParameters built.problem)
      = .ok [4, 4, 4, 4, 4, 4] := by
  refine ⟨?_, ?_, ?_⟩
  · decide!
  · decide!
  · decide!

/-- C13, amended: when the registration succeeds, the fitting errors it keeps are the
median of the residual norms of the aligned position correspondences and the median of
the squared residuals of the orientation correspondences (the cell `size/2` of the sorted
vector), and in the problem handed to the solver the Huber loss of every position-prior
residual block has the square of the first as its parameter, that of every
orientation-prior residual block the square of the second. -/
theorem Adjust_prior_loss_parameters (ext : Externals α) (c : BA_Ceres_options α)
    (o : Optimize_Options α) (s : SfM_Data α) (reg : PriorRegistration α) (s1 : SfM_Data α)
    (built : BuiltProblem α) (hr : registerPriors ext o s = .ok (reg, s1))
    (hu : reg.b_usable_prior = true) (hb : buildProblem ext c o reg s1 = .ok built) :
    (∃ cs med sim,
      collectCorrespondences ext.libm s s.views = .ok cs
      ∧ ext.LeastMedianOfSquares cs.X_SfM cs.X_GPS = some (med, sim)
      ∧ sortedMiddle (alignedPositionResiduals ext.libm sim cs)
          = .ok reg.pose_center_robust_fitting_error
      ∧ sortedMiddle (orientationResiduals cs) = .ok reg.pose_rotation_robust_fitting_error)
    ∧ (∀ f loss_function blocks,
        ProblemCall.AddResidualBlock (.pose_center f) loss_function blocks ∈ built.problem →
        loss_function = some (.HuberLoss (reg.pose_center_robust_fitting_error
          * reg.pose_center_robust_fitting_error)))
    ∧ (∀ f loss_function blocks,
        ProblemCall.AddResidualBlock (.pose_rotation f) loss_function blocks ∈ built.problem →
        loss_function = some (.HuberLoss (reg.pose_rotation_robust_fitting_error
          * reg.pose_rotation_robust_fitting_error))) := by
  obtain ⟨cs, med, sim, hcs, -, hl, h1, h2, -, -⟩ := registerPriors_usable ext o s reg s1 hr hu
  refine ⟨⟨cs, med, sim, hcs, hl, h1, h2⟩, ?_, ?_⟩
  · intro f loss blocks hmem
    rcases buildProblem_residual_block ext c o reg s1 built hb _ _ _ hmem with
      ⟨functor, x, id, front, hcf, -⟩ | ⟨functor, x, id, front, -, hcf, -⟩ | ⟨k, -, -, hcase⟩
    · cases hcf
    · cases hcf
    · rcases hcase with ⟨f', hcf, hloss⟩ | ⟨f', hcf, -⟩
      · exact hloss
      · cases hcf
  · intro f loss blocks hmem
    rcases buildProblem_residual_block ext c o reg s1 built hb _ _ _ hmem with
      ⟨functor, x, id, front, hcf, -⟩ | ⟨functor, x, id, front, -, hcf, -⟩ | ⟨k, -, -, hcase⟩
    · cases hcf
    · cases hcf
    · rcases hcase with ⟨f', hcf, -⟩ | ⟨f', hcf, hloss⟩
      · cases hcf
      · exact hloss

/-- C13, witness: `priorScene`, where the registration by `shiftX` fits every position
prior: both fitting errors are 0. -/
theorem Adjust_prior_loss_parameters_witness :
    ∃ built,
      buildProblem (Examples.externals true (some (0, Examples.shiftX)))
          Examples.ceres_options (Examples.options .NONE true)
          { pose_center_robust_fitting_error := 0
            pose_rotation_robust_fitting_error := 0
            sim_to_center := Examples.centering
            b_usable_prior := true } Examples.priorSceneCentered = .ok built
      ∧ ∀ f loss_function blocks,
          ProblemCall.AddResidualBlock (.pose_center f) loss_function blocks ∈ built.problem →
          loss_function = some (.HuberLoss (0 * 0)) := by
  cases hb : buildProblem (Examples.externals true (some (0, Examples.shiftX)))
      Examples.ceres_options (Examples.options .NONE true)
      { pose_center_robust_fitting_error := 0
        pose_rotation_robust_fitting_error := 0
        sim_to_center := Examples.centering
        b_usable_prior := true } Examples.priorSceneCentered with
  | error e =>
    exact absurd hb (by
      intro h
      have : (buildProblem (Examples.externals true (some (0, Examples.shiftX)))
        Examples.ceres_options (Examples.options .NONE true)
        { pose_center_robust_fitting_error := 0
          pose_rotation_robust_fitting_error := 0
          sim_to_center := Examples.centering
          b_usable_prior := true } Examples.priorSceneCentered).toBool = true := by decide!
      rw [h] at this
      cases this)
  | ok built =>
    exact ⟨built, rfl,
      (Adjust_prior_loss_parameters (Examples.externals true (some (0, Examples.shiftX)))
        Examples.ceres_options (Examples.options .NONE true) Examples.priorScene _
        Examples.priorSceneCentered built (by decide!) rfl hb).2.1⟩

/-! ## Position priors without orientation priors -/

theorem viewCorrespondences_lengths (m : Libm α) (s : SfM_Data α) (view_it : IndexT × View α) :
    ∃ c, viewCorrespondences m s view_it.2 = .ok c
      ∧ c.X_SfM.length = c.X_GPS.length
      ∧ c.X_GPS.length = ([view_it].filter (fun view_it =>
          match view_it.2.priors with
          | some prior => s.IsPoseAndIntrinsicDefined view_it.2 && prior.b_use_pose_center_
          | none => false)).length
      ∧ c.R_SfM.length = c.R_GPS.length
      ∧ c.R_GPS.length = ([view_it].filter (fun view_it =>
          match view_it.2.priors with
          | some prior => s.IsPoseAndIntrinsicDefined view_it.2 && prior.b_use_pose_rotation_
          | none => false)).length := by
  unfold viewCorrespondences
  cases hp : view_it.2.priors with
  | none => exact ⟨_, rfl, by simp [hp]⟩
  | some prior =>
    by_cases hdef : s.IsPoseAndIntrinsicDefined view_it.2 = true
    · have hpose : ∃ pose, Hash_Map.at_ s.poses view_it.2.id_pose = .ok pose := by
        unfold SfM_Data.IsPoseAndIntrinsicDefined at hdef
        simp only [Bool.and_eq_true] at hdef
        have hc := hdef.2
        unfold Hash_Map.contains at hc
        unfold Hash_Map.at_
        cases hf : Hash_Map.find s.poses view_it.2.id_pose with
        | none => simp [hf] at hc
        | some pose => exact ⟨pose, rfl⟩
      obtain ⟨pose, hpose⟩ := hpose
      simp only [hdef, if_true, hpose, bind, Except.bind, pure, Except.pure]
      cases hcb : prior.b_use_pose_center_ <;> cases hrb : prior.b_use_pose_rotation_ <;>
        simp [hp, hdef, hcb, hrb]
    · simp only [hdef, if_false]
      exact ⟨_, rfl, by simp [hp, hdef]⟩

/-- The correspondences come in pairs, one pair of positions per view with a usable
position prior and one pair of orientations per view with a usable orientation prior. -/
theorem collectCorrespondences_lengths (m : Libm α) (s : SfM_Data α)
    (views : List (IndexT × View α)) :
    ∃ c, collectCorrespondences m s views = .ok c
      ∧ c.X_SfM.length = c.X_GPS.length
      ∧ c.X_GPS.length = (views.filter (fun view_it =>
          match view_it.2.priors with
          | some prior => s.IsPoseAndIntrinsicDefined view_it.2 && prior.b_use_pose_center_
          | none => false)).length
      ∧ c.R_SfM.length = c.R_GPS.length
      ∧ c.R_GPS.length = (views.filter (fun view_it =>
          match view_it.2.priors with
          | some prior => s.IsPoseAndIntrinsicDefined view_it.2 && prior.b_use_pose_rotation_
          | none => false)).length := by
  induction views with
  | nil => exact ⟨_, rfl, rfl, rfl, rfl, rfl⟩
  | cons hd tl ih =>
    obtain ⟨c, hc, h1, h2, h3, h4⟩ := viewCorrespondences_lengths m s hd
    obtain ⟨cs, hcs, hs1, hs2, hs3, hs4⟩ := ih
    refine ⟨⟨c.X_SfM ++ cs.X_SfM, c.X_GPS ++ cs.X_GPS, c.R_SfM ++ cs.R_SfM,
      c.R_GPS ++ cs.R_GPS⟩, ?_, ?_, ?_, ?_, ?_⟩
    · simp only [collectCorrespondences, hc, hcs, bind, Except.bind, pure, Except.pure]
    · simp only [List.length_append, h1, hs1]
    · simp only [List.length_append, h2, hs2]
      rw [← List.length_append, ← List.filter_append]
      rfl
    · simp only [List.length_append, h3, hs3]
    · simp only [List.length_append, h4, hs4]
      rw [← List.length_append, ← List.filter_append]
      rfl

theorem coeff_of_lt (v : List α) (i : Nat) (h : i < v.length) : ∃ x, coeff v i = .ok x := by
  unfold coeff
  cases hg : v.get? i with
  | none =>
    rw [List.get?_eq_none] at hg
    omega
  | some x => exact ⟨x, rfl⟩

/-- With at least four usable position priors, no usable orientation prior and a model
from the estimator, the registration block ends in the read `residual_R(0)` of the empty
vector `residual_R`, and so does `Adjust`. -/
theorem Adjust_without_orientation_prior (ext : Externals α) (c : BA_Ceres_options α)
    (s : SfM_Data α) (o : Optimize_Options α) (ho : o.use_motion_priors_opt = true)
    (hp : (usablePositionPriors s).length ≥ 4) (hr : usableOrientationPriors s = [])
    (hl : ∀ cs, collectCorrespondences ext.libm s s.views = .ok cs →
      (ext.LeastMedianOfSquares cs.X_SfM cs.X_GPS).isSome = true) :
    registerPriors ext o s = .error .index_out_of_bounds
    ∧ Adjust ext c s o = .fault .index_out_of_bounds := by
  have hreg : registerPriors ext o s = .error .index_out_of_bounds := by
    obtain ⟨cs, hcs, h1, h2, h3, h4⟩ := collectCorrespondences_lengths ext.libm s s.views
    change cs.X_GPS.length = (usablePositionPriors s).length at h2
    change cs.R_GPS.length = (usableOrientationPriors s).length at h4
    have hviews : s.views.length > 3 := by
      have : (usablePositionPriors s).length ≤ s.views.length := List.length_filter_le _ _
      omega
    have hX : cs.X_GPS.length > 3 := by omega
    have hRG : cs.R_GPS = [] := by
      rw [hr] at h4
      exact List.length_eq_zero.mp h4
    have hRS : cs.R_SfM = [] := by
      rw [hRG] at h3
      exact List.length_eq_zero.mp h3
    have hsome := hl cs hcs
    cases hlm : ext.LeastMedianOfSquares cs.X_SfM cs.X_GPS with
    | none => rw [hlm] at hsome; cases hsome
    | some r =>
      obtain ⟨med, sim⟩ := r
      have hlen : ((alignedPositionResiduals ext.libm sim cs).insertionSort (· ≤ ·)).length
          = cs.X_GPS.length := by
        unfold alignedPositionResiduals
        rw [List.length_insertionSort, List.length_zipWith, List.length_map, h1]
        exact Nat.min_self _
      obtain ⟨x, hx⟩ : ∃ x, sortedMiddle (alignedPositionResiduals ext.libm sim cs) = .ok x :=
        coeff_of_lt _ _ (by rw [hlen]; omega)
      unfold sortedMiddle alignedPositionResiduals at hx
      unfold registerPriors
      simp only [ho, hviews, decide_True, Bool.and_self, if_true, hcs, bind, Except.bind, hX,
        hlm, hx, hRS, hRG, List.zipWith_nil_left, List.insertionSort, List.length_nil,
        Nat.zero_div]
      rfl
  refine ⟨hreg, ?_⟩
  unfold Adjust
  rw [hreg]

/-- The scene `positionPriorScene` ends in the read past the end of `residual_R`. -/
theorem Adjust_without_orientation_prior_witness :
    (usablePositionPriors Examples.positionPriorScene).length ≥ 4
    ∧ usableOrientationPriors Examples.positionPriorScene = []
    ∧ Adjust (Examples.externals true (some (0, Examples.shiftX))) Examples.ceres_options
        Examples.positionPriorScene (Examples.options .ADJUST_ALL true)
      = .fault .index_out_of_bounds :=
  ⟨by decide!, by decide!,
    (Adjust_without_orientation_prior (Examples.externals true (some (0, Examples.shiftX)))
      Examples.ceres_options Examples.positionPriorScene (Examples.options .ADJUST_ALL true)
      rfl (by decide!) (by decide!) (fun _ _ => rfl)).2⟩

/-- C14, at `positionPriorScene`: four views with a usable position prior, none with a
usable orientation prior, and an estimator that yields the model `shiftX` with the median
0.  The vector `residual_R` is empty and the median look-up `residual_R(0)` reads past its
end: the registration block does not complete and `Adjust` adds no prior residual. -/
theorem Adjust_position_priors_only_reads_out_of_bounds :
    (usablePositionPriors Examples.positionPriorScene).length = 4
    ∧ usableOrientationPriors Examples.positionPriorScene = []
    ∧ (collectCorrespondences Examples.libm Examples.positionPriorScene
          Examples.positionPriorScene.views).map
        (fun cs => (orientationResiduals cs, sortedMiddle (orientationResiduals cs)))
      = .ok ([], .error .index_out_of_bounds)
    ∧ registerPriors (Examples.externals true (some (0, Examples.shiftX)))
        (Examples.options .NONE true) Examples.positionPriorScene
      = .error .index_out_of_bounds
    ∧ Adjust (Examples.externals true (some (0, Examples.shiftX))) Examples.ceres_options
        Examples.positionPriorScene (Examples.options .NONE true)
      = .fault .index_out_of_bounds := by
  refine ⟨?_, ?_, ?_, ?_, ?_⟩
  · decide!
  · decide!
  · decide!
  · decide!
  · decide!

/-! ## The re-centering -/

theorem poseCentroid_fold (d : α) (poses : Hash_Map (Pose3 α)) (acc : Vec3 α) :
    poses.foldl (fun pose_centroid pose_it => pose_centroid + Vec3.sdiv pose_it.2.center d) acc
      = acc + Vec3.sdiv ⟨(poses.map (fun pose_it => pose_it.2.center.x)).sum,
                         (poses.map (fun pose_it => pose_it.2.center.y)).sum,
                         (poses.map (fun pose_it => pose_it.2.center.z)).sum⟩ d := by
  induction poses generalizing acc with
  | nil =>
    obtain ⟨a0, a1, a2⟩ := acc
    simp [Vec3.add_def, Vec3.sdiv]
  | cons hd tl ih =>
    rw [List.foldl_cons, ih]
    simp only [List.map_cons, List.sum_cons, Vec3.add_def, Vec3.sdiv, add_div, add_assoc]

/-- The loop that accumulates `pose_centroid` computes the mean of the pose centers. -/
theorem poseCentroid_eq_mean (poses : Hash_Map (Pose3 α)) :
    poseCentroid poses = meanPoseCenter poses := by
  unfold poseCentroid meanPoseCenter
  rw [poseCentroid_fold]
  simp [Vec3.add_def, Vec3.zero_def, Vec3.sdiv]

theorem sum_map_sub_const {β : Type} (l : List β) (f : β → α) (a : α) :
    (l.map (fun b => f b - a)).sum = (l.map f).sum - (l.length : α) * a := by
  induction l with
  | nil => simp
  | cons hd tl ih =>
    simp only [List.map_cons, List.sum_cons, ih, List.length_cons, Nat.cast_add, Nat.cast_one]
    ring

/-- Once a non-empty set of poses is moved by the similarity of unit scale and identity
rotation centred on the mean of its centers, the mean of its centers is zero. -/
theorem meanPoseCenter_centered (poses : Hash_Map (Pose3 α)) (hne : poses ≠ []) :
    meanPoseCenter (poses.map (fun pose_it =>
      (pose_it.1, Similarity3.applyPose
        { pose_ := { rotation_ := Mat3.Identity, center_ := meanPoseCenter poses }
          scale_ := (1 : α) } pose_it.2))) = 0 := by
  have hn : (poses.length : α) ≠ 0 := by
    have : poses.length ≠ 0 := fun h => hne (List.length_eq_zero.mp h)
    exact_mod_cast this
  unfold meanPoseCenter
  simp only [List.map_map, List.length_map, Function.comp_def, Similarity3.applyPose,
    Similarity3.applyPoint_centering, Pose3.center, Vec3.sub_def, Vec3.sdiv,
    sum_map_sub_const, Vec3.zero_def]
  congr 1 <;> field_simp

/-- A registration that succeeds is that of a scene with poses. -/
theorem registerPriors_usable_poses (ext : Externals α) (o : Optimize_Options α)
    (s : SfM_Data α) (reg : PriorRegistration α) (s1 : SfM_Data α)
    (h : registerPriors ext o s = .ok (reg, s1)) (hu : reg.b_usable_prior = true) :
    s.poses ≠ [] := by
  obtain ⟨cs, med, sim, hcs, hX, -⟩ := registerPriors_usable ext o s reg s1 h hu
  obtain ⟨cs', hcs', -, h2, -, -⟩ := collectCorrespondences_lengths ext.libm s s.views
  rw [hcs] at hcs'
  cases hcs'
  rw [h2] at hX
  obtain ⟨view_it, hmem⟩ :=
    List.exists_mem_of_length_pos (Nat.lt_of_lt_of_le (by decide : 0 < 4) hX)
  have hpred := (List.mem_filter.mp hmem).2
  intro hnil
  cases hp : view_it.2.priors with
  | none => simp [hp] at hpred
  | some prior =>
    simp only [hp, Bool.and_eq_true] at hpred
    have hdef := hpred.1
    unfold SfM_Data.IsPoseAndIntrinsicDefined at hdef
    simp only [Bool.and_eq_true] at hdef
    have hc := hdef.2
    rw [hnil] at hc
    simp [Hash_Map.contains, Hash_Map.find] at hc

/-- C15: when the registration succeeds, the re-centering transform `sim_to_center` has
the identity rotation, the scale 1 and, as its center, the mean of the pose centers of the
scene aligned by the model `sim` of the estimator (a scene that has poses); and in the
scene the registration block leaves, the centroid of the pose centers, as the mean and as
the loop of the source computes it, is the zero vector. -/
theorem registerPriors_recenters (ext : Externals α) (o : Optimize_Options α)
    (s : SfM_Data α) (reg : PriorRegistration α) (s1 : SfM_Data α)
    (h : registerPriors ext o s = .ok (reg, s1)) (hu : reg.b_usable_prior = true) :
    ∃ sim : Similarity3 α,
      s1 = ApplySimilarity reg.sim_to_center (ApplySimilarity sim s false) true
      ∧ (ApplySimilarity sim s false).poses ≠ []
      ∧ reg.sim_to_center =
          { pose_ := { rotation_ := Mat3.Identity
                       center_ := meanPoseCenter (ApplySimilarity sim s false).poses }
            scale_ := 1 }
      ∧ meanPoseCenter s1.poses = 0
      ∧ poseCentroid s1.poses = 0 := by
  obtain ⟨cs, med, sim, -, -, -, -, -, hstc, hs1⟩ := registerPriors_usable ext o s reg s1 h hu
  have hne : (ApplySimilarity sim s false).poses ≠ [] := by
    have := registerPriors_usable_poses ext o s reg s1 h hu
    simpa [ApplySimilarity] using this
  rw [poseCentroid_eq_mean] at hstc
  have hmean : meanPoseCenter s1.poses = 0 := by
    rw [hs1, hstc]
    exact meanPoseCenter_centered (ApplySimilarity sim s false).poses hne
  exact ⟨sim, hs1, hne, hstc, hmean, by rw [poseCentroid_eq_mean]; exact hmean⟩

/-- C15, witness: `priorScene` registered by `shiftX`; the mean of the registered pose
centers is `(5/4, 1/4, 1/4)`. -/
theorem registerPriors_recenters_witness :
    registerPriors (Examples.externals true (some (0, Examples.shiftX)))
        (Examples.options .ADJUST_ALL true) Examples.priorScene
      = .ok ({ pose_center_robust_fitting_error := 0
               pose_rotation_robust_fitting_error := 0
               sim_to_center := Examples.centering
               b_usable_prior := true }, Examples.priorSceneCentered)
    ∧ meanPoseCenter (ApplySimilarity Examples.shiftX Examples.priorScene false).poses
      = ⟨5 / 4, 1 / 4, 1 / 4⟩
    ∧ ∃ sim : Similarity3 ℚ,
      Examples.priorSceneCentered
        = ApplySimilarity Examples.centering (ApplySimilarity sim Examples.priorScene false) true
      ∧ (ApplySimilarity sim Examples.priorScene false).poses ≠ []
      ∧ Examples.centering =
          { pose_ := { rotation_ := Mat3.Identity
                       center_ := meanPoseCenter
                         (ApplySimilarity sim Examples.priorScene false).poses }
            scale_ := 1 }
      ∧ meanPoseCenter Examples.priorSceneCentered.poses = 0
      ∧ poseCentroid Examples.priorSceneCentered.poses = 0 :=
  ⟨by decide!, by decide!,
    registerPriors_recenters (Examples.externals true (some (0, Examples.shiftX)))
      (Examples.options .ADJUST_ALL true) Examples.priorScene
      { pose_center_robust_fitting_error := 0
        pose_rotation_robust_fitting_error := 0
        sim_to_center := Examples.centering
        b_usable_prior := true } Examples.priorSceneCentered (by decide!) rfl⟩

/-! ## The camera model adapter and the solver options -/

/-- C16: `IntrinsicsToCostFunction` returns the residual unit of the matching functor, on
the observation and with the weight it is given, for each of the six camera types, and no
residual unit for every other type tag; it returns one exactly for the valid types. -/
theorem IntrinsicsToCostFunction_by_type (observation : Vec2 α) (weight : α) :
    (∀ params, IntrinsicsToCostFunction ⟨.PINHOLE_CAMERA, params⟩ observation weight
        = some (.reprojection .Pinhole_Intrinsic observation weight))
    ∧ (∀ params, IntrinsicsToCostFunction ⟨.PINHOLE_CAMERA_RADIAL1, params⟩ observation weight
        = some (.reprojection .Pinhole_Intrinsic_Radial_K1 observation weight))
    ∧ (∀ params, IntrinsicsToCostFunction ⟨.PINHOLE_CAMERA_RADIAL3, params⟩ observation weight
        = some (.reprojection .Pinhole_Intrinsic_Radial_K3 observation weight))
    ∧ (∀ params, IntrinsicsToCostFunction ⟨.PINHOLE_CAMERA_BROWN, params⟩ observation weight
        = some (.reprojection .Pinhole_Intrinsic_Brown_T2 observation weight))
    ∧ (∀ params, IntrinsicsToCostFunction ⟨.PINHOLE_CAMERA_FISHEYE, params⟩ observation weight
        = some (.reprojection .Pinhole_Intrinsic_Fisheye observation weight))
    ∧ (∀ params, IntrinsicsToCostFunction ⟨.CAMERA_SPHERICAL, params⟩ observation weight
        = some (.reprojection .Intrinsic_Spherical observation weight))
    ∧ (∀ tag params, IntrinsicsToCostFunction ⟨.UNRECOGNIZED tag, params⟩ observation weight
        = none)
    ∧ (∀ intrinsic : IntrinsicBase α,
        (IntrinsicsToCostFunction intrinsic observation weight).isSome
          = isValid intrinsic.getType) := by
  refine ⟨fun _ => rfl, fun _ => rfl, fun _ => rfl, fun _ => rfl, fun _ => rfl, fun _ => rfl,
    fun _ _ => rfl, ?_⟩
  intro intrinsic
  obtain ⟨type, params⟩ := intrinsic
  cases type <;> rfl

/-- C17, with CXSparse as the only sparse backend of Ceres: the constructor never asks for
`CX_SPARSE`; the solver stays `DENSE_SCHUR` and no sparse library is set.  With CXSparse
and Eigen (and no SuiteSparse) it takes `EIGEN_SPARSE`, the last of the order
"SUITE_SPARSE > CX_SPARSE > EIGEN_SPARSE" its comment states. -/
theorem BA_Ceres_options_ignores_CX_SPARSE :
    (BA_Ceres_options.create (α := ℚ) (fun type => decide (type = .CX_SPARSE)) none
        false false).linear_solver_type_ = .DENSE_SCHUR
    ∧ (BA_Ceres_options.create (α := ℚ) (fun type => decide (type = .CX_SPARSE)) none
        false false).sparse_linear_algebra_library_type_ = none
    ∧ (BA_Ceres_options.create (α := ℚ) (fun type => decide (type ≠ .SUITE_SPARSE)) none
        false false).linear_solver_type_ = .SPARSE_SCHUR
    ∧ (BA_Ceres_options.create (α := ℚ) (fun type => decide (type ≠ .SUITE_SPARSE)) none
        false false).sparse_linear_algebra_library_type_ = some .EIGEN_SPARSE := by
  refine ⟨?_, ?_, ?_, ?_⟩ <;> rfl

/-- The linear solver the options constructor selects: sparse Schur on SuiteSparse when it
is available, else sparse Schur on Eigen when that is available, else dense Schur; the
availability of CXSparse is not read. -/
theorem BA_Ceres_options_linear_solver
    (IsSparseLinearAlgebraLibraryTypeAvailable : SparseLinearAlgebraLibraryType → Bool)
    (omp_get_max_threads : Option Nat) (bVerbose bmultithreaded : Bool) :
    ((BA_Ceres_options.create (α := α) IsSparseLinearAlgebraLibraryTypeAvailable
          omp_get_max_threads bVerbose bmultithreaded).linear_solver_type_,
      (BA_Ceres_options.create (α := α) IsSparseLinearAlgebraLibraryTypeAvailable
          omp_get_max_threads bVerbose bmultithreaded).sparse_linear_algebra_library_type_)
      = if IsSparseLinearAlgebraLibraryTypeAvailable .SUITE_SPARSE then
          (.SPARSE_SCHUR, some .SUITE_SPARSE)
        else if IsSparseLinearAlgebraLibraryTypeAvailable .EIGEN_SPARSE then
          (.SPARSE_SCHUR, some .EIGEN_SPARSE)
        else (.DENSE_SCHUR, none) := by
  unfold BA_Ceres_options.create
  cases IsSparseLinearAlgebraLibraryTypeAvailable .SUITE_SPARSE <;>
    cases IsSparseLinearAlgebraLibraryTypeAvailable .EIGEN_SPARSE <;> rfl

end sfm

/-! ## The K matrix string of the image listing tool -/

section KmatrixString

variable {α : Type}

/-- The loop over the fields ends with true exactly when every field reads as a number. -/
theorem readKmatrixFields_valid (read : String → Option α) (vec_str : List String) (i : Nat)
    (focal ppx ppy : α) :
    (readKmatrixFields read vec_str i focal ppx ppy).valid = true
      ↔ ∀ str ∈ vec_str, (read str).isSome = true := by
  induction vec_str generalizing i focal ppx ppy with
  | nil => simp [readKmatrixFields]
  | cons hd tl ih =>
    unfold readKmatrixFields
    cases hr : read hd with
    | none => simp [hr]
    | some readvalue => simp [hr, ih]

/-- C18, counterexample: the string `"1;2;3;4;5;6;7;8;9"` has nine fields that read as
numbers and is not of the documented shape (its fields 1, 3, 6, 7 are not zero, the field
4 is not the field 0, the field 8 is not one); `checkIntrinsicStringValidity` returns true
on it, with focal 1, ppx 3 and ppy 6. -/
theorem checkIntrinsicStringValidity_accepts_nine_numbers :
    Examples.split "1;2;3;4;5;6;7;8;9" = ["1", "2", "3", "4", "5", "6", "7", "8", "9"]
    ∧ KmatrixShape Examples.split Examples.read "1;2;3;4;5;6;7;8;9" = false
    ∧ checkIntrinsicStringValidity Examples.split Examples.read "1;2;3;4;5;6;7;8;9" 0 0 0
      = ⟨true, 1, 3, 6⟩ := by
  refine ⟨?_, ?_, ?_⟩
  · decide
  · decide!
  · decide!

/-- C18, amended: `checkIntrinsicStringValidity` returns true exactly when the string
splits into nine fields and each of them reads as a number, whatever the numbers are; on
a true return `focal`, `ppx` and `ppy` are the numbers read from the fields 0, 2 and 5. -/
theorem checkIntrinsicStringValidity_iff (split : String → List String)
    (read : String → Option α) (Kmatrix : String) (focal ppx ppy : α) :
    ((checkIntrinsicStringValidity split read Kmatrix focal ppx ppy).valid = true
      ↔ (split Kmatrix).length = 9 ∧ ∀ str ∈ split Kmatrix, (read str).isSome = true)
    ∧ ((checkIntrinsicStringValidity split read Kmatrix focal ppx ppy).valid = true →
        ((split Kmatrix).get? 0).bind read
          = some (checkIntrinsicStringValidity split read Kmatrix focal ppx ppy).focal
        ∧ ((split Kmatrix).get? 2).bind read
          = some (checkIntrinsicStringValidity split read Kmatrix focal ppx ppy).ppx
        ∧ ((split Kmatrix).get? 5).bind read
          = some (checkIntrinsicStringValidity split read Kmatrix focal ppx ppy).ppy) := by
  have hiff : (checkIntrinsicStringValidity split read Kmatrix focal ppx ppy).valid = true
      ↔ (split Kmatrix).length = 9 ∧ ∀ str ∈ split Kmatrix, (read str).isSome = true := by
    unfold checkIntrinsicStringValidity
    by_cases hlen : (split Kmatrix).length = 9
    · simp only [hlen, ne_eq, not_true_eq_false, if_false, true_and]
      exact readKmatrixFields_valid read _ 0 focal ppx ppy
    · simp [hlen]
  refine ⟨hiff, fun hvalid => ?_⟩
  obtain ⟨hlen, hall⟩ := hiff.mp hvalid
  unfold checkIntrinsicStringValidity
  simp only [hlen, ne_eq, not_true_eq_false, if_false]
  match hv : split Kmatrix, hlen with
  | [a0, a1, a2, a3, a4, a5, a6, a7, a8], _ =>
    rw [hv] at hall
    obtain ⟨v0, h0⟩ := Option.isSome_iff_exists.mp (hall a0 (by simp))
    obtain ⟨v1, h1⟩ := Option.isSome_iff_exists.mp (hall a1 (by simp))
    obtain ⟨v2, h2⟩ := Option.isSome_iff_exists.mp (hall a2 (by simp))
    obtain ⟨v3, h3⟩ := Option.isSome_iff_exists.mp (hall a3 (by simp))
    obtain ⟨v4, h4⟩ := Option.isSome_iff_exists.mp (hall a4 (by simp))
    obtain ⟨v5, h5⟩ := Option.isSome_iff_exists.mp (hall a5 (by simp))
    obtain ⟨v6, h6⟩ := Option.isSome_iff_exists.mp (hall a6 (by simp))
    obtain ⟨v7, h7⟩ := Option.isSome_iff_exists.mp (hall a7 (by simp))
    obtain ⟨v8, h8⟩ := Option.isSome_iff_exists.mp (hall a8 (by simp))
    simp [readKmatrixFields, h0, h1, h2, h3, h4, h5, h6, h7, h8]

/-- C18, witness: a string of the documented shape, with f = 7, ppx = 3 and ppy = 4. -/
theorem checkIntrinsicStringValidity_iff_witness :
    checkIntrinsicStringValidity Examples.split Examples.read "7;0;3;0;7;4;0;0;1" 0 0 0
      = ⟨true, 7, 3, 4⟩
    ∧ KmatrixShape Examples.split Examples.read "7;0;3;0;7;4;0;0;1" = true
    ∧ ((Examples.split "7;0;3;0;7;4;0;0;1").length = 9
        ∧ ∀ str ∈ Examples.split "7;0;3;0;7;4;0;0;1", (Examples.read str).isSome = true) :=
  ⟨by decide!, by decide!,
    (checkIntrinsicStringValidity_iff Examples.split Examples.read "7;0;3;0;7;4;0;0;1"
      0 0 0).1.mp (by decide!)⟩

end KmatrixString

namespace sfm

open geometry cameras

variable {α : Type} [LinearOrderedField α]

/-! ## The pose block of the prior residuals -/

/-- C21, at `swappedPoseScene`, whose views 0, 1, 2, 3 are posed by the poses 1, 0, 3, 2.
The registration pairs the prior of each view with the center of the pose `id_pose` of the
view; the loop that adds the prior residuals attaches the two residuals of each view to
the block of the pose whose key is `id_view`: those of the view 0 to the block of the pose
0, which is the pose of the view 1.  At `offsetPoseScene`, whose poses have the keys 10 to
13, no pose has the key of a view and `Adjust` ends in the `std::out_of_range` of
`map_poses.at(prior->id_view)`. -/
theorem Adjust_prior_residuals_on_view_key :
    Examples.swappedPoseScene.views.map (fun view_it => (view_it.2.id_view, view_it.2.id_pose))
      = [(0, 1), (1, 0), (2, 3), (3, 2)]
    ∧ (collectCorrespondences Examples.libm Examples.swappedPoseScene
          Examples.swappedPoseScene.views).map (fun cs => cs.X_SfM)
      = .ok [⟨1, 0, 0⟩, ⟨0, 0, 0⟩, ⟨0, 0, 1⟩, ⟨0, 1, 0⟩]
    ∧ registerPriors (Examples.externals true (some (0, Examples.shiftX)))
        (Examples.options .NONE true) Examples.swappedPoseScene
      = .ok ({ pose_center_robust_fitting_error := 0
               pose_rotation_robust_fitting_error := 0
               sim_to_center := Examples.centering
               b_usable_prior := true }, Examples.swappedPoseSceneCentered)
    ∧ (usablePriorResiduals
          { pose_center_robust_fitting_error := 0
            pose_rotation_robust_fitting_error := 0
            sim_to_center := Examples.centering
            b_usable_prior := true } Examples.swappedPoseSceneCentered
          (setupPoses Examples.rotation .NONE Examples.swappedPoseSceneCentered.poses).1).map
        (fun calls => calls.map ProblemCall.blocks)
      = .ok [[.pose 0], [.pose 0], [.pose 1], [.pose 1], [.pose 2], [.pose 2], [.pose 3],
             [.pose 3]]
    ∧ Adjust (Examples.externals true (some (0, Examples.shiftX))) Examples.ceres_options
        Examples.offsetPoseScene (Examples.options .NONE true) = .fault .out_of_range := by
  refine ⟨?_, ?_, ?_, ?_, ?_⟩
  · decide
  · decide!
  · decide!
  · decide!
  · decide!

/-- The prior residual blocks of the problem are those of the views with a usable prior,
each on the one block of the pose whose key is the `id_view` of the view, with the prior
of the view in its cost function. -/
theorem buildProblem_prior_residual_blocks (ext : Externals α) (c : BA_Ceres_options α)
    (o : Optimize_Options α) (reg : PriorRegistration α) (s : SfM_Data α)
    (built : BuiltProblem α) (h : buildProblem ext c o reg s = .ok built) :
    ∀ cost_function loss_function blocks,
      ProblemCall.AddResidualBlock cost_function loss_function blocks ∈ built.problem →
      ((∃ f, cost_function = .pose_center f) ∨ (∃ f, cost_function = .pose_rotation f)) →
      ∃ view_it ∈ s.views, ∃ prior, view_it.2.priors = some prior
        ∧ blocks = [.pose view_it.2.id_view]
        ∧ ((prior.b_use_pose_center_ = true ∧ cost_function = .pose_center
              { weight_ := prior.center_weight_, pose_center_constraint_ := prior.pose_center_ })
          ∨ (prior.b_use_pose_rotation_ = true ∧ cost_function = .pose_rotation
              { weight_ := prior.rotation_weight_
                pose_rotation_constraint_ := prior.pose_rotation_ })) := by
  obtain ⟨landmarks, gcps, priors, hl, hg, hp, hproblem⟩ := buildProblem_ok ext c o reg s built h
  intro cf loss blocks hmem hprior
  rw [hproblem] at hmem
  simp only [List.mem_append] at hmem
  rcases hmem with (((h1 | h2) | h3) | h4) | h5
  · exact absurd rfl ((setupPoses_blocks _ _ _ _ h1).2 _ _ _)
  · exact absurd rfl ((setupIntrinsics_blocks _ _ _ _ h2).2 _ _ _)
  · rcases (landmarkResiduals_calls _ _ _ _ _ _ _ hl).1 _ h3 with
      ⟨it, -, obs_it, -, functor, front, heq, -⟩ | ⟨it, -, heq⟩
    · cases heq
      rcases hprior with ⟨f, hf⟩ | ⟨f, hf⟩ <;> cases hf
    · cases heq
  · unfold controlPointResiduals at hg
    split_ifs at hg
    · rcases (gcpResiduals_calls _ _ _ _ _ _ hg).1 _ h4 with
        ⟨it, -, obs_it, -, functor, front, heq, -⟩ | ⟨it, -, -, heq⟩
      · cases heq
        rcases hprior with ⟨f, hf⟩ | ⟨f, hf⟩ <;> cases hf
      · cases heq
    · simp only [pure, Except.pure] at hg
      cases hg
      cases h4
  · unfold usablePriorResiduals at hp
    split_ifs at hp
    · obtain ⟨view_it, hview, c1, hc1, hin1⟩ := priorResiduals_calls _ _ _ _ _ hp _ h5
      obtain ⟨prior, hpr, hcase⟩ := viewPriorResiduals_calls _ _ _ _ _ hc1 _ hin1
      refine ⟨view_it, hview, prior, hpr, ?_⟩
      rcases hcase with ⟨hb, heq⟩ | ⟨hb, heq⟩
      · cases heq
        exact ⟨rfl, Or.inl ⟨hb, rfl⟩⟩
      · cases heq
        exact ⟨rfl, Or.inr ⟨hb, rfl⟩⟩
    · simp only [pure, Except.pure] at hp
      cases hp
      cases h5

/-- In `priorScene` every view has the key of its pose: the prior residuals are on the
blocks of the poses of their views. -/
theorem buildProblem_prior_residual_blocks_witness :
    ∃ built,
      buildProblem (Examples.externals true (some (0, Examples.shiftX)))
          Examples.ceres_options (Examples.options .NONE true)
          { pose_center_robust_fitting_error := 0
            pose_rotation_robust_fitting_error := 0
            sim_to_center := Examples.centering
            b_usable_prior := true } Examples.priorSceneCentered = .ok built
      ∧ ∀ cost_function loss_function blocks,
        ProblemCall.AddResidualBlock cost_function loss_function blocks ∈ built.problem →
        ((∃ f, cost_function = .pose_center f) ∨ (∃ f, cost_function = .pose_rotation f)) →
        ∃ view_it ∈ Examples.priorSceneCentered.views, ∃ prior,
          view_it.2.priors = some prior
          ∧ blocks = [.pose view_it.2.id_view]
          ∧ ((prior.b_use_pose_center_ = true ∧ cost_function = .pose_center
                { weight_ := prior.center_weight_
                  pose_center_constraint_ := prior.pose_center_ })
            ∨ (prior.b_use_pose_rotation_ = true ∧ cost_function = .pose_rotation
                { weight_ := prior.rotation_weight_
                  pose_rotation_constraint_ := prior.pose_rotation_ })) := by
  cases hb : buildProblem (Examples.externals true (some (0, Examples.shiftX)))
      Examples.ceres_options (Examples.options .NONE true)
      { pose_center_robust_fitting_error := 0
        pose_rotation_robust_fitting_error := 0
        sim_to_center := Examples.centering
        b_usable_prior := true } Examples.priorSceneCentered with
  | error e =>
    exact absurd hb (by
      intro h
      have : (buildProblem (Examples.externals true (some (0, Examples.shiftX)))
        Examples.ceres_options (Examples.options .NONE true)
        { pose_center_robust_fitting_error := 0
          pose_rotation_robust_fitting_error := 0
          sim_to_center := Examples.centering
          b_usable_prior := true } Examples.priorSceneCentered).toBool = true := by decide!
      rw [h] at this
      cases this)
  | ok built =>
    exact ⟨built, rfl,
      buildProblem_prior_residual_blocks (Examples.externals true (some (0, Examples.shiftX)))
        Examples.ceres_options (Examples.options .NONE true) _
        Examples.priorSceneCentered built hb⟩

end sfm

/-! ## The prior weights string of the image listing tool -/

section PriorWeightsString

variable {α : Type}

/-- C24, at the string `"1;2;3;4"`, which splits into four fields: the flag is cleared
and the loop still runs over every field; it writes the components 0, 1 and 2, and for
the fourth field it writes `val.second[3]`, past the end of the three-component vector. -/
theorem checkPriorWeightsString_writes_past_the_end :
    Examples.split "1;2;3;4" = ["1", "2", "3", "4"]
    ∧ readPriorWeights Examples.read ["1", "2", "3"] 0 (false, ⟨0, 0, 0⟩)
      = .ok (false, ⟨1, 2, 3⟩)
    ∧ Vec3.setCoeff (⟨1, 2, 3⟩ : Vec3 ℚ) 3 4 = .error .index_out_of_bounds
    ∧ checkPriorWeightsString Examples.split Examples.read "1;2;3;4"
      = .error .index_out_of_bounds := by
  refine ⟨?_, ?_, ?_, ?_⟩
  · decide
  · decide!
  · rfl
  · decide!

/-- What `checkPriorWeightsString` does, by the number of fields: it writes past the end
of the vector exactly when the string splits into more than three fields, and it returns
the flag true with a vector exactly when the string splits into three fields that all
read as numbers, the vector then holding these numbers in order. -/
theorem checkPriorWeightsString_result [Zero α] (split : String → List String)
    (read : String → Option α) (sWeights : String) :
    (checkPriorWeightsString split read sWeights = .error .index_out_of_bounds
      ↔ 3 < (split sWeights).length)
    ∧ ((∃ val, checkPriorWeightsString split read sWeights = .ok val)
      ↔ (split sWeights).length ≤ 3)
    ∧ ∀ v : Vec3 α, checkPriorWeightsString split read sWeights = .ok (true, v)
      ↔ (split sWeights).map read = [some v.x, some v.y, some v.z] := by
  unfold checkPriorWeightsString
  rcases hs : split sWeights with _ | ⟨a, _ | ⟨b, _ | ⟨c, _ | ⟨d, rest⟩⟩⟩⟩
  · simp [readPriorWeights]
  · cases ha : read a <;> simp [readPriorWeights, Vec3.setCoeff, ha]
  · cases ha : read a <;> cases hb : read b <;>
      simp [readPriorWeights, Vec3.setCoeff, ha, hb]
  · refine ⟨by cases ha : read a <;> cases hb : read b <;> cases hc : read c <;>
        simp [readPriorWeights, Vec3.setCoeff, ha, hb, hc],
      by cases ha : read a <;> cases hb : read b <;> cases hc : read c <;>
        simp [readPriorWeights, Vec3.setCoeff, ha, hb, hc], ?_⟩
    intro v
    obtain ⟨v0, v1, v2⟩ := v
    cases ha : read a <;> cases hb : read b <;> cases hc : read c <;>
      simp [readPriorWeights, Vec3.setCoeff, ha, hb, hc]
  · refine ⟨by cases ha : read a <;> cases hb : read b <;> cases hc : read c <;>
        cases hd : read d <;> simp [readPriorWeights, Vec3.setCoeff, ha, hb, hc, hd],
      by cases ha : read a <;> cases hb : read b <;> cases hc : read c <;>
        cases hd : read d <;> simp [readPriorWeights, Vec3.setCoeff, ha, hb, hc, hd], ?_⟩
    intro v
    cases ha : read a <;> cases hb : read b <;> cases hc : read c <;> cases hd : read d <;>
      simp [readPriorWeights, Vec3.setCoeff, ha, hb, hc, hd]

end PriorWeightsString

namespace sfm

open geometry cameras

variable {α : Type} [LinearOrderedField α]
/-! ## `getAngles` at gimbal lock -/

theorem getAngles_of_gimbal_lock (m : Libm α) (R : Mat3 α) (h : |(|R 0 2| - 1)| < EPS) :
    getAngles m R = { X := m.atan2 (R 2 1) (R 1 1), Y := m.asin (R 0 2), Z := 0 } := by
  simp [getAngles, h]

/-- In the gimbal-lock branch `X` and `Z` are as documented, and `Y` is NaN exactly when
the entry `R(0,2)` exceeds 1 in absolute value. -/
theorem getAngles_gimbal_lock_angles (asin : α → α) (atan2 : α → α → α) (cos sin sqrt : α → α)
    (R : Mat3 α) (h : |(|R 0 2| - 1)| < EPS) :
    (getAngles (Libm.ofTotal asin atan2 cos sin sqrt) R).X = atan2 (R 2 1) (R 1 1)
      ∧ (getAngles (Libm.ofTotal asin atan2 cos sin sqrt) R).Z = 0
      ∧ ((getAngles (Libm.ofTotal asin atan2 cos sin sqrt) R).Y = none ↔ 1 < |R 0 2|) := by
  rw [getAngles_of_gimbal_lock _ _ h]
  refine ⟨rfl, rfl, ?_⟩
  show (if |R 0 2| ≤ 1 then some (asin (R 0 2)) else none) = none ↔ 1 < |R 0 2|
  by_cases h1 : |R 0 2| ≤ 1
  · simp [h1, not_lt.mpr h1]
  · simp [h1, not_le.mp h1]

/-- Witness of `getAngles_gimbal_lock_angles`: the matrix with `R(0,2) = 1` and
`R(1,1) = 1`, over the rationals. -/
theorem getAngles_gimbal_lock_angles_witness :
    |(|(⟨⟨0, 0, 1⟩, ⟨0, 1, 0⟩, ⟨0, 0, 0⟩⟩ : Mat3 ℚ) 0 2| - 1)| < EPS
    ∧ (getAngles (Libm.ofTotal (fun _ => 0) (fun _ _ => 0) (fun _ => 1) (fun _ => 0)
          (fun x => x)) (⟨⟨0, 0, 1⟩, ⟨0, 1, 0⟩, ⟨0, 0, 0⟩⟩ : Mat3 ℚ)).Z = 0 :=
  ⟨by decide!,
    (getAngles_gimbal_lock_angles (fun _ => 0) (fun _ _ => 0) (fun _ => 1) (fun _ => 0)
      (fun x => x) (⟨⟨0, 0, 1⟩, ⟨0, 1, 0⟩, ⟨0, 0, 0⟩⟩ : Mat3 ℚ) (by decide!)).2.1⟩

/-- C9, at the input `R(0,2) = 1.0000005`, `R(1,1) = 1`, all other cells 0: the test of
`getAngles` takes the gimbal-lock branch, `X = atan2(R(2,1), R(1,1))` and `Z = 0`, but
`Y = asin(R(0,2))` has no value (NaN), since `asin` is applied outside `[-1, 1]`. -/
theorem getAngles_gimbal_lock_Y_undefined :
    |(|(⟨⟨0, 0, 1 + 1 / 2000000⟩, ⟨0, 1, 0⟩, ⟨0, 0, 0⟩⟩ : Mat3 ℝ) 0 2| - 1)| < EPS
      ∧ getAngles (Libm.ofTotal Real.arcsin (fun y x => Complex.arg ⟨x, y⟩) Real.cos Real.sin
            Real.sqrt) (⟨⟨0, 0, 1 + 1 / 2000000⟩, ⟨0, 1, 0⟩, ⟨0, 0, 0⟩⟩ : Mat3 ℝ)
          = { X := Complex.arg ⟨1, 0⟩, Y := none, Z := 0 } := by
  have h : |(|(⟨⟨0, 0, 1 + 1 / 2000000⟩, ⟨0, 1, 0⟩, ⟨0, 0, 0⟩⟩ : Mat3 ℝ) 0 2| - 1)| < EPS := by
    show |(|(1 + 1 / 2000000 : ℝ)| - 1)| < 1 / 1000000
    rw [abs_of_pos (by norm_num : (0 : ℝ) < 1 + 1 / 2000000)]
    rw [abs_of_pos (by norm_num : (0 : ℝ) < 1 + 1 / 2000000 - 1)]
    norm_num
  refine ⟨h, ?_⟩
  rw [getAngles_of_gimbal_lock _ _ h]
  have h2 : ¬ |(1 + 1 / 2000000 : ℝ)| ≤ 1 := by
    rw [abs_of_pos (by norm_num : (0 : ℝ) < 1 + 1 / 2000000)]
    norm_num
  have h3 : ¬ |(1 + 2000000⁻¹ : ℝ)| ≤ 1 := by simpa using h2
  simp [Libm.ofTotal, Mat3.coeff, Vec3.coeff, h3]

/-! ## The orientation-prior residual -/

theorem two_pi_mul_ne (k : ℤ) :
    2 * (k : ℝ) * Real.pi ≠ 360 ∧ 2 * (k : ℝ) * Real.pi ≠ -358 := by
  have h1 := Real.pi_gt_d4
  have h2 := Real.pi_lt_d4
  have hpos := Real.pi_pos
  constructor
  · intro h
    rcases le_or_lt k 57 with h57 | h58
    · have : (k : ℝ) ≤ 57 := by exact_mod_cast h57
      nlinarith
    · have : (58 : ℝ) ≤ k := by exact_mod_cast h58
      nlinarith
  · intro h
    rcases le_or_lt k (-58) with hlo | hhi
    · have : (k : ℝ) ≤ -58 := by exact_mod_cast hlo
      nlinarith
    · rcases eq_or_lt_of_le (Int.add_one_le_iff.mpr hhi) with heq | hgt
      · have hk : (k : ℝ) = -57 := by
          have : k = -57 := by omega
          exact_mod_cast this
        rw [hk] at h
        nlinarith
      · have : (-56 : ℝ) ≤ k := by
          have : -56 ≤ k := by omega
          exact_mod_cast this
        nlinarith

theorem cos_359_ne_cos_one : Real.cos 359 ≠ Real.cos 1 := by
  intro h
  obtain ⟨k, hk⟩ := Real.cos_eq_cos_iff.mp h
  rcases hk with hk | hk
  · exact (two_pi_mul_ne k).2 (by linarith)
  · exact (two_pi_mul_ne k).1 (by linarith)

/-- C10, at weight 1 and pose yaw 0 (identity rotation): the headings 359 degrees, stored
by `getImgDirection` from the EXIF `GPSImgDirection`, and -1 degree, stored from the XMP
`YawDegree`, are one full turn apart, and the residuals of the functor against them
differ.  The functor passes the stored degrees to `cos` and `sin`, which take radians. -/
theorem PoseRotationConstraintCostFunction_residual_not_invariant_360 :
    PoseRotationConstraintCostFunction.residualAtYaw
        (Libm.ofTotal Real.arcsin (fun y x => Complex.arg ⟨x, y⟩) Real.cos Real.sin Real.sqrt)
        { weight_ := 1
          pose_rotation_constraint_ := (getImgDirection 1 (some 359) none Mat3.Identity).2 } 0
      ≠ PoseRotationConstraintCostFunction.residualAtYaw
        (Libm.ofTotal Real.arcsin (fun y x => Complex.arg ⟨x, y⟩) Real.cos Real.sin Real.sqrt)
        { weight_ := 1
          pose_rotation_constraint_ :=
            (getImgDirection 1 none (some (-1, 0, 0)) Mat3.Identity).2 } 0 := by
  have key : ∀ p : ℝ, (Real.cos 0 - Real.cos p) ^ 2 + (Real.sin 0 - Real.sin p) ^ 2
      = 2 - 2 * Real.cos p := by
    intro p
    have := Real.sin_sq_add_cos_sq p
    rw [Real.cos_zero, Real.sin_zero]
    nlinarith
  simp only [PoseRotationConstraintCostFunction.residualAtYaw, getImgDirection, Libm.ofTotal,
    Mat3.coeff, Vec3.coeff, ne_eq, not_true_eq_false, if_false, one_mul, key]
  intro h
  have hcos : Real.cos 359 = Real.cos 1 := by
    have : Real.cos (-1) = Real.cos 1 := Real.cos_neg 1
    linarith
  exact cos_359_ne_cos_one hcos

/-- The residual of the functor is unchanged by a full turn, in radians, of the pose yaw
and of the stored prior yaw. -/
theorem PoseRotationConstraintCostFunction_residual_periodic (asin atan2 sqrt)
    (weight yaw : ℝ) (P : Mat3 ℝ) (n : ℤ) :
    PoseRotationConstraintCostFunction.residualAtYaw
        (Libm.ofTotal asin atan2 Real.cos Real.sin sqrt)
        { weight_ := weight, pose_rotation_constraint_ := P } (yaw + n * (2 * Real.pi))
      = PoseRotationConstraintCostFunction.residualAtYaw
        (Libm.ofTotal asin atan2 Real.cos Real.sin sqrt)
        { weight_ := weight, pose_rotation_constraint_ := P } yaw
    ∧ PoseRotationConstraintCostFunction.residualAtYaw
        (Libm.ofTotal asin atan2 Real.cos Real.sin sqrt)
        { weight_ := weight
          pose_rotation_constraint_ := { P with r0 := { P.r0 with x := P.r0.x + n * (2 * Real.pi) } } }
        yaw
      = PoseRotationConstraintCostFunction.residualAtYaw
        (Libm.ofTotal asin atan2 Real.cos Real.sin sqrt)
        { weight_ := weight, pose_rotation_constraint_ := P } yaw := by
  simp only [PoseRotationConstraintCostFunction.residualAtYaw, Libm.ofTotal, Mat3.coeff,
    Vec3.coeff, Real.cos_add_int_mul_two_pi, Real.sin_add_int_mul_two_pi, and_self]


/-- C19: the residual of the orientation-prior functor on a pose is the expression below at
the yaw `a` that `getAngles` reads from the rotation of the pose, and for every weight `w`,
yaw `a` and stored prior yaw `b = pose_rotation_constraint_(0,0)` that expression is
`w * ((cos a - cos b)^2 + (sin a - sin b)^2) = 2 * w * (1 - cos (a - b))`; for `w > 0` it
is at least 0, at most `4 * w`, and 0 exactly when `a - b` is an integer multiple of
`2 * pi`. -/
theorem PoseRotationConstraintCostFunction_residual_formula (asin : ℝ → ℝ)
    (atan2 : ℝ → ℝ → ℝ) (sqrt : ℝ → ℝ) (rot : CeresRotation ℝ) (w : ℝ) (P : Mat3 ℝ) :
    (∀ cam_extrinsics : Fin 6 → ℝ,
      PoseRotationConstraintCostFunction.residuals
          (Libm.ofTotal asin atan2 Real.cos Real.sin sqrt) rot
          { weight_ := w, pose_rotation_constraint_ := P } cam_extrinsics
        = PoseRotationConstraintCostFunction.residualAtYaw
          (Libm.ofTotal asin atan2 Real.cos Real.sin sqrt)
          { weight_ := w, pose_rotation_constraint_ := P }
          (getAngles (Libm.ofTotal asin atan2 Real.cos Real.sin sqrt)
            (rot.AngleAxisToRotationMatrix
              ⟨cam_extrinsics 0, cam_extrinsics 1, cam_extrinsics 2⟩)).Z)
    ∧ ∀ a : ℝ,
      PoseRotationConstraintCostFunction.residualAtYaw
          (Libm.ofTotal asin atan2 Real.cos Real.sin sqrt)
          { weight_ := w, pose_rotation_constraint_ := P } a
        = w * ((Real.cos a - Real.cos (P 0 0)) ^ 2 + (Real.sin a - Real.sin (P 0 0)) ^ 2)
      ∧ PoseRotationConstraintCostFunction.residualAtYaw
          (Libm.ofTotal asin atan2 Real.cos Real.sin sqrt)
          { weight_ := w, pose_rotation_constraint_ := P } a
        = 2 * w * (1 - Real.cos (a - P 0 0))
      ∧ (0 < w →
          0 ≤ PoseRotationConstraintCostFunction.residualAtYaw
              (Libm.ofTotal asin atan2 Real.cos Real.sin sqrt)
              { weight_ := w, pose_rotation_constraint_ := P } a
          ∧ PoseRotationConstraintCostFunction.residualAtYaw
              (Libm.ofTotal asin atan2 Real.cos Real.sin sqrt)
              { weight_ := w, pose_rotation_constraint_ := P } a ≤ 4 * w
          ∧ (PoseRotationConstraintCostFunction.residualAtYaw
              (Libm.ofTotal asin atan2 Real.cos Real.sin sqrt)
              { weight_ := w, pose_rotation_constraint_ := P } a = 0
            ↔ ∃ k : ℤ, a - P 0 0 = k * (2 * Real.pi))) := by
  refine ⟨fun _ => rfl, fun a => ?_⟩
  have hdef : PoseRotationConstraintCostFunction.residualAtYaw
      (Libm.ofTotal asin atan2 Real.cos Real.sin sqrt)
      { weight_ := w, pose_rotation_constraint_ := P } a
      = w * ((Real.cos a - Real.cos (P 0 0)) ^ 2 + (Real.sin a - Real.sin (P 0 0)) ^ 2) := rfl
  have hcos : w * ((Real.cos a - Real.cos (P 0 0)) ^ 2 + (Real.sin a - Real.sin (P 0 0)) ^ 2)
      = 2 * w * (1 - Real.cos (a - P 0 0)) := by
    rw [Real.cos_sub]
    linear_combination w * Real.sin_sq_add_cos_sq a + w * Real.sin_sq_add_cos_sq (P 0 0)
  refine ⟨hdef, hdef.trans hcos, fun hw => ?_⟩
  rw [hdef, hcos]
  have h1 := Real.neg_one_le_cos (a - P 0 0)
  have h2 := Real.cos_le_one (a - P 0 0)
  refine ⟨by nlinarith, by nlinarith, ?_⟩
  constructor
  · intro h0
    have hc : Real.cos (a - P 0 0) = 1 := by
      have : 2 * w ≠ 0 := by positivity
      have := (mul_eq_zero.mp h0).resolve_left this
      linarith
    obtain ⟨k, hk⟩ := (Real.cos_eq_one_iff _).mp hc
    exact ⟨k, hk.symm⟩
  · rintro ⟨k, hk⟩
    have hc : Real.cos (a - P 0 0) = 1 := (Real.cos_eq_one_iff _).mpr ⟨k, hk.symm⟩
    rw [hc]
    ring

/-- C19, witness: weight 1, the prior yaw stored in the identity matrix (`b = 1`) and the
pose yaw `a = 1`: the residual is 0. -/
theorem PoseRotationConstraintCostFunction_residual_formula_witness :
    (0 : ℝ) < 1
    ∧ PoseRotationConstraintCostFunction.residualAtYaw
        (Libm.ofTotal Real.arcsin (fun y x => Complex.arg ⟨x, y⟩) Real.cos Real.sin Real.sqrt)
        { weight_ := 1, pose_rotation_constraint_ := Mat3.Identity } 1 = 0 :=
  ⟨one_pos,
    ((((PoseRotationConstraintCostFunction_residual_formula Real.arcsin
      (fun y x => Complex.arg ⟨x, y⟩) Real.sqrt
      ⟨fun _ p => p, fun _ => Mat3.Identity, fun _ => 0⟩ 1 Mat3.Identity).2 1).2.2
      one_pos).2.2).mpr ⟨0, by simp [Mat3.Identity, Mat3.coeff, Vec3.coeff]⟩⟩

/-! ## `getAngles` on a product of elementary rotations -/

theorem arg_of_scaled_cos_sin (r θ : ℝ) (hr : 0 < r) (hθ : θ ∈ Set.Ioc (-Real.pi) Real.pi) :
    Complex.arg ⟨r * Real.cos θ, r * Real.sin θ⟩ = θ := by
  have h : (⟨r * Real.cos θ, r * Real.sin θ⟩ : ℂ)
      = (r : ℂ) * (Complex.cos θ + Complex.sin θ * Complex.I) := by
    apply Complex.ext
    · simp [← Complex.ofReal_cos, ← Complex.ofReal_sin]
    · simp [← Complex.ofReal_cos, ← Complex.ofReal_sin]
  rw [h]
  exact Complex.arg_mul_cos_add_sin_mul_I hr hθ

/-- C20, counterexample: the matrix that `getImgDirection` leaves for the XMP angles yaw
10, pitch 0, roll 5 (degrees), written over the identity, has `R(0,2) = 5`; `getAngles`
takes the branch off gimbal lock, and `Y = asin(5)` has no value (NaN). -/
theorem getAngles_Y_undefined_off_gimbal_lock :
    (getImgDirection 1 none (some ((10 : ℝ), 0, 5)) Mat3.Identity).2
      = ⟨⟨10, 0, 5⟩, ⟨0, 1, 0⟩, ⟨0, 0, 1⟩⟩
    ∧ ¬ |(|(⟨⟨10, 0, 5⟩, ⟨0, 1, 0⟩, ⟨0, 0, 1⟩⟩ : Mat3 ℝ) 0 2| - 1)| < EPS
    ∧ (getAngles (Libm.ofTotal Real.arcsin (fun y x => Complex.arg ⟨x, y⟩) Real.cos Real.sin
          Real.sqrt) (⟨⟨10, 0, 5⟩, ⟨0, 1, 0⟩, ⟨0, 0, 1⟩⟩ : Mat3 ℝ)).Y = none := by
  have h : ¬ |(|(⟨⟨10, 0, 5⟩, ⟨0, 1, 0⟩, ⟨0, 0, 1⟩⟩ : Mat3 ℝ) 0 2| - 1)| < EPS := by
    show ¬ |(|(5 : ℝ)| - 1)| < 1 / 1000000
    rw [abs_of_pos (by norm_num : (0 : ℝ) < 5), abs_of_pos (by norm_num : (0 : ℝ) < 5 - 1)]
    norm_num
  refine ⟨rfl, h, ?_⟩
  have h5 : ¬ |(5 : ℝ)| ≤ 1 := by
    rw [abs_of_pos (by norm_num : (0 : ℝ) < 5)]
    norm_num
  simp only [getAngles, h, if_false]
  simp [Libm.ofTotal, Mat3.coeff, Vec3.coeff, h5]

/-- The cells of `Rx(x) * Ry(y) * Rz(z)` that `getAngles` reads. -/
theorem Rx_Ry_Rz_cells (m : Libm α) (x y z : α) :
    (((Rx m x).mul (Ry m y)).mul (Rz m z)) 0 2 = m.sin y
    ∧ (((Rx m x).mul (Ry m y)).mul (Rz m z)) 1 2 = -(m.sin x * m.cos y)
    ∧ (((Rx m x).mul (Ry m y)).mul (Rz m z)) 2 2 = m.cos x * m.cos y
    ∧ (((Rx m x).mul (Ry m y)).mul (Rz m z)) 0 1 = -(m.cos y * m.sin z)
    ∧ (((Rx m x).mul (Ry m y)).mul (Rz m z)) 0 0 = m.cos y * m.cos z := by
  simp only [Rx, Ry, Rz, Mat3.mul, Mat3.transpose, Vec3.dot, Mat3.coeff, Vec3.coeff]
  refine ⟨?_, ?_, ?_, ?_, ?_⟩ <;> ring

/-- C20, amended: with the functions of the C library on the reals, `getAngles` inverts
the product `Rx(x) * Ry(y) * Rz(z)` away from gimbal lock and away from the half turn: for
`x` and `z` in the open interval `(-pi, pi)` and `y` in `(-pi/2, pi/2)` with
`| |sin y| - 1 | >= 1e-6` it returns `(x, y, z)`.  For every matrix of numbers it returns
`X` and `Z` in the closed interval `[-pi, pi]`, and when the cell `R(0,2)` is in `[-1, 1]`,
as in every rotation matrix, a `Y` in `[-pi/2, pi/2]`.

The half turn is left out of the first part, and `-pi` is kept in the second, because of
the zero of the code's scalars: for `x = pi` or `z = pi` the first argument of `atan2` is
the negation of a zero cell and the second is negative, and `atan2(-0.0, c)` with `c < 0`
is `-pi`, where `atan2(+0.0, c)` is `pi`.  For `x` and `z` inside `(-pi, pi)` a zero first
argument meets a positive second argument, and `atan2` is a zero of either sign. -/
theorem getAngles_inverts_Rx_Ry_Rz :
    (∀ x y z : ℝ, x ∈ Set.Ioo (-Real.pi) Real.pi → z ∈ Set.Ioo (-Real.pi) Real.pi →
        y ∈ Set.Ioo (-(Real.pi / 2)) (Real.pi / 2) → EPS ≤ |(|Real.sin y| - 1)| →
        getAngles
            (Libm.ofTotal Real.arcsin (fun y x => Complex.arg ⟨x, y⟩) Real.cos Real.sin
              Real.sqrt)
            (((Rx (Libm.ofTotal Real.arcsin (fun y x => Complex.arg ⟨x, y⟩) Real.cos Real.sin
                  Real.sqrt) x).mul
                (Ry (Libm.ofTotal Real.arcsin (fun y x => Complex.arg ⟨x, y⟩) Real.cos
                  Real.sin Real.sqrt) y)).mul
              (Rz (Libm.ofTotal Real.arcsin (fun y x => Complex.arg ⟨x, y⟩) Real.cos Real.sin
                Real.sqrt) z))
          = { X := x, Y := some y, Z := z })
    ∧ ∀ R : Mat3 ℝ,
        (getAngles (Libm.ofTotal Real.arcsin (fun y x => Complex.arg ⟨x, y⟩) Real.cos
            Real.sin Real.sqrt) R).X ∈ Set.Icc (-Real.pi) Real.pi
        ∧ (getAngles (Libm.ofTotal Real.arcsin (fun y x => Complex.arg ⟨x, y⟩) Real.cos
            Real.sin Real.sqrt) R).Z ∈ Set.Icc (-Real.pi) Real.pi
        ∧ (|R 0 2| ≤ 1 → ∃ Y,
            (getAngles (Libm.ofTotal Real.arcsin (fun y x => Complex.arg ⟨x, y⟩) Real.cos
              Real.sin Real.sqrt) R).Y = some Y
            ∧ Y ∈ Set.Icc (-(Real.pi / 2)) (Real.pi / 2)) := by
  constructor
  · intro x y z hx hz hy hgimbal
    obtain ⟨h02, h12, h22, h01, h00⟩ := Rx_Ry_Rz_cells
      (Libm.ofTotal Real.arcsin (fun y x => Complex.arg ⟨x, y⟩) Real.cos Real.sin Real.sqrt)
      x y z
    have hcy : 0 < Real.cos y := Real.cos_pos_of_mem_Ioo ⟨hy.1, hy.2⟩
    unfold getAngles
    simp only [h02, h12, h22, h01, h00]
    have hnot : ¬ |(|Real.sin y| - 1)| < EPS := not_lt.mpr hgimbal
    show (if |(|Real.sin y| - 1)| < EPS then _ else _) = _
    rw [if_neg hnot]
    show EulerAngles.mk
        (Complex.arg ⟨Real.cos x * Real.cos y, -(-(Real.sin x * Real.cos y))⟩)
        (if |Real.sin y| ≤ 1 then some (Real.arcsin (Real.sin y)) else none)
        (Complex.arg ⟨Real.cos y * Real.cos z, -(-(Real.cos y * Real.sin z))⟩) = _
    rw [if_pos (Real.abs_sin_le_one y), Real.arcsin_sin hy.1.le hy.2.le, neg_neg, neg_neg,
      mul_comm (Real.cos x) (Real.cos y), mul_comm (Real.sin x) (Real.cos y),
      arg_of_scaled_cos_sin _ _ hcy ⟨hx.1, hx.2.le⟩,
      arg_of_scaled_cos_sin _ _ hcy ⟨hz.1, hz.2.le⟩]
  · intro R
    have hzero : (0 : ℝ) ∈ Set.Icc (-Real.pi) Real.pi :=
      ⟨(neg_lt_zero.mpr Real.pi_pos).le, Real.pi_pos.le⟩
    have harg : ∀ c : ℂ, Complex.arg c ∈ Set.Icc (-Real.pi) Real.pi := fun c =>
      ⟨(Complex.arg_mem_Ioc c).1.le, (Complex.arg_mem_Ioc c).2⟩
    refine ⟨?_, ?_, ?_⟩
    · unfold getAngles
      split_ifs
      · exact harg _
      · exact harg _
    · unfold getAngles
      split_ifs
      · exact hzero
      · exact harg _
    · intro hR
      refine ⟨Real.arcsin (R 0 2), ?_, Real.arcsin_mem_Icc _⟩
      unfold getAngles
      split_ifs <;> simp [Libm.ofTotal, hR]

/-- C20, witness: `x = pi/4`, `y = pi/6`, `z = -pi/3`, a product none of whose cells read
by `getAngles` is zero: `R(0,2) = sin y = 1/2`, so the branch off gimbal lock is taken. -/
theorem getAngles_inverts_Rx_Ry_Rz_witness :
    Real.pi / 4 ∈ Set.Ioo (-Real.pi) Real.pi
    ∧ -(Real.pi / 3) ∈ Set.Ioo (-Real.pi) Real.pi
    ∧ Real.pi / 6 ∈ Set.Ioo (-(Real.pi / 2)) (Real.pi / 2)
    ∧ EPS ≤ |(|Real.sin (Real.pi / 6)| - 1)|
    ∧ getAngles
        (Libm.ofTotal Real.arcsin (fun y x => Complex.arg ⟨x, y⟩) Real.cos Real.sin Real.sqrt)
        (((Rx (Libm.ofTotal Real.arcsin (fun y x => Complex.arg ⟨x, y⟩) Real.cos Real.sin
              Real.sqrt) (Real.pi / 4)).mul
            (Ry (Libm.ofTotal Real.arcsin (fun y x => Complex.arg ⟨x, y⟩) Real.cos
              Real.sin Real.sqrt) (Real.pi / 6))).mul
          (Rz (Libm.ofTotal Real.arcsin (fun y x => Complex.arg ⟨x, y⟩) Real.cos Real.sin
            Real.sqrt) (-(Real.pi / 3))))
      = { X := Real.pi / 4, Y := some (Real.pi / 6), Z := -(Real.pi / 3) } :=
  have hx : Real.pi / 4 ∈ Set.Ioo (-Real.pi) Real.pi := by
    constructor <;> linarith [Real.pi_pos]
  have hz : -(Real.pi / 3) ∈ Set.Ioo (-Real.pi) Real.pi := by
    constructor <;> linarith [Real.pi_pos]
  have hy : Real.pi / 6 ∈ Set.Ioo (-(Real.pi / 2)) (Real.pi / 2) := by
    constructor <;> linarith [Real.pi_pos]
  have heps : (EPS : ℝ) ≤ |(|Real.sin (Real.pi / 6)| - 1)| := by
    unfold EPS
    rw [Real.sin_pi_div_six, abs_of_pos (by norm_num : (0 : ℝ) < 1 / 2),
      abs_of_neg (by norm_num : (1 / 2 : ℝ) - 1 < 0)]
    norm_num
  ⟨hx, hz, hy, heps,
    getAngles_inverts_Rx_Ry_Rz.1 (Real.pi / 4) (Real.pi / 6) (-(Real.pi / 3)) hx hz hy heps⟩

/-! ## The pose written back under `ADJUST_ROTATION` -/

theorem Complex.arg_mk_one_zero : Complex.arg ⟨1, 0⟩ = 0 := by
  have h : (⟨1, 0⟩ : ℂ) = 1 := by
    apply Complex.ext <;> simp
  rw [h, Complex.arg_one]

theorem Mat3.neg_rows {β : Type} [Neg β] (R : Mat3 β) : -R = ⟨-R.r0, -R.r1, -R.r2⟩ := rfl

/-- C22, for a pose with the identity rotation and the center `(1, 0, 0)`, whose
translation is `(-1, 0, 0)`: its parameter block is `[0, 0, 0, -1, 0, 0]`, and under
`ADJUST_ROTATION` the cells 3, 4, 5 are held constant.  When the solver leaves the block
`[0, 0, pi/2, -1, 0, 0]` (a quarter turn about z, the translation as it was), the
write-back stores the rotation of the block and keeps the center: the translation of the
pose written back is `(0, -1, 0)`, not the `(-1, 0, 0)` of the block.  On the same block
the branch of `ADJUST_ALL` computes the center `(0, -1, 0)` from the block, and the pose
it writes has the translation `(-1, 0, 0)` of the block. -/
theorem refinedPose_ADJUST_ROTATION_moves_translation :
    poseParameters
        (Examples.rotationAboutZ (Libm.ofTotal Real.arcsin (fun y x => Complex.arg ⟨x, y⟩)
          Real.cos Real.sin Real.sqrt))
        ⟨Mat3.Identity, ⟨1, 0, 0⟩⟩ = [0, 0, 0, -1, 0, 0]
    ∧ vec_constant_extrinsic .ADJUST_ROTATION = [3, 4, 5]
    ∧ refinedPose
        (Examples.rotationAboutZ (Libm.ofTotal Real.arcsin (fun y x => Complex.arg ⟨x, y⟩)
          Real.cos Real.sin Real.sqrt))
        .ADJUST_ROTATION [0, 0, Real.pi / 2, -1, 0, 0] ⟨Mat3.Identity, ⟨1, 0, 0⟩⟩
      = ⟨⟨⟨0, -1, 0⟩, ⟨1, 0, 0⟩, ⟨0, 0, 1⟩⟩, ⟨1, 0, 0⟩⟩
    ∧ Pose3.translation (⟨⟨⟨0, -1, 0⟩, ⟨1, 0, 0⟩, ⟨0, 0, 1⟩⟩, ⟨1, 0, 0⟩⟩ : Pose3 ℝ)
      = ⟨0, -1, 0⟩
    ∧ (⟨0, -1, 0⟩ : Vec3 ℝ) ≠ ⟨-1, 0, 0⟩
    ∧ refinedPose
        (Examples.rotationAboutZ (Libm.ofTotal Real.arcsin (fun y x => Complex.arg ⟨x, y⟩)
          Real.cos Real.sin Real.sqrt))
        .ADJUST_ALL [0, 0, Real.pi / 2, -1, 0, 0] ⟨Mat3.Identity, ⟨1, 0, 0⟩⟩
      = ⟨⟨⟨0, -1, 0⟩, ⟨1, 0, 0⟩, ⟨0, 0, 1⟩⟩, ⟨0, -1, 0⟩⟩
    ∧ Pose3.translation (⟨⟨⟨0, -1, 0⟩, ⟨1, 0, 0⟩, ⟨0, 0, 1⟩⟩, ⟨0, -1, 0⟩⟩ : Pose3 ℝ)
      = ⟨-1, 0, 0⟩ := by
  refine ⟨?_, rfl, ?_, ?_, ?_, ?_, ?_⟩
  · simp [poseParameters, Examples.rotationAboutZ, Libm.ofTotal, Pose3.rotation,
      Pose3.translation, Mat3.Identity, Mat3.mulVec, Vec3.dot, Mat3.coeff, Vec3.coeff,
      Vec3.neg_def, Complex.arg_mk_one_zero]
  · simp [refinedPose, Examples.rotationAboutZ, Libm.ofTotal, Rz, Mat3.Identity]
  · simp [Pose3.translation, Mat3.mulVec, Vec3.dot, Vec3.neg_def]
  · intro h
    have hx := congrArg Vec3.x h
    norm_num at hx
  · simp [refinedPose, Examples.rotationAboutZ, Libm.ofTotal, Rz, Mat3.Identity,
      Mat3.transpose, Mat3.mulVec, Vec3.dot, Mat3.neg_rows, Vec3.neg_def]
  · simp [Pose3.translation, Mat3.mulVec, Vec3.dot, Vec3.neg_def]

/-- The translation of the pose with the rotation `R` and the center `-R^T * t` is `t`,
when `R * R^T` is the identity. -/
theorem Pose3.translation_of_refined (R : Mat3 α) (t : Vec3 α)
    (hR : R.mul R.transpose = Mat3.Identity) :
    Pose3.translation { rotation_ := R, center_ := (-R.transpose).mulVec t } = t := by
  obtain ⟨⟨a, b, c⟩, ⟨d, e, f⟩, ⟨g, h, i⟩⟩ := R
  obtain ⟨x, y, z⟩ := t
  simp only [Mat3.mul, Mat3.transpose, Mat3.Identity, Vec3.dot, Mat3.mk.injEq,
    Vec3.mk.injEq] at hR
  obtain ⟨⟨h11, h12, h13⟩, ⟨h21, h22, h23⟩, ⟨h31, h32, h33⟩⟩ := hR
  simp only [Pose3.translation, Mat3.transpose, Mat3.mulVec, Vec3.dot, Mat3.neg_rows,
    Vec3.neg_def, Vec3.mk.injEq]
  refine ⟨?_, ?_, ?_⟩
  · linear_combination x * h11 + y * h12 + z * h13
  · linear_combination x * h21 + y * h22 + z * h23
  · linear_combination x * h31 + y * h32 + z * h33

/-- The pose the write-back stores, by policy, next to the pose its block encodes (the
rotation `R_refined` of the cells 0, 1, 2, which is orthogonal, and the translation
`t_refined` of the cells 3, 4, 5).  Under `ADJUST_ALL` it has the rotation and the
translation of the block; under `ADJUST_TRANSLATION` too, when the pose had the rotation
of the block; under `ADJUST_ROTATION` it has the rotation of the block and the
translation `-R_refined * C` of the center `C` it had. -/
theorem refinedPose_and_block (rot : CeresRotation α) (block : List α) (pose : Pose3 α)
    (hR : (rot.AngleAxisToRotationMatrix ⟨block.getD 0 0, block.getD 1 0, block.getD 2 0⟩).mul
        (rot.AngleAxisToRotationMatrix
          ⟨block.getD 0 0, block.getD 1 0, block.getD 2 0⟩).transpose = Mat3.Identity) :
    ((refinedPose rot .ADJUST_ALL block pose).rotation
        = rot.AngleAxisToRotationMatrix ⟨block.getD 0 0, block.getD 1 0, block.getD 2 0⟩
      ∧ (refinedPose rot .ADJUST_ALL block pose).translation
        = ⟨block.getD 3 0, block.getD 4 0, block.getD 5 0⟩)
    ∧ (pose.rotation
          = rot.AngleAxisToRotationMatrix ⟨block.getD 0 0, block.getD 1 0, block.getD 2 0⟩ →
        (refinedPose rot .ADJUST_TRANSLATION block pose).rotation
          = rot.AngleAxisToRotationMatrix ⟨block.getD 0 0, block.getD 1 0, block.getD 2 0⟩
        ∧ (refinedPose rot .ADJUST_TRANSLATION block pose).translation
          = ⟨block.getD 3 0, block.getD 4 0, block.getD 5 0⟩)
    ∧ ((refinedPose rot .ADJUST_ROTATION block pose).rotation
        = rot.AngleAxisToRotationMatrix ⟨block.getD 0 0, block.getD 1 0, block.getD 2 0⟩
      ∧ (refinedPose rot .ADJUST_ROTATION block pose).translation
        = -((rot.AngleAxisToRotationMatrix
            ⟨block.getD 0 0, block.getD 1 0, block.getD 2 0⟩).mulVec pose.center)) := by
  refine ⟨⟨rfl, ?_⟩, fun hrot => ⟨?_, ?_⟩, ⟨rfl, rfl⟩⟩
  · exact Pose3.translation_of_refined _ _ hR
  · exact hrot
  · have hrot' : pose.rotation_
        = rot.AngleAxisToRotationMatrix ⟨block.getD 0 0, block.getD 1 0, block.getD 2 0⟩ := hrot
    have hpose : refinedPose rot .ADJUST_TRANSLATION block pose
        = { rotation_ := pose.rotation_
            center_ := (-(rot.AngleAxisToRotationMatrix
              ⟨block.getD 0 0, block.getD 1 0, block.getD 2 0⟩).transpose).mulVec
                ⟨block.getD 3 0, block.getD 4 0, block.getD 5 0⟩ } := rfl
    rw [hpose, hrot']
    exact Pose3.translation_of_refined _ _ hR

/-- Witness of `refinedPose_and_block`: the identity rotation and the block
`[0, 0, 0, -1, 2, 0]`. -/
theorem refinedPose_and_block_witness :
    (Examples.rotation.AngleAxisToRotationMatrix ⟨0, 0, 0⟩).mul
        (Examples.rotation.AngleAxisToRotationMatrix ⟨0, 0, 0⟩).transpose = Mat3.Identity
    ∧ (refinedPose Examples.rotation .ADJUST_ALL [0, 0, 0, -1, 2, 0]
        ⟨Mat3.Identity, ⟨5, 5, 5⟩⟩).translation = ⟨-1, 2, 0⟩ :=
  ⟨by decide!,
    (refinedPose_and_block Examples.rotation [0, 0, 0, -1, 2, 0] ⟨Mat3.Identity, ⟨5, 5, 5⟩⟩
      (by decide!)).1.2⟩

/-! ## The prior yaw of the registration and of the cost functor -/

theorem cos_ninety_ne_one : Real.cos 90 ≠ 1 := by
  intro h
  obtain ⟨n, hn⟩ := (Real.cos_eq_one_iff 90).mp h
  have h1 := Real.pi_gt_d2
  have h2 := Real.pi_lt_d2
  rcases le_or_lt n 14 with hle | hgt
  · have : (n : ℝ) ≤ 14 := by exact_mod_cast hle
    nlinarith
  · have : (15 : ℝ) ≤ n := by exact_mod_cast hgt
    nlinarith

theorem Complex.arg_mk_pos_zero (x : ℝ) (hx : 0 ≤ x) : Complex.arg ⟨x, 0⟩ = 0 := by
  have h : (⟨x, 0⟩ : ℂ) = (x : ℂ) := by
    apply Complex.ext <;> simp
  rw [h, Complex.arg_ofReal_of_nonneg hx]

/-- The yaw `getAngles` reads from a matrix whose first row is `(d, 0, 0)` with `d ≥ 0`,
off gimbal lock: `atan2(-0, d) = 0`. -/
theorem getAngles_Z_of_heading (d : ℝ) (hd : 0 ≤ d) (r1 r2 : Vec3 ℝ) :
    (getAngles (Libm.ofTotal Real.arcsin (fun y x => Complex.arg ⟨x, y⟩) Real.cos Real.sin
      Real.sqrt) ⟨⟨d, 0, 0⟩, r1, r2⟩).Z = 0 := by
  have hg : ¬ |(|(0 : ℝ)| - 1)| < EPS := by
    unfold EPS
    norm_num
  simp only [getAngles, Mat3.coeff, Vec3.coeff, hg, if_false, Libm.ofTotal, neg_zero]
  exact Complex.arg_mk_pos_zero d hd

/-- The residual of the orientation-prior functor in closed form. -/
theorem PoseRotationConstraintCostFunction_residual_bridge (w : ℝ) (P : Mat3 ℝ) (a : ℝ) :
    PoseRotationConstraintCostFunction.residualAtYaw
        (Libm.ofTotal Real.arcsin (fun y x => Complex.arg ⟨x, y⟩) Real.cos Real.sin Real.sqrt)
        { weight_ := w, pose_rotation_constraint_ := P } a
      = 2 * w * (1 - Real.cos (a - P 0 0)) := by
  show w * ((Real.cos a - Real.cos (P 0 0)) ^ 2 + (Real.sin a - Real.sin (P 0 0)) ^ 2) = _
  rw [Real.cos_sub]
  linear_combination w * Real.sin_sq_add_cos_sq a + w * Real.sin_sq_add_cos_sq (P 0 0)

/-- C23, for the prior matrix `getImgDirection` leaves for the EXIF direction 90, written
over the identity, on a view whose pose has the identity rotation.  The registration (and
the final statistics, by the same statements) pairs the pose yaw 0 with the prior yaw
`getAngles(prior->pose_rotation_)[2] = atan2(-0, 90) = 0`: the two `(cos, sin)` pairs are
equal.  The cost functor built for the same view reads the prior yaw as
`pose_rotation_constraint_(0,0) = 90`, and its residual at the pose yaw 0 is not 0. -/
theorem prior_yaw_of_registration_is_not_that_of_the_functor :
    (getImgDirection 1 (some (90 : ℝ)) none Mat3.Identity).2 = Examples.headingMatrix 90
    ∧ viewCorrespondences
        (Libm.ofTotal Real.arcsin (fun y x => Complex.arg ⟨x, y⟩) Real.cos Real.sin Real.sqrt)
        (Examples.headingScene (Examples.headingMatrix 90))
        (Examples.headingView (Examples.headingMatrix 90))
      = .ok ⟨[], [], [⟨1, 0⟩], [⟨1, 0⟩]⟩
    ∧ viewPriorResiduals PriorRegistration.initial
        (Examples.headingScene (Examples.headingMatrix (90 : ℝ))) [(0, [0, 0, 0, 0, 0, 0])]
        (Examples.headingView (Examples.headingMatrix 90))
      = .ok [.AddResidualBlock
          (.pose_rotation
            { weight_ := 1, pose_rotation_constraint_ := Examples.headingMatrix 90 })
          (some (.HuberLoss (Square 0))) [.pose 0]]
    ∧ (Examples.headingMatrix (90 : ℝ)) 0 0 = 90
    ∧ (getAngles (Libm.ofTotal Real.arcsin (fun y x => Complex.arg ⟨x, y⟩) Real.cos Real.sin
        Real.sqrt) (Examples.headingMatrix 90)).Z = 0
    ∧ PoseRotationConstraintCostFunction.residualAtYaw
        (Libm.ofTotal Real.arcsin (fun y x => Complex.arg ⟨x, y⟩) Real.cos Real.sin Real.sqrt)
        { weight_ := 1, pose_rotation_constraint_ := Examples.headingMatrix 90 } 0
      ≠ 0 := by
  have hZ90 : (getAngles (Libm.ofTotal Real.arcsin (fun y x => Complex.arg ⟨x, y⟩) Real.cos
      Real.sin Real.sqrt) (Examples.headingMatrix 90)).Z = 0 :=
    getAngles_Z_of_heading 90 (by norm_num) ⟨0, 1, 0⟩ ⟨0, 0, 1⟩
  have hZ1 : (getAngles (Libm.ofTotal Real.arcsin (fun y x => Complex.arg ⟨x, y⟩) Real.cos
      Real.sin Real.sqrt) Mat3.Identity).Z = 0 :=
    getAngles_Z_of_heading 1 (by norm_num) ⟨0, 1, 0⟩ ⟨0, 0, 1⟩
  have hdef : SfM_Data.IsPoseAndIntrinsicDefined
      (Examples.headingScene (Examples.headingMatrix (90 : ℝ)))
      (Examples.headingView (Examples.headingMatrix 90)) = true := by decide
  refine ⟨rfl, ?_, ?_, rfl, hZ90, ?_⟩
  · have hpose : Hash_Map.at_
        (Examples.headingScene (Examples.headingMatrix (90 : ℝ))).poses 0
        = .ok ⟨Mat3.Identity, ⟨0, 0, 0⟩⟩ := rfl
    unfold viewCorrespondences
    simp only [hdef, if_true]
    simp only [Examples.headingView, Bool.false_eq_true, if_false, if_true, hpose, bind,
      Except.bind, pure, Except.pure, Pose3.rotation, hZ90, hZ1]
    simp [Libm.ofTotal]
  · unfold viewPriorResiduals
    simp only [hdef, if_true]
    rfl
  · rw [PoseRotationConstraintCostFunction_residual_bridge]
    have hc := cos_ninety_ne_one
    simp only [Examples.headingMatrix, Mat3.coeff, Vec3.coeff, zero_sub, Real.cos_neg]
    intro h0
    apply hc
    linarith

/-- For a view with a usable orientation prior `P`: the registration pairs the view with
the prior yaw `getAngles(P)[2]`, and the cost functor added for the view holds `P` and
reads the prior yaw from its cell `P(0,0)`. -/
theorem prior_yaw_sources (m : Libm α) (s : SfM_Data α) (reg : PriorRegistration α)
    (mp : Hash_Map (List α)) (view : View α) (prior : ViewPriors α) (block : List α)
    (hp : view.priors = some prior) (hdef : s.IsPoseAndIntrinsicDefined view = true)
    (hrot : prior.b_use_pose_rotation_ = true)
    (hblock : Hash_Map.find mp view.id_view = some block) :
    (∃ c, viewCorrespondences m s view = .ok c
      ∧ c.R_GPS = [⟨m.cos (getAngles m prior.pose_rotation_).Z,
                    m.sin (getAngles m prior.pose_rotation_).Z⟩])
    ∧ (∃ calls, viewPriorResiduals reg s mp view = .ok calls
      ∧ ProblemCall.AddResidualBlock
          (.pose_rotation { weight_ := prior.rotation_weight_
                            pose_rotation_constraint_ := prior.pose_rotation_ })
          (some (.HuberLoss (Square reg.pose_rotation_robust_fitting_error)))
          [.pose view.id_view] ∈ calls)
    ∧ ∀ yaw, PoseRotationConstraintCostFunction.residualAtYaw m
          { weight_ := prior.rotation_weight_
            pose_rotation_constraint_ := prior.pose_rotation_ } yaw
        = prior.rotation_weight_ * ((m.cos yaw - m.cos (prior.pose_rotation_ 0 0)) ^ 2
          + (m.sin yaw - m.sin (prior.pose_rotation_ 0 0)) ^ 2) := by
  have hpose : ∃ pose, Hash_Map.at_ s.poses view.id_pose = .ok pose := by
    unfold SfM_Data.IsPoseAndIntrinsicDefined at hdef
    simp only [Bool.and_eq_true] at hdef
    have hc := hdef.2
    unfold Hash_Map.contains at hc
    unfold Hash_Map.at_
    cases hf : Hash_Map.find s.poses view.id_pose with
    | none => simp [hf] at hc
    | some pose => exact ⟨pose, rfl⟩
  obtain ⟨pose, hpose⟩ := hpose
  have hat : Hash_Map.at_ mp view.id_view = .ok block := by
    unfold Hash_Map.at_
    rw [hblock]
  refine ⟨?_, ?_, fun _ => rfl⟩
  · unfold viewCorrespondences
    simp only [hp, hdef, if_true, hrot, hpose, bind, Except.bind, pure, Except.pure]
    cases prior.b_use_pose_center_ <;> exact ⟨_, rfl, rfl⟩
  · unfold viewPriorResiduals
    simp only [hp, hdef, if_true, hrot, hat, bind, Except.bind, pure, Except.pure]
    cases prior.b_use_pose_center_ <;> exact ⟨_, rfl, by simp⟩

/-- Witness of `prior_yaw_sources`: the view of `headingScene`, over the rationals. -/
theorem prior_yaw_sources_witness :
    (Examples.headingScene (Examples.headingMatrix (90 : ℚ))).IsPoseAndIntrinsicDefined
        (Examples.headingView (Examples.headingMatrix 90)) = true
    ∧ ∃ c, viewCorrespondences Examples.libm (Examples.headingScene (Examples.headingMatrix 90))
          (Examples.headingView (Examples.headingMatrix 90)) = .ok c
        ∧ c.R_GPS = [⟨Examples.libm.cos
            (getAngles Examples.libm (Examples.headingMatrix 90)).Z,
          Examples.libm.sin (getAngles Examples.libm (Examples.headingMatrix 90)).Z⟩] :=
  ⟨by decide!,
    (prior_yaw_sources Examples.libm (Examples.headingScene (Examples.headingMatrix 90))
      PriorRegistration.initial [(0, [0, 0, 0, 0, 0, 0])]
      (Examples.headingView (Examples.headingMatrix 90))
      { b_use_pose_center_ := false, center_weight_ := ⟨1, 1, 1⟩, pose_center_ := ⟨0, 0, 0⟩
        b_use_pose_rotation_ := true, rotation_weight_ := 1
        pose_rotation_ := Examples.headingMatrix 90 }
      [0, 0, 0, 0, 0, 0] rfl (by decide!) rfl rfl).1⟩
end sfm

end openMVG
